import Mathlib

/-!
Verification development for the CactUScript language core
(lexer, parser, tree-walking interpreter, bytecode compiler and VM).

The definitions below are a shallow embedding, translated from
`src/cactuscript/{lexer,parser,interpreter,vm}.py`:
Python machine integers are `Int` (Python ints are arbitrary precision),
Python floats are modelled as `Rat` (the programs reasoned about below
never exercise rounding, infinities or NaN), fallible code returns
`Except`/result sums, and the reference-semantics of Python lists,
dicts, and `Environment` objects is modelled with explicit heaps
indexed by `Nat` references.  Recursion that is unbounded in Python
(tree-walking over call chains, loops, the VM dispatch loop) is fuelled.
-/

namespace CactUScript

/-! ### Bytecode model (`vm.py`: `OpCode`, `Instruction`, `CompiledFunction`) -/

/-- Literal payloads that `Compiler` ever places in a `PUSH` operand. -/
inductive Prim where
  | pint (n : Int)
  | pfloat (q : Rat)
  | pstr (s : String)
  | pbool (b : Bool)
  | pnone
deriving DecidableEq, Repr

/-- `vm.py` `Instruction`: one opcode together with its operand.
`LOOP`, `PRINT` are in the `OpCode` enum; the compiler never emits
`LOOP`, and `PRINT` pops and prints. -/
inductive Instruction where
  | push (v : Prim)
  | pop
  | dup
  | add | sub | mul | div | mod | pow | neg
  | eq | ne | lt | gt | le | ge
  | notOp
  | bitAnd | bitOr | bitXor | bitNot | shl | shr
  | load (name : String)
  | store (name : String)
  | defineI (name : String) (slot : Nat)
  | loadConst (idx : Nat)
  | jump (target : Nat)
  | jumpIfFalse (target : Nat)
  | jumpIfTrue (target : Nat)
  | call (numArgs : Nat)
  | retI
  | buildList (n : Nat)
  | buildMap (n : Nat)
  | index
  | storeIndex
  | getAttr (constIdx : Nat)
  | setAttr (constIdx : Nat)
  | printI
  | halt
  | nop
deriving DecidableEq, Repr

/-- `vm.py` `CompiledFunction`. -/
structure CompiledFn where
  name : String
  params : List String
  code : List Instruction
  numLocals : Nat
deriving DecidableEq, Repr

/-! ### Syntax tree (`ast_nodes.py`)

Only the node family that the claims exercise is embedded; `struct` /
`enum` / `contract` / `impl` / `lambda` / `await` nodes are omitted.
`Block` bodies are carried as plain statement lists (`execute_Block`
runs the list in order and returns the last value, which is exactly
`execStmts` below). -/

mutual

inductive Expr where
  | integerLiteral (value : Int)
  | floatLiteral (value : Rat)
  | stringLiteral (value : String)
  | booleanLiteral (value : Bool)
  | nullLiteral
  | listLiteral (elements : List Expr)
  | mapLiteral (pairs : List (Expr × Expr))
  | identifier (name : String)
  | memberAccess (object : Expr) (member : String)
  | indexAccess (object : Expr) (idx : Expr)
  | binaryOp (left : Expr) (op : String) (right : Expr)
  | unaryOp (op : String) (operand : Expr)
  | comparisonOp (left : Expr) (op : String) (right : Expr)
  | logicalOp (left : Expr) (op : String) (right : Expr)
  | functionCall (function : Expr) (arguments : List Expr)
  | methodCall (object : Expr) (method : String) (arguments : List Expr)
  | awaitExpr (expression : Expr)

inductive Stmt where
  | exprStmt (e : Expr)
  | varDecl (name : String) (tyAnn : Option String) (value : Option Expr) (isConst : Bool)
  | assign (target : Expr) (op : String) (value : Expr)
  | block (stmts : List Stmt)
  | ifStmt (cond : Expr) (thenB : List Stmt) (elifs : List (Expr × List Stmt))
      (elseB : Option (List Stmt))
  | whileStmt (cond : Expr) (body : List Stmt)
  | forStmt (varName : String) (iterable : Expr) (body : List Stmt)
  | breakStmt
  | continueStmt
  | returnStmt (value : Option Expr)
  | fnDecl (name : String) (params : List (String × Option String × Option Expr))
      (retTy : Option String) (body : List Stmt) (isAsync : Bool)
  | eventDecl (name : String) (fields : List (String × String))
  | emitStmt (eventName : String) (args : List Expr)

end

/-- The data of a `FunctionDeclaration` node, as captured inside a
`CactUScriptFunction` runtime value. -/
structure FnD where
  name : String
  params : List (String × Option String × Option Expr)
  retTy : Option String
  body : List Stmt
  isAsync : Bool

/-- The Python source-class name of an expression node
(`type(node).__name__`), used in runtime error messages. -/
def Expr.nodeName : Expr → String
  | .integerLiteral _ => "IntegerLiteral"
  | .floatLiteral _ => "FloatLiteral"
  | .stringLiteral _ => "StringLiteral"
  | .booleanLiteral _ => "BooleanLiteral"
  | .nullLiteral => "NullLiteral"
  | .listLiteral _ => "ListLiteral"
  | .mapLiteral _ => "MapLiteral"
  | .identifier _ => "Identifier"
  | .memberAccess _ _ => "MemberAccess"
  | .indexAccess _ _ => "IndexAccess"
  | .binaryOp _ _ _ => "BinaryOp"
  | .unaryOp _ _ => "UnaryOp"
  | .comparisonOp _ _ _ => "ComparisonOp"
  | .logicalOp _ _ _ => "LogicalOp"
  | .functionCall _ _ => "FunctionCall"
  | .methodCall _ _ _ => "MethodCall"
  | .awaitExpr _ => "AwaitExpression"

/-! ### Runtime values

Python lists, dicts and `Environment`s have reference semantics, so
list and map values are heap references.  A `CactUScriptFunction`
bundles its declaration and the id of the captured environment. -/

inductive Value where
  | vint (n : Int)
  | vfloat (q : Rat)
  | vstr (s : String)
  | vbool (b : Bool)
  | vnone
  | vlist (ref : Nat)
  | vmap (ref : Nat)
  | vclosure (d : FnD) (envId : Nat) (oid : Nat)
  | vbuiltin (name : String)
  | vcompiled (f : CompiledFn)
  | vmeth (recv : Value) (member : String)

/-- Shared heap of Python list and dict objects. -/
structure Heap where
  lists : List (List Value)
  maps : List (List (Value × Value))

def Heap.empty : Heap := ⟨[], []⟩

/-- `interpreter.py` `Environment`: name→value mapping (insertion
ordered), a set of constant names, an optional parent. -/
structure Scope where
  vars : List (String × Value)
  consts : List String
  parent : Option Nat

/-! ### Small association-list helpers (Python `dict` on string keys) -/

def aget {α : Type} : List (String × α) → String → Option α
  | [], _ => none
  | (k, v) :: rest, key => if k = key then some v else aget rest key

/-- Insert-or-update, keeping insertion order (as a Python dict does). -/
def aset {α : Type} : List (String × α) → String → α → List (String × α)
  | [], key, a => [(key, a)]
  | (k, v) :: rest, key, a =>
    if k = key then (k, a) :: rest else (k, v) :: aset rest key a

def akeys {α : Type} (xs : List (String × α)) : List String := xs.map (·.1)

/-! ### Truthiness and value kinds (`Interpreter._is_truthy`,
Python truthiness in the VM's `not self.pop()`) -/

def Heap.listAt (h : Heap) (r : Nat) : List Value := (h.lists.get? r).getD []

def Heap.mapAt (h : Heap) (r : Nat) : List (Value × Value) := (h.maps.get? r).getD []

def truthy (h : Heap) : Value → Bool
  | .vnone => false
  | .vbool b => b
  | .vint n => n ≠ 0
  | .vfloat q => q ≠ 0
  | .vstr s => !s.isEmpty
  | .vlist r => !(h.listAt r).isEmpty
  | .vmap r => !(h.mapAt r).isEmpty
  | _ => true

/-- Kind tag of a runtime value (for stating kind-distinctness). -/
def Value.kind : Value → String
  | .vint _ => "int"
  | .vfloat _ => "float"
  | .vstr _ => "str"
  | .vbool _ => "bool"
  | .vnone => "none"
  | .vlist _ => "list"
  | .vmap _ => "map"
  | .vclosure _ _ _ => "closure"
  | .vbuiltin _ => "builtin"
  | .vcompiled _ => "compiled"
  | .vmeth _ _ => "method"

/-- Python `type(obj).__name__`, as interpolated into error messages. -/
def pyTypeName : Value → String
  | .vint _ => "int"
  | .vfloat _ => "float"
  | .vstr _ => "str"
  | .vbool _ => "bool"
  | .vnone => "NoneType"
  | .vlist _ => "list"
  | .vmap _ => "dict"
  | .vclosure _ _ _ => "CactUScriptFunction"
  | .vbuiltin _ => "method"
  | .vcompiled _ => "CompiledFunction"
  | .vmeth _ _ => "method"

/-- Numeric view: Python treats `bool` as a number (`True == 1`),
and mixes `int` and `float` freely. -/
def numVal? : Value → Option Rat
  | .vint n => some (n : Rat)
  | .vfloat q => some q
  | .vbool b => some (if b then 1 else 0)
  | _ => none

/-- Integer view for results that stay `int` in Python. -/
def intLike? : Value → Option Int
  | .vint n => some n
  | .vbool b => some (if b then 1 else 0)
  | _ => none

/-- A value is of numeric kind (`bool`, `int` or `float`). -/
def numericKind (v : Value) : Bool := (numVal? v).isSome

/-! ### Integer bitwise operators (Python `& | ^ ~ << >>` on `int`)

Python ints are two's complement of unbounded width; the negative
cases are expressed through `Nat` bitwise operations on the
complement (`negSucc m` has bit pattern `¬m`). -/

def intAnd : Int → Int → Int
  | .ofNat m, .ofNat n => .ofNat (Nat.land m n)
  | .negSucc m, .ofNat n => .ofNat (n - Nat.land n m)
  | .ofNat m, .negSucc n => .ofNat (m - Nat.land m n)
  | .negSucc m, .negSucc n => .negSucc (Nat.lor m n)

def intOr : Int → Int → Int
  | .ofNat m, .ofNat n => .ofNat (Nat.lor m n)
  | .negSucc m, .ofNat n => .negSucc (m - Nat.land m n)
  | .ofNat m, .negSucc n => .negSucc (n - Nat.land n m)
  | .negSucc m, .negSucc n => .negSucc (Nat.land m n)

def intXor : Int → Int → Int
  | .ofNat m, .ofNat n => .ofNat (Nat.xor m n)
  | .negSucc m, .ofNat n => .negSucc (Nat.xor m n)
  | .ofNat m, .negSucc n => .negSucc (Nat.xor m n)
  | .negSucc m, .negSucc n => .ofNat (Nat.xor m n)

/-- Python `a << b`: multiply by a power of two (`b < 0` raises). -/
def intShl (a : Int) (n : Nat) : Int := a * (2 : Int) ^ n

/-- Python `a >> b`: floor division by a power of two. -/
def intShr (a : Int) (n : Nat) : Int := Int.fdiv a ((2 : Int) ^ n)

/-! ### Python `==` and `<` across runtime values

`evaluate_ComparisonOp` and the VM's `EQ`/`LT`/… apply the host
language's operators, so the embedding reproduces Python semantics:
numbers (`bool` included) compare numerically, strings and lists
compare lexicographically, `==` on distinct kinds is `False`,
`<` on distinct non-numeric kinds raises `TypeError`.  List contents
live behind heap references, hence the `Heap` parameter and fuel
(Python overflows the stack on cyclic structures). -/

mutual

def pyEqB : Nat → Heap → Value → Value → Except String Bool
  | 0, _, _, _ => .error "maximum recursion depth exceeded in comparison"
  | fuel+1, h, a, b =>
    match numVal? a, numVal? b with
    | some x, some y => .ok (decide (x = y))
    | _, _ =>
      match a, b with
      | .vstr s, .vstr t => .ok (decide (s = t))
      | .vnone, .vnone => .ok true
      | .vlist r₁, .vlist r₂ => pyEqListB fuel h (h.listAt r₁) (h.listAt r₂)
      | .vmap r₁, .vmap r₂ =>
        if (h.mapAt r₁).length = (h.mapAt r₂).length then
          pyEqMapB fuel h (h.mapAt r₁) (h.mapAt r₂)
        else .ok false
      | .vclosure _ _ o₁, .vclosure _ _ o₂ => .ok (decide (o₁ = o₂))
      | .vbuiltin n₁, .vbuiltin n₂ => .ok (decide (n₁ = n₂))
      | .vcompiled f₁, .vcompiled f₂ => .ok (decide (f₁ = f₂))
      | .vmeth r₁ m₁, .vmeth r₂ m₂ =>
        if m₁ = m₂ then pyEqB fuel h r₁ r₂ else .ok false
      | _, _ => .ok false

def pyEqListB : Nat → Heap → List Value → List Value → Except String Bool
  | 0, _, _, _ => .error "maximum recursion depth exceeded in comparison"
  | _+1, _, [], [] => .ok true
  | fuel+1, h, x :: xs, y :: ys =>
    match pyEqB fuel h x y with
    | .ok true => pyEqListB fuel h xs ys
    | .ok false => .ok false
    | .error e => .error e
  | _+1, _, _, _ => .ok false

def pyEqMapB : Nat → Heap → List (Value × Value) → List (Value × Value) →
    Except String Bool
  | 0, _, _, _ => .error "maximum recursion depth exceeded in comparison"
  | _+1, _, [], _ => .ok true
  | fuel+1, h, (k, v) :: rest, other =>
    match pyMapFindB fuel h other k with
    | .error e => .error e
    | .ok none => .ok false
    | .ok (some w) =>
      match pyEqB fuel h v w with
      | .ok true => pyEqMapB fuel h rest other
      | .ok false => .ok false
      | .error e => .error e

def pyMapFindB : Nat → Heap → List (Value × Value) → Value →
    Except String (Option Value)
  | 0, _, _, _ => .error "maximum recursion depth exceeded in comparison"
  | _+1, _, [], _ => .ok none
  | fuel+1, h, (k, v) :: rest, key =>
    match pyEqB fuel h k key with
    | .ok true => .ok (some v)
    | .ok false => pyMapFindB fuel h rest key
    | .error e => .error e

end

/-- Lexicographic `<` on characters, as Python compares code points. -/
def charLt (c d : Char) : Bool := c.toNat < d.toNat

/-- Python `<` between strings (lexicographic on code points). -/
def strLtB : List Char → List Char → Bool
  | [], [] => false
  | [], _ :: _ => true
  | _ :: _, [] => false
  | c :: cs, d :: ds => if c = d then strLtB cs ds else charLt c d

/-- Python `<=` between strings. -/
def strLeB : List Char → List Char → Bool
  | [], _ => true
  | _ :: _, [] => false
  | c :: cs, d :: ds => if c = d then strLeB cs ds else charLt c d

mutual

def pyLtB : Nat → Heap → Value → Value → Except String Bool
  | 0, _, _, _ => .error "maximum recursion depth exceeded in comparison"
  | fuel+1, h, a, b =>
    match numVal? a, numVal? b with
    | some x, some y => .ok (decide (x < y))
    | _, _ =>
      match a, b with
      | .vstr s, .vstr t => .ok (strLtB s.data t.data)
      | .vlist r₁, .vlist r₂ => pyLtListB fuel h (h.listAt r₁) (h.listAt r₂)
      | _, _ =>
        .error ("unsupported comparison between " ++ pyTypeName a ++ " and " ++
          pyTypeName b)

def pyLtListB : Nat → Heap → List Value → List Value → Except String Bool
  | 0, _, _, _ => .error "maximum recursion depth exceeded in comparison"
  | _+1, _, [], [] => .ok false
  | _+1, _, [], _ :: _ => .ok true
  | _+1, _, _ :: _, [] => .ok false
  | fuel+1, h, x :: xs, y :: ys =>
    match pyEqB fuel h x y with
    | .ok true => pyLtListB fuel h xs ys
    | .ok false => pyLtB fuel h x y
    | .error e => .error e

end

mutual

def pyLeB : Nat → Heap → Value → Value → Except String Bool
  | 0, _, _, _ => .error "maximum recursion depth exceeded in comparison"
  | fuel+1, h, a, b =>
    match numVal? a, numVal? b with
    | some x, some y => .ok (decide (x ≤ y))
    | _, _ =>
      match a, b with
      | .vstr s, .vstr t => .ok (strLeB s.data t.data)
      | .vlist r₁, .vlist r₂ => pyLeListB fuel h (h.listAt r₁) (h.listAt r₂)
      | _, _ =>
        .error ("unsupported comparison between " ++ pyTypeName a ++ " and " ++
          pyTypeName b)

def pyLeListB : Nat → Heap → List Value → List Value → Except String Bool
  | 0, _, _, _ => .error "maximum recursion depth exceeded in comparison"
  | _+1, _, [], _ => .ok true
  | _+1, _, _ :: _, [] => .ok false
  | fuel+1, h, x :: xs, y :: ys =>
    match pyEqB fuel h x y with
    | .ok true => pyLeListB fuel h xs ys
    | .ok false => pyLtB fuel h x y
    | .error e => .error e

end

/-- `Interpreter.evaluate_ComparisonOp`'s operator table (also backing
the VM's `EQ NE LT GT LE GE`): each entry applies the host-language
comparison. -/
def applyCmp (fuel : Nat) (h : Heap) (op : String) (a b : Value) :
    Except String Value :=
  if op = "==" then (pyEqB fuel h a b).map Value.vbool
  else if op = "!=" then (pyEqB fuel h a b).map (fun r => Value.vbool (!r))
  else if op = "<" then (pyLtB fuel h a b).map Value.vbool
  else if op = ">" then (pyLtB fuel h b a).map Value.vbool
  else if op = "<=" then (pyLeB fuel h a b).map Value.vbool
  else if op = ">=" then (pyLeB fuel h b a).map Value.vbool
  else .error ("Unknown comparison operator: " ++ op)

/-! ### Arithmetic (`evaluate_BinaryOp`'s table / VM `ADD` … `SHR`)

Python's operators, restricted to the value kinds of this language:
`int`-like pairs keep `int` results, any `float` operand promotes,
`+` concatenates strings and lists (a fresh list), `*` repeats
strings and lists.  Kind mismatches raise `TypeError`. -/

def typeErr (op : String) (a b : Value) : Except String (Value × Heap) :=
  .error ("unsupported operand types for " ++ op ++ ": " ++ pyTypeName a ++
    " and " ++ pyTypeName b)

def Heap.allocList (h : Heap) (xs : List Value) : Value × Heap :=
  (.vlist h.lists.length, { h with lists := h.lists ++ [xs] })

def Heap.allocMap (h : Heap) (xs : List (Value × Value)) : Value × Heap :=
  (.vmap h.maps.length, { h with maps := h.maps ++ [xs] })

def Heap.setList (h : Heap) (r : Nat) (xs : List Value) : Heap :=
  { h with lists := h.lists.set r xs }

def Heap.setMap (h : Heap) (r : Nat) (xs : List (Value × Value)) : Heap :=
  { h with maps := h.maps.set r xs }

/-- Numeric result: both operands `int`-like stays `int`. -/
def numBin (fi : Int → Int → Int) (fq : Rat → Rat → Rat) (a b : Value) :
    Option Value :=
  match intLike? a, intLike? b with
  | some i, some j => some (.vint (fi i j))
  | _, _ =>
    match numVal? a, numVal? b with
    | some x, some y => some (.vfloat (fq x y))
    | _, _ => none

def addV (h : Heap) (a b : Value) : Except String (Value × Heap) :=
  match numBin (· + ·) (· + ·) a b with
  | some v => .ok (v, h)
  | none =>
    match a, b with
    | .vstr s, .vstr t => .ok (.vstr (s ++ t), h)
    | .vlist r₁, .vlist r₂ => .ok (h.allocList (h.listAt r₁ ++ h.listAt r₂))
    | _, _ => typeErr "+" a b

def subV (h : Heap) (a b : Value) : Except String (Value × Heap) :=
  match numBin (· - ·) (· - ·) a b with
  | some v => .ok (v, h)
  | none => typeErr "-" a b

def repeatList {α : Type} (xs : List α) (n : Int) : List α :=
  (List.range n.toNat).flatMap (fun _ => xs)

def mulV (h : Heap) (a b : Value) : Except String (Value × Heap) :=
  match numBin (· * ·) (· * ·) a b with
  | some v => .ok (v, h)
  | none =>
    match a, b with
    | .vstr s, _ =>
      match intLike? b with
      | some n => .ok (.vstr ⟨repeatList s.data n⟩, h)
      | none => typeErr "*" a b
    | _, .vstr t =>
      match intLike? a with
      | some n => .ok (.vstr ⟨repeatList t.data n⟩, h)
      | none => typeErr "*" a b
    | .vlist r, _ =>
      match intLike? b with
      | some n => .ok (h.allocList (repeatList (h.listAt r) n))
      | none => typeErr "*" a b
    | _, .vlist r =>
      match intLike? a with
      | some n => .ok (h.allocList (repeatList (h.listAt r) n))
      | none => typeErr "*" a b
    | _, _ => typeErr "*" a b

/-- Python `/` always produces a float. -/
def divV (h : Heap) (a b : Value) : Except String (Value × Heap) :=
  match numVal? a, numVal? b with
  | some x, some y =>
    if y = 0 then .error "division by zero"
    else .ok (.vfloat (x / y), h)
  | _, _ => typeErr "/" a b

/-- Rational floor-mod, matching Python's `%` (sign of the divisor). -/
def ratFmod (x y : Rat) : Rat := x - y * (Rat.floor (x / y) : Rat)

def modV (h : Heap) (a b : Value) : Except String (Value × Heap) :=
  match intLike? a, intLike? b with
  | some i, some j =>
    if j = 0 then .error "integer division or modulo by zero"
    else .ok (.vint (Int.fmod i j), h)
  | _, _ =>
    match numVal? a, numVal? b with
    | some x, some y =>
      if y = 0 then .error "float modulo by zero"
      else .ok (.vfloat (ratFmod x y), h)
    | _, _ => typeErr "%" a b

/-- Python `**`.  A non-integral float exponent would need real
exponentiation and is out of the rational model (no claim exercises
it); every integral case follows Python. -/
def powV (h : Heap) (a b : Value) : Except String (Value × Heap) :=
  match numVal? a, numVal? b with
  | some x, some y =>
    if y.den ≠ 1 then .error "non-integral exponent not modelled"
    else
      let e : Int := y.num
      if 0 ≤ e then
        match intLike? a, intLike? b with
        | some i, some _ => .ok (.vint (i ^ e.toNat), h)
        | _, _ => .ok (.vfloat (x ^ e.toNat), h)
      else
        if x = 0 then .error "0.0 cannot be raised to a negative power"
        else .ok (.vfloat (x ^ e), h)
  | _, _ => typeErr "**" a b

def bitBin (op : String) (fi : Int → Int → Int) (h : Heap) (a b : Value) :
    Except String (Value × Heap) :=
  match intLike? a, intLike? b with
  | some i, some j => .ok (.vint (fi i j), h)
  | _, _ => typeErr op a b

def shlV (h : Heap) (a b : Value) : Except String (Value × Heap) :=
  match intLike? a, intLike? b with
  | some i, some j =>
    if j < 0 then .error "negative shift count"
    else .ok (.vint (intShl i j.toNat), h)
  | _, _ => typeErr "<<" a b

def shrV (h : Heap) (a b : Value) : Except String (Value × Heap) :=
  match intLike? a, intLike? b with
  | some i, some j =>
    if j < 0 then .error "negative shift count"
    else .ok (.vint (intShr i j.toNat), h)
  | _, _ => typeErr ">>" a b

/-- `Interpreter.evaluate_BinaryOp`'s operator table. -/
def applyBin (h : Heap) (op : String) (a b : Value) :
    Except String (Value × Heap) :=
  if op = "+" then addV h a b
  else if op = "-" then subV h a b
  else if op = "*" then mulV h a b
  else if op = "/" then divV h a b
  else if op = "%" then modV h a b
  else if op = "**" then powV h a b
  else if op = "&" then bitBin "&" intAnd h a b
  else if op = "|" then bitBin "|" intOr h a b
  else if op = "^" then bitBin "^" intXor h a b
  else if op = "<<" then shlV h a b
  else if op = ">>" then shrV h a b
  else .error ("Unknown binary operator: " ++ op)

/-- `Interpreter._apply_compound_assignment`. -/
def applyCompound (h : Heap) (op : String) (left right : Value) :
    Except String (Value × Heap) :=
  if op = "+=" then addV h left right
  else if op = "-=" then subV h left right
  else if op = "*=" then mulV h left right
  else if op = "/=" then divV h left right
  else .error ("Unknown compound assignment operator: " ++ op)

/-- Python unary minus (numbers only in this value model). -/
def negV : Value → Except String Value
  | .vint n => .ok (.vint (-n))
  | .vbool b => .ok (.vint (-(if b then 1 else 0)))
  | .vfloat q => .ok (.vfloat (-q))
  | v => .error ("bad operand type for unary -: " ++ pyTypeName v)

/-- Python `~` (`~x = -x-1`). -/
def bitNotV : Value → Except String Value
  | .vint n => .ok (.vint (-n - 1))
  | .vbool b => .ok (.vint (-(if b then 1 else 0) - 1))
  | v => .error ("bad operand type for unary ~: " ++ pyTypeName v)

/-! ### Python `str()` / `repr()` (for `print`, `println` and the
`[EVENT]` line).  Floats print exactly when the denominator divides a
power of ten, which covers every float a claim exercises. -/

def decimalDigits (n : Nat) (width : Nat) : String :=
  let s := toString n
  ⟨List.replicate (width - s.length) '0' ++ s.data⟩

def floatRepr (q : Rat) : String :=
  if q.den = 1 then toString q.num ++ ".0"
  else
    match (List.range 31).find? (fun k => 10 ^ k % q.den = 0) with
    | some k =>
      let scaled : Int := q.num * ((10 ^ k / q.den : Nat) : Int)
      let sign := if scaled < 0 then "-" else ""
      let m := scaled.natAbs
      sign ++ toString (m / 10 ^ k) ++ "." ++ decimalDigits (m % 10 ^ k) k
    | none => toString q.num ++ "/" ++ toString q.den

/-- Python `repr` of a string: quoted with escapes (approximated with
single quotes throughout). -/
def strPyRepr (s : String) : String :=
  "'" ++ ⟨s.data.flatMap (fun c =>
    if c = '\\' then ['\\', '\\']
    else if c = '\'' then ['\\', '\'']
    else if c = '\n' then ['\\', 'n']
    else if c = '\t' then ['\\', 't']
    else if c = '\r' then ['\\', 'r']
    else [c])⟩ ++ "'"

mutual

def pyRepr : Nat → Heap → Value → String
  | 0, _, _ => "..."
  | fuel+1, h, v =>
    match v with
    | .vint n => toString n
    | .vfloat q => floatRepr q
    | .vbool b => if b then "True" else "False"
    | .vnone => "None"
    | .vstr s => strPyRepr s
    | .vlist r => "[" ++ String.intercalate ", " (pyReprList fuel h (h.listAt r)) ++ "]"
    | .vmap r =>
      "\x7b" ++ String.intercalate ", " (pyReprMap fuel h (h.mapAt r)) ++ "\x7d"
    | .vclosure d _ _ => "<function " ++ d.name ++ ">"
    | .vbuiltin n => "<built-in " ++ n ++ ">"
    | .vcompiled f => "CompiledFunction(" ++ f.name ++ ")"
    | .vmeth _ m => "<bound method " ++ m ++ ">"

def pyReprList : Nat → Heap → List Value → List String
  | 0, _, _ => []
  | _+1, _, [] => []
  | fuel+1, h, x :: xs => pyRepr fuel h x :: pyReprList fuel h xs

def pyReprMap : Nat → Heap → List (Value × Value) → List String
  | 0, _, _ => []
  | _+1, _, [] => []
  | fuel+1, h, (k, v) :: xs =>
    (pyRepr fuel h k ++ ": " ++ pyRepr fuel h v) :: pyReprMap fuel h xs

end

/-- Python `str()`: like `repr` except strings print bare. -/
def pyStr (fuel : Nat) (h : Heap) : Value → String
  | .vstr s => s
  | v => pyRepr fuel h v

/-! ### Interpreter state

`Interpreter` owns a chain of `Environment`s (modelled as a heap of
scopes, `cur` being `self.current_env`), the event log, and the text
written to stdout.  `objCount` numbers the `CactUScriptFunction`
objects created, giving Python object identity for `==`. -/

structure St where
  heap : Heap
  envs : List Scope
  cur : Nat
  events : List (String × List (List Value))
  out : List String
  objCount : Nat

def St.allocScope (st : St) (parent : Option Nat) : Nat × St :=
  (st.envs.length, { st with envs := st.envs ++ [⟨[], [], parent⟩] })

def St.allocList (st : St) (xs : List Value) : Value × St :=
  let (v, h) := st.heap.allocList xs
  (v, { st with heap := h })

def St.allocMap (st : St) (xs : List (Value × Value)) : Value × St :=
  let (v, h) := st.heap.allocMap xs
  (v, { st with heap := h })

/-- `Environment.get`: look up through the parent chain.  Parent ids
are always strictly smaller than the child's id, so the chain length
is bounded by the scope count (the `walk` argument). -/
def lookupVarAux : Nat → List Scope → Nat → String → Except String Value
  | 0, _, _, name => .error ("Undefined variable '" ++ name ++ "'")
  | walk+1, envs, i, name =>
    match envs.get? i with
    | none => .error ("Undefined variable '" ++ name ++ "'")
    | some sc =>
      match aget sc.vars name with
      | some v => .ok v
      | none =>
        match sc.parent with
        | some p => lookupVarAux walk envs p name
        | none => .error ("Undefined variable '" ++ name ++ "'")

def lookupVar (st : St) (envId : Nat) (name : String) : Except String Value :=
  lookupVarAux (st.envs.length + 1) st.envs envId name

/-- `Environment.assign`: walk the chain for an existing binding, fail
on a constant, update it in place (never creates a binding). -/
def assignVarAux : Nat → List Scope → Nat → String → Value →
    Except String (List Scope)
  | 0, _, _, name, _ => .error ("Undefined variable '" ++ name ++ "'")
  | walk+1, envs, i, name, v =>
    match envs.get? i with
    | none => .error ("Undefined variable '" ++ name ++ "'")
    | some sc =>
      if (aget sc.vars name).isSome then
        if sc.consts.contains name then
          .error ("Cannot reassign constant '" ++ name ++ "'")
        else .ok (envs.set i { sc with vars := aset sc.vars name v })
      else
        match sc.parent with
        | some p => assignVarAux walk envs p name v
        | none => .error ("Undefined variable '" ++ name ++ "'")

def assignVar (st : St) (name : String) (v : Value) : Except String St :=
  (assignVarAux (st.envs.length + 1) st.envs st.cur name v).map
    (fun envs => { st with envs := envs })

/-- `Environment.exists`. -/
def existsVarAux : Nat → List Scope → Nat → String → Bool
  | 0, _, _, _ => false
  | walk+1, envs, i, name =>
    match envs.get? i with
    | none => false
    | some sc =>
      if (aget sc.vars name).isSome then true
      else
        match sc.parent with
        | some p => existsVarAux walk envs p name
        | none => false

def existsVar (st : St) (name : String) : Bool :=
  existsVarAux (st.envs.length + 1) st.envs st.cur name

/-- `Environment.define` into an explicit scope (the interpreter
defines into `current_env`; `_call_function` defines into the new
function environment while `current_env` is still the caller's). -/
def defineIn (st : St) (envId : Nat) (name : String) (v : Value)
    (isConst : Bool) : St :=
  match st.envs.get? envId with
  | none => st
  | some sc =>
    { st with
      envs := st.envs.set envId
        { sc with
          vars := aset sc.vars name v
          consts :=
            if isConst then
              if sc.consts.contains name then sc.consts else sc.consts ++ [name]
            else sc.consts } }

/-! ### Indexing (`evaluate_IndexAccess`, assignments through
`obj[index]`, VM `INDEX` / `STORE_INDEX`) -/

/-- Python sequence index normalization (negatives count from the
end). -/
def normIdx (i : Int) (len : Nat) : Option Nat :=
  let j := if i < 0 then i + (len : Int) else i
  if 0 ≤ j ∧ j < (len : Int) then some j.toNat else none

def unhashable : Value → Bool
  | .vlist _ => true
  | .vmap _ => true
  | _ => false

def pyIndex (fuel : Nat) (h : Heap) (obj idx : Value) : Except String Value :=
  match obj with
  | .vlist r =>
    match intLike? idx with
    | some i =>
      match normIdx i (h.listAt r).length with
      | some j => .ok ((h.listAt r).getD j .vnone)
      | none => .error "list index out of range"
    | none => .error ("list indices must be integers, not " ++ pyTypeName idx)
  | .vstr s =>
    match intLike? idx with
    | some i =>
      match normIdx i s.data.length with
      | some j => .ok (.vstr ⟨[s.data.getD j ' ']⟩)
      | none => .error "string index out of range"
    | none => .error ("string indices must be integers, not " ++ pyTypeName idx)
  | .vmap r =>
    if unhashable idx then .error ("unhashable type: " ++ pyTypeName idx)
    else
      match pyMapFindB fuel h (h.mapAt r) idx with
      | .ok (some v) => .ok v
      | .ok none => .error ("KeyError: " ++ pyRepr fuel h idx)
      | .error e => .error e
  | _ => .error ("Cannot index " ++ pyTypeName obj)

/-- Python dict insert-or-update (`==`-based key identity, insertion
order preserved; `d[True]` updates an existing key `1`). -/
def pyMapSet (fuel : Nat) (h : Heap) :
    List (Value × Value) → Value → Value → Except String (List (Value × Value))
  | [], key, v => .ok [(key, v)]
  | (k, w) :: rest, key, v =>
    match pyEqB fuel h k key with
    | .ok true => .ok ((k, v) :: rest)
    | .ok false => (pyMapSet fuel h rest key v).map ((k, w) :: ·)
    | .error e => .error e

def pyStoreIndex (fuel : Nat) (h : Heap) (obj idx v : Value) :
    Except String Heap :=
  match obj with
  | .vlist r =>
    match intLike? idx with
    | some i =>
      match normIdx i (h.listAt r).length with
      | some j => .ok (h.setList r ((h.listAt r).set j v))
      | none => .error "list assignment index out of range"
    | none => .error ("list indices must be integers, not " ++ pyTypeName idx)
  | .vmap r =>
    if unhashable idx then .error ("unhashable type: " ++ pyTypeName idx)
    else (pyMapSet fuel h (h.mapAt r) idx v).map (h.setMap r)
  | _ => .error (pyTypeName obj ++ " object does not support item assignment")

/-! ### String helpers (Python `str` methods, over char lists so that
everything reduces) -/

def isPreL : List Char → List Char → Bool
  | [], _ => true
  | _ :: _, [] => false
  | p :: ps, c :: cs => if p = c then isPreL ps cs else false

def containsSubL : List Char → List Char → Bool
  | sub, [] => sub.isEmpty
  | sub, c :: cs => if isPreL sub (c :: cs) then true else containsSubL sub cs

def pySpace (c : Char) : Bool :=
  c = ' ' || c = '\t' || c = '\n' || c = '\r' || c = '\x0b' || c = '\x0c'

/-- Python `str.strip()` (ASCII whitespace view). -/
def strStrip (s : String) : String :=
  ⟨((s.data.dropWhile pySpace).reverse.dropWhile pySpace).reverse⟩

/-- Python `str.replace(old, new)`, every occurrence; an empty `old`
inserts `new` around every character.  Fuelled by the remaining
length so that it stays structural. -/
def strReplaceAux (old new : List Char) : Nat → List Char → List Char
  | _, [] => []
  | 0, s => s
  | fuel+1, c :: cs =>
    if isPreL old (c :: cs) then
      new ++ strReplaceAux old new fuel ((c :: cs).drop old.length)
    else c :: strReplaceAux old new fuel cs

def strReplace (s old new : String) : String :=
  if old.data.isEmpty then
    ⟨new.data ++ s.data.flatMap (fun c => c :: new.data)⟩
  else ⟨strReplaceAux old.data new.data (s.data.length + 1) s.data⟩

/-- Python `str.split(sep)` with a non-empty separator: exact-match
splitting that keeps empty fields. -/
def strSplitAux (sep : List Char) : Nat → List Char → List Char → List String
  | _, acc, [] => [⟨acc.reverse⟩]
  | 0, acc, s => [⟨acc.reverse ++ s⟩]
  | fuel+1, acc, c :: cs =>
    if isPreL sep (c :: cs) then
      ⟨acc.reverse⟩ :: strSplitAux sep fuel [] ((c :: cs).drop sep.length)
    else strSplitAux sep fuel (c :: acc) cs

def strSplit (s sep : String) : List String :=
  strSplitAux sep.data (s.data.length + 1) [] s.data

def strUpper (s : String) : String := ⟨s.data.map Char.toUpper⟩

def strLower (s : String) : String := ⟨s.data.map Char.toLower⟩

/-! ### Builtin registry (`Interpreter._setup_builtins` and the VM's
`_setup_builtins`)

Builtins never touch environments — only the heap and stdout.
`input()` reads stdin, outside this model, and is embedded as a
failure. -/

def digitsVal? : List Char → Option Nat
  | [] => none
  | ds => ds.foldl (fun acc c =>
      match acc with
      | none => none
      | some n => if c.isDigit then some (n * 10 + (c.toNat - 48)) else none)
      (some 0)

def parseIntStr (s : String) : Option Int :=
  match (strStrip s).data with
  | '-' :: ds => (digitsVal? ds).map (fun n => -(n : Int))
  | '+' :: ds => (digitsVal? ds).map (fun n => (n : Int))
  | ds => (digitsVal? ds).map (fun n => (n : Int))

def parseFracStr (ds : List Char) : Option Rat :=
  match ds.splitOn '.' with
  | [a] => (digitsVal? a).map (fun n => (n : Rat))
  | [a, b] =>
    if a.isEmpty ∧ b.isEmpty then none
    else
      match digitsVal? (a ++ b), digitsVal? (a ++ ['0']), digitsVal? (['0'] ++ b) with
      | _, none, _ => none
      | _, _, none => none
      | some n, _, _ => some ((n : Rat) / ((10 : Rat) ^ b.length))
      | none, _, _ => none
  | _ => none

def parseFloatStr (s : String) : Option Rat :=
  match (strStrip s).data with
  | '-' :: ds => (parseFracStr ds).map (fun q => -q)
  | '+' :: ds => parseFracStr ds
  | ds => parseFracStr ds

/-- Python `range(start, stop, step)` as a list (`step ≠ 0`). -/
def rangeL (start stop step : Int) : List Int :=
  let cnt : Int :=
    if step > 0 then ((stop - start) + step - 1).fdiv step
    else ((start - stop) + (-step) - 1).fdiv (-step)
  (List.range cnt.toNat).map (fun i => start + step * (i : Int))

/-- Python `min`/`max` folding with `<` (first extremal element wins). -/
def foldExtremal (fuel : Nat) (h : Heap) (pickLt : Bool) :
    Value → List Value → Except String Value
  | acc, [] => .ok acc
  | acc, x :: xs =>
    match (if pickLt then pyLtB fuel h x acc else pyLtB fuel h acc x) with
    | .ok true => foldExtremal fuel h pickLt x xs
    | .ok false => foldExtremal fuel h pickLt acc xs
    | .error e => .error e

/-- Python `sum` (numbers only; the accumulator starts at `int` 0). -/
def sumVals : Value → List Value → Except String Value
  | acc, [] => .ok acc
  | acc, x :: xs =>
    match numBin (· + ·) (· + ·) acc x with
    | some v => sumVals v xs
    | none =>
      .error ("unsupported operand type(s) for +: " ++ pyTypeName acc ++
        " and " ++ pyTypeName x)

/-- Python `list.pop(i)` on the heap list `r`. -/
def listPop (h : Heap) (r : Nat) (i : Int) : Except String (Value × Heap) :=
  let xs := h.listAt r
  if xs.isEmpty then .error "pop from empty list"
  else
    match normIdx i xs.length with
    | some j => .ok (xs.getD j .vnone, h.setList r (xs.eraseIdx j))
    | none => .error "pop index out of range"

def extremalOf (fuel : Nat) (h : Heap) (pickLt : Bool) (name : String)
    (args : List Value) : Except String Value :=
  match args with
  | [.vlist r] =>
    match h.listAt r with
    | [] => .error (name ++ "() arg is an empty sequence")
    | x :: xs => foldExtremal fuel h pickLt x xs
  | [] => .error (name ++ "() expected arguments")
  | [v] => .error (pyTypeName v ++ " object is not iterable")
  | x :: xs => foldExtremal fuel h pickLt x xs

def applyBuiltin (fuel : Nat) (name : String) (args : List Value) (h : Heap)
    (out : List String) : Except String (Value × Heap × List String) :=
  if name = "print" then
    .ok (.vnone, h, out ++ [String.intercalate " " (args.map (pyStr fuel h))])
  else if name = "println" then
    .ok (.vnone, h, out ++ [String.intercalate " " (args.map (pyStr fuel h)) ++ "\n"])
  else if name = "len" then
    match args with
    | [.vlist r] => .ok (.vint ((h.listAt r).length : Int), h, out)
    | [.vstr s] => .ok (.vint (s.data.length : Int), h, out)
    | [.vmap r] => .ok (.vint ((h.mapAt r).length : Int), h, out)
    | [v] => .error ("len() not supported for " ++ pyTypeName v)
    | _ => .error "len() takes exactly one argument"
  else if name = "range" then
    match args.mapM intLike? with
    | some [n] =>
      let (v, h') := h.allocList ((rangeL 0 n 1).map Value.vint)
      .ok (v, h', out)
    | some [a, b] =>
      let (v, h') := h.allocList ((rangeL a b 1).map Value.vint)
      .ok (v, h', out)
    | some [a, b, s] =>
      if s = 0 then .error "range() arg 3 must not be zero"
      else
        let (v, h') := h.allocList ((rangeL a b s).map Value.vint)
        .ok (v, h', out)
    | some _ => .error "range expected at most 3 arguments"
    | none => .error "range() arguments must be integers"
  else if name = "str" then
    match args with
    | [v] => .ok (.vstr (pyStr fuel h v), h, out)
    | _ => .error "str() takes exactly one argument here"
  else if name = "int" then
    match args with
    | [.vint n] => .ok (.vint n, h, out)
    | [.vbool b] => .ok (.vint (if b then 1 else 0), h, out)
    | [.vfloat q] => .ok (.vint (q.num.tdiv (q.den : Int)), h, out)
    | [.vstr s] =>
      match parseIntStr s with
      | some n => .ok (.vint n, h, out)
      | none => .error ("invalid literal for int(): " ++ strPyRepr s)
    | [v] => .error ("int() argument must be a number or string, not " ++ pyTypeName v)
    | _ => .error "int() takes exactly one argument here"
  else if name = "float" then
    match args with
    | [v] =>
      match numVal? v with
      | some x => .ok (.vfloat x, h, out)
      | none =>
        match v with
        | .vstr s =>
          match parseFloatStr s with
          | some q => .ok (.vfloat q, h, out)
          | none => .error ("could not convert string to float: " ++ strPyRepr s)
        | _ => .error ("float() argument must be a number or string, not " ++ pyTypeName v)
    | _ => .error "float() takes exactly one argument here"
  else if name = "type" then
    match args with
    | [v] =>
      let t :=
        match v with
        | .vbool _ => "bool"
        | .vint _ => "int"
        | .vfloat _ => "float"
        | .vstr _ => "string"
        | .vlist _ => "list"
        | .vmap _ => "map"
        | .vnone => "none"
        | _ => "function"
      .ok (.vstr t, h, out)
    | _ => .error "type() takes exactly one argument here"
  else if name = "input" then
    .error "input() reads stdin, outside this model"
  else if name = "append" then
    match args with
    | [.vlist r, item] => .ok (.vlist r, h.setList r (h.listAt r ++ [item]), out)
    | [_, _] => .error "append() requires a list"
    | _ => .error "append() takes exactly two arguments"
  else if name = "pop" then
    match args with
    | [.vlist r] => (listPop h r (-1)).map (fun (v, h') => (v, h', out))
    | [.vlist r, i] =>
      match intLike? i with
      | some j => (listPop h r j).map (fun (v, h') => (v, h', out))
      | none => .error "pop() index must be an integer"
    | _ => .error "pop() requires a list"
  else if name = "keys" then
    match args with
    | [.vmap r] =>
      let (v, h') := h.allocList ((h.mapAt r).map (·.1))
      .ok (v, h', out)
    | _ => .error "keys() requires a map"
  else if name = "values" then
    match args with
    | [.vmap r] =>
      let (v, h') := h.allocList ((h.mapAt r).map (·.2))
      .ok (v, h', out)
    | _ => .error "values() requires a map"
  else if name = "abs" then
    match args with
    | [.vint n] => .ok (.vint n.natAbs, h, out)
    | [.vbool b] => .ok (.vint (if b then 1 else 0), h, out)
    | [.vfloat q] => .ok (.vfloat |q|, h, out)
    | [v] => .error ("bad operand type for abs(): " ++ pyTypeName v)
    | _ => .error "abs() takes exactly one argument"
  else if name = "min" then
    (extremalOf fuel h true "min" args).map (fun v => (v, h, out))
  else if name = "max" then
    (extremalOf fuel h false "max" args).map (fun v => (v, h, out))
  else if name = "sum" then
    match args with
    | [.vlist r] => (sumVals (.vint 0) (h.listAt r)).map (fun v => (v, h, out))
    | [.vmap r] => (sumVals (.vint 0) ((h.mapAt r).map (·.1))).map (fun v => (v, h, out))
    | [v] => .error (pyTypeName v ++ " object is not iterable")
    | _ => .error "sum() takes exactly one argument here"
  else .error ("unknown builtin: " ++ name)

/-! ### Built-in method tables (`Interpreter.evaluate_MethodCall`) -/

def insertSorted (fuel : Nat) (h : Heap) (x : Value) :
    List Value → Except String (List Value)
  | [] => .ok [x]
  | y :: ys =>
    match pyLtB fuel h y x with
    | .ok true => (insertSorted fuel h x ys).map (y :: ·)
    | .ok false => .ok (x :: y :: ys)
    | .error e => .error e

/-- Python `sorted`: stable ascending sort driven by `<`; raises as
soon as an executed element comparison is undefined. -/
def sortValues (fuel : Nat) (h : Heap) :
    List Value → Except String (List Value)
  | [] => .ok []
  | x :: xs =>
    match sortValues fuel h xs with
    | .ok ys => insertSorted fuel h x ys
    | .error e => .error e

/-- The `list_methods` table: `append` mutates the receiver and hands
it back; `reverse`/`sort` build fresh lists (`list(reversed(obj))`,
`sorted(obj)`). -/
def applyListMethod (fuel : Nat) (h : Heap) (r : Nat) (m : String)
    (args : List Value) : Except String (Value × Heap) :=
  if m = "append" then
    match args with
    | [x] => .ok (.vlist r, h.setList r (h.listAt r ++ [x]))
    | _ => .error "append() takes exactly one argument"
  else if m = "pop" then
    match args with
    | [] => listPop h r (-1)
    | [i] =>
      match intLike? i with
      | some j => listPop h r j
      | none => .error "pop() index must be an integer"
    | _ => .error "pop() takes at most one argument"
  else if m = "length" then
    match args with
    | [] => .ok (.vint ((h.listAt r).length : Int), h)
    | _ => .error "length() takes no arguments"
  else if m = "reverse" then
    match args with
    | [] => .ok (h.allocList (h.listAt r).reverse)
    | _ => .error "reverse() takes no arguments"
  else if m = "sort" then
    match args with
    | [] => (sortValues fuel h (h.listAt r)).map h.allocList
    | _ => .error "sort() takes no arguments"
  else .error ("Unknown method '" ++ m ++ "' on list")

/-- The `string_methods` table. -/
def applyStrMethod (h : Heap) (s : String) (m : String)
    (args : List Value) : Except String (Value × Heap) :=
  if m = "upper" then
    match args with
    | [] => .ok (.vstr (strUpper s), h)
    | _ => .error "upper() takes no arguments"
  else if m = "lower" then
    match args with
    | [] => .ok (.vstr (strLower s), h)
    | _ => .error "lower() takes no arguments"
  else if m = "split" then
    match args with
    | [] => .ok (h.allocList ((strSplit s " ").map Value.vstr))
    | [.vstr sep] =>
      if sep.data.isEmpty then .error "empty separator"
      else .ok (h.allocList ((strSplit s sep).map Value.vstr))
    | [v] => .error ("must be str, not " ++ pyTypeName v)
    | _ => .error "split() takes at most one argument"
  else if m = "strip" then
    match args with
    | [] => .ok (.vstr (strStrip s), h)
    | _ => .error "strip() takes no arguments"
  else if m = "replace" then
    match args with
    | [.vstr old, .vstr new] => .ok (.vstr (strReplace s old new), h)
    | [_, _] => .error "replace() arguments must be strings"
    | _ => .error "replace() takes exactly two arguments"
  else if m = "contains" then
    match args with
    | [.vstr sub] => .ok (.vbool (containsSubL sub.data s.data), h)
    | [v] => .error ("in <string> requires string, not " ++ pyTypeName v)
    | _ => .error "contains() takes exactly one argument"
  else if m = "length" then
    match args with
    | [] => .ok (.vint (s.data.length : Int), h)
    | _ => .error "length() takes no arguments"
  else .error ("Unknown method '" ++ m ++ "' on str")

/-- The `dict_methods` table. -/
def applyMapMethod (fuel : Nat) (h : Heap) (r : Nat) (m : String)
    (args : List Value) : Except String (Value × Heap) :=
  if m = "get" then
    match args with
    | [k] =>
      if unhashable k then .error ("unhashable type: " ++ pyTypeName k)
      else (pyMapFindB fuel h (h.mapAt r) k).map (fun v? => (v?.getD .vnone, h))
    | [k, d] =>
      if unhashable k then .error ("unhashable type: " ++ pyTypeName k)
      else (pyMapFindB fuel h (h.mapAt r) k).map (fun v? => (v?.getD d, h))
    | _ => .error "get() takes one or two arguments"
  else if m = "keys" then
    match args with
    | [] => .ok (h.allocList ((h.mapAt r).map (·.1)))
    | _ => .error "keys() takes no arguments"
  else if m = "values" then
    match args with
    | [] => .ok (h.allocList ((h.mapAt r).map (·.2)))
    | _ => .error "values() takes no arguments"
  else if m = "contains" then
    match args with
    | [k] =>
      if unhashable k then .error ("unhashable type: " ++ pyTypeName k)
      else (pyMapFindB fuel h (h.mapAt r) k).map (fun v? => (.vbool v?.isSome, h))
    | _ => .error "contains() takes exactly one argument"
  else .error ("Unknown method '" ++ m ++ "' on dict")

/-! ### Host attributes for the VM's `GET_ATTR` (`hasattr`/`getattr`)

The compiled `for`-lowering fetches `__len__` from the iterable;
Python then hands back a *bound method* object, which is what `vmeth`
models.  Only the attribute names reachable from compiled code are
embedded. -/

def hasattrB : Value → String → Bool
  | .vlist _, m => ["append", "pop", "reverse", "sort", "__len__"].contains m
  | .vstr _, m => ["upper", "lower", "split", "strip", "replace", "__len__"].contains m
  | _, _ => false

/-- Calling a bound method fetched through `GET_ATTR` runs the *host*
(Python) method: `list.append` returns `None`, `list.sort` and
`list.reverse` mutate in place. -/
def applyBoundMeth (fuel : Nat) (h : Heap) (recv : Value) (member : String)
    (args : List Value) : Except String (Value × Heap) :=
  match recv with
  | .vlist r =>
    if member = "__len__" then
      match args with
      | [] => .ok (.vint ((h.listAt r).length : Int), h)
      | _ => .error "__len__() takes no arguments"
    else if member = "append" then
      match args with
      | [x] => .ok (.vnone, h.setList r (h.listAt r ++ [x]))
      | _ => .error "append() takes exactly one argument"
    else if member = "pop" then
      match args with
      | [] => listPop h r (-1)
      | [i] =>
        match intLike? i with
        | some j => listPop h r j
        | none => .error "pop() index must be an integer"
      | _ => .error "pop() takes at most one argument"
    else if member = "reverse" then
      match args with
      | [] => .ok (.vnone, h.setList r (h.listAt r).reverse)
      | _ => .error "reverse() takes no arguments"
    else if member = "sort" then
      match args with
      | [] => (sortValues fuel h (h.listAt r)).map (fun xs => (.vnone, h.setList r xs))
      | _ => .error "sort() takes no arguments"
    else .error ("attribute '" ++ member ++ "' not modelled")
  | .vstr s =>
    if member = "__len__" then
      match args with
      | [] => .ok (.vint (s.data.length : Int), h)
      | _ => .error "__len__() takes no arguments"
    else if member = "upper" ∨ member = "lower" ∨ member = "strip" ∨
        member = "replace" ∨ member = "split" then
      applyStrMethod h s member args
    else .error ("attribute '" ++ member ++ "' not modelled")
  | _ => .error (pyTypeName recv ++ " object is not callable")

/-! ### Evaluation results

`interpreter.py` signals non-local control flow with the exceptions
`ReturnValue`, `BreakException`, `ContinueException` and
`RuntimeError`; a result sum models the four unwinds plus normal
completion. -/

inductive RRes (α : Type) where
  | ok (a : α)
  | ret (v : Value)
  | brk
  | cont
  | err (msg : String)

abbrev Res := RRes Value

/-- Python dict construction from evaluated key/value pairs in order
(`evaluate_MapLiteral` result / `BUILD_MAP`): later duplicate keys
overwrite, unhashable keys raise.  (The dead `isinstance(k,
Identifier)` branch of `evaluate_MapLiteral` is unreachable and not
reproduced.) -/
def buildMapVals (fuel : Nat) (h : Heap) :
    List (Value × Value) → List (Value × Value) →
    Except String (List (Value × Value))
  | acc, [] => .ok acc
  | acc, (k, v) :: rest =>
    if unhashable k then .error ("unhashable type: " ++ pyTypeName k)
    else
      match pyMapSet fuel h acc k v with
      | .ok acc' => buildMapVals fuel h acc' rest
      | .error e => .error e

/-- Heap representation of an `event` declaration's field list
(Python stores a list of tuples; pair-lists stand in for tuples). -/
def allocFields (st : St) : List (String × String) → List Value × St
  | [] => ([], st)
  | (n, t) :: rest =>
    let (v, st₁) := st.allocList [.vstr n, .vstr t]
    let (vs, st₂) := allocFields st₁ rest
    (v :: vs, st₂)

/-! ### The tree-walking evaluator (`Interpreter.execute` /
`Interpreter.evaluate`), fuelled -/

set_option maxHeartbeats 1600000 in
mutual

def evalE : Nat → Expr → St → Res × St
  | 0, _, st => (.err "out of fuel", st)
  | fuel+1, e, st =>
    match e with
    | .integerLiteral n => (.ok (.vint n), st)
    | .floatLiteral q => (.ok (.vfloat q), st)
    | .stringLiteral s => (.ok (.vstr s), st)
    | .booleanLiteral b => (.ok (.vbool b), st)
    | .nullLiteral => (.ok .vnone, st)
    | .listLiteral es =>
      match evalArgs fuel es st with
      | (.ok vs, st₁) =>
        let (v, st₂) := st₁.allocList vs
        (.ok v, st₂)
      | (.ret v, st₁) => (.ret v, st₁)
      | (.brk, st₁) => (.brk, st₁)
      | (.cont, st₁) => (.cont, st₁)
      | (.err m, st₁) => (.err m, st₁)
    | .mapLiteral pairs =>
      match evalPairs fuel pairs st with
      | (.ok kvs, st₁) =>
        match buildMapVals fuel st₁.heap [] kvs with
        | .ok entries =>
          let (v, st₂) := st₁.allocMap entries
          (.ok v, st₂)
        | .error m => (.err m, st₁)
      | (.ret v, st₁) => (.ret v, st₁)
      | (.brk, st₁) => (.brk, st₁)
      | (.cont, st₁) => (.cont, st₁)
      | (.err m, st₁) => (.err m, st₁)
    | .identifier name =>
      match lookupVar st st.cur name with
      | .ok v => (.ok v, st)
      | .error m => (.err m, st)
    | .binaryOp l op r =>
      match evalE fuel l st with
      | (.ok lv, st₁) =>
        match evalE fuel r st₁ with
        | (.ok rv, st₂) =>
          match applyBin st₂.heap op lv rv with
          | .ok (v, h) => (.ok v, { st₂ with heap := h })
          | .error m => (.err m, st₂)
        | other => other
      | other => other
    | .unaryOp op operand =>
      match evalE fuel operand st with
      | (.ok v, st₁) =>
        if op = "-" then
          match negV v with
          | .ok w => (.ok w, st₁)
          | .error m => (.err m, st₁)
        else if op = "~" then
          match bitNotV v with
          | .ok w => (.ok w, st₁)
          | .error m => (.err m, st₁)
        else if op = "not" then (.ok (.vbool (!truthy st₁.heap v)), st₁)
        else (.err ("Unknown unary operator: " ++ op), st₁)
      | other => other
    | .comparisonOp l op r =>
      match evalE fuel l st with
      | (.ok lv, st₁) =>
        match evalE fuel r st₁ with
        | (.ok rv, st₂) =>
          match applyCmp fuel st₂.heap op lv rv with
          | .ok v => (.ok v, st₂)
          | .error m => (.err m, st₂)
        | other => other
      | other => other
    | .logicalOp l op r =>
      match evalE fuel l st with
      | (.ok lv, st₁) =>
        if op = "and" then
          if !truthy st₁.heap lv then (.ok lv, st₁) else evalE fuel r st₁
        else if op = "or" then
          if truthy st₁.heap lv then (.ok lv, st₁) else evalE fuel r st₁
        else (.err ("Unknown logical operator: " ++ op), st₁)
      | other => other
    | .functionCall f args =>
      match evalE fuel f st with
      | (.ok fv, st₁) =>
        match evalArgs fuel args st₁ with
        | (.ok avs, st₂) =>
          match fv with
          | .vbuiltin n =>
            match applyBuiltin fuel n avs st₂.heap st₂.out with
            | .ok (v, h, o) => (.ok v, { st₂ with heap := h, out := o })
            | .error m => (.err m, st₂)
          | .vmeth recv member =>
            match applyBoundMeth fuel st₂.heap recv member avs with
            | .ok (v, h) => (.ok v, { st₂ with heap := h })
            | .error m => (.err m, st₂)
          | .vclosure d envId _ => callFunction fuel d envId avs st₂
          | _ => (.err ("Cannot call non-function: " ++ pyTypeName fv), st₂)
        | (.ret v, st₂) => (.ret v, st₂)
        | (.brk, st₂) => (.brk, st₂)
        | (.cont, st₂) => (.cont, st₂)
        | (.err m, st₂) => (.err m, st₂)
      | other => other
    | .methodCall objE m args =>
      match evalE fuel objE st with
      | (.ok ov, st₁) =>
        match evalArgs fuel args st₁ with
        | (.ok avs, st₂) =>
          match ov with
          | .vlist r =>
            match applyListMethod fuel st₂.heap r m avs with
            | .ok (v, h) => (.ok v, { st₂ with heap := h })
            | .error msg => (.err msg, st₂)
          | .vstr s =>
            match applyStrMethod st₂.heap s m avs with
            | .ok (v, h) => (.ok v, { st₂ with heap := h })
            | .error msg => (.err msg, st₂)
          | .vmap r =>
            match applyMapMethod fuel st₂.heap r m avs with
            | .ok (v, h) => (.ok v, { st₂ with heap := h })
            | .error msg => (.err msg, st₂)
          | _ => (.err ("Unknown method '" ++ m ++ "' on " ++ pyTypeName ov), st₂)
        | (.ret v, st₂) => (.ret v, st₂)
        | (.brk, st₂) => (.brk, st₂)
        | (.cont, st₂) => (.cont, st₂)
        | (.err msg, st₂) => (.err msg, st₂)
      | other => other
    | .memberAccess objE m =>
      match evalE fuel objE st with
      | (.ok ov, st₁) =>
        match ov with
        | .vmap r =>
          match pyMapFindB fuel st₁.heap (st₁.heap.mapAt r) (.vstr m) with
          | .ok (some v) => (.ok v, st₁)
          | .ok none => (.err ("Key '" ++ m ++ "' not found in map"), st₁)
          | .error msg => (.err msg, st₁)
        | _ =>
          (.err ("Cannot access member '" ++ m ++ "' on " ++ pyTypeName ov), st₁)
      | other => other
    | .indexAccess objE idxE =>
      match evalE fuel objE st with
      | (.ok ov, st₁) =>
        match evalE fuel idxE st₁ with
        | (.ok iv, st₂) =>
          match pyIndex fuel st₂.heap ov iv with
          | .ok v => (.ok v, st₂)
          | .error m => (.err m, st₂)
        | other => other
      | other => other
    | .awaitExpr inner => evalE fuel inner st

termination_by structural fuel _ _ => fuel

def evalArgs : Nat → List Expr → St → RRes (List Value) × St
  | 0, _, st => (.err "out of fuel", st)
  | _+1, [], st => (.ok [], st)
  | fuel+1, e :: es, st =>
    match evalE fuel e st with
    | (.ok v, st₁) =>
      match evalArgs fuel es st₁ with
      | (.ok vs, st₂) => (.ok (v :: vs), st₂)
      | other => other
    | (.ret v, st₁) => (.ret v, st₁)
    | (.brk, st₁) => (.brk, st₁)
    | (.cont, st₁) => (.cont, st₁)
    | (.err m, st₁) => (.err m, st₁)

termination_by structural fuel _ _ => fuel

def evalPairs : Nat → List (Expr × Expr) → St → RRes (List (Value × Value)) × St
  | 0, _, st => (.err "out of fuel", st)
  | _+1, [], st => (.ok [], st)
  | fuel+1, (ke, ve) :: rest, st =>
    match evalE fuel ke st with
    | (.ok kv, st₁) =>
      match evalE fuel ve st₁ with
      | (.ok vv, st₂) =>
        match evalPairs fuel rest st₂ with
        | (.ok kvs, st₃) => (.ok ((kv, vv) :: kvs), st₃)
        | other => other
      | (.ret v, st₂) => (.ret v, st₂)
      | (.brk, st₂) => (.brk, st₂)
      | (.cont, st₂) => (.cont, st₂)
      | (.err m, st₂) => (.err m, st₂)
    | (.ret v, st₁) => (.ret v, st₁)
    | (.brk, st₁) => (.brk, st₁)
    | (.cont, st₁) => (.cont, st₁)
    | (.err m, st₁) => (.err m, st₁)

termination_by structural fuel _ _ => fuel

/-- `Interpreter._call_function`: a fresh environment whose parent is
the captured closure; parameters bound positionally; *default
expressions are evaluated before `current_env` is switched*, i.e. in
the caller's environment; the body runs in the new environment; a
caught `ReturnValue` carries the result, normal completion yields
`None`; `current_env` is restored in all cases. -/
def callFunction : Nat → FnD → Nat → List Value → St → Res × St
  | 0, _, _, _, st => (.err "out of fuel", st)
  | fuel+1, d, closureId, args, st =>
    let callerCur := st.cur
    let (funcEnv, st₁) := st.allocScope (some closureId)
    match bindParams fuel d.params args funcEnv st₁ with
    | (.ok _, st₂) =>
      let st₃ := { st₂ with cur := funcEnv }
      match execStmts fuel d.body st₃ with
      | (.ok _, st₄) => (.ok .vnone, { st₄ with cur := callerCur })
      | (.ret v, st₄) => (.ok v, { st₄ with cur := callerCur })
      | (.brk, st₄) => (.brk, { st₄ with cur := callerCur })
      | (.cont, st₄) => (.cont, { st₄ with cur := callerCur })
      | (.err m, st₄) => (.err m, { st₄ with cur := callerCur })
    | (.ret v, st₂) => (.ret v, { st₂ with cur := callerCur })
    | (.brk, st₂) => (.brk, { st₂ with cur := callerCur })
    | (.cont, st₂) => (.cont, { st₂ with cur := callerCur })
    | (.err m, st₂) => (.err m, { st₂ with cur := callerCur })

termination_by structural fuel _ _ _ _ => fuel

def bindParams : Nat → List (String × Option String × Option Expr) →
    List Value → Nat → St → RRes Unit × St
  | 0, _, _, _, st => (.err "out of fuel", st)
  | _+1, [], _, _, st => (.ok (), st)
  | fuel+1, p :: ps, a :: as, funcEnv, st =>
    bindParams fuel ps as funcEnv (defineIn st funcEnv p.1 a false)
  | fuel+1, p :: ps, [], funcEnv, st =>
    match p.2.2 with
    | some dflt =>
      match evalE fuel dflt st with
      | (.ok v, st₁) => bindParams fuel ps [] funcEnv (defineIn st₁ funcEnv p.1 v false)
      | (.ret v, st₁) => (.ret v, st₁)
      | (.brk, st₁) => (.brk, st₁)
      | (.cont, st₁) => (.cont, st₁)
      | (.err m, st₁) => (.err m, st₁)
    | none => bindParams fuel ps [] funcEnv (defineIn st funcEnv p.1 .vnone false)

termination_by structural fuel _ _ _ _ => fuel

def execStmt : Nat → Stmt → St → Res × St
  | 0, _, st => (.err "out of fuel", st)
  | fuel+1, s, st =>
    match s with
    | .exprStmt e => evalE fuel e st
    | .varDecl name _ value? isConst =>
      match value? with
      | some e =>
        match evalE fuel e st with
        | (.ok v, st₁) => (.ok .vnone, defineIn st₁ st₁.cur name v isConst)
        | other => other
      | none => (.ok .vnone, defineIn st st.cur name .vnone isConst)
    | .assign target op value =>
      match evalE fuel value st with
      | (.ok v, st₁) =>
        match target with
        | .identifier name =>
          if op = "=" then
            match assignVar st₁ name v with
            | .ok st₂ => (.ok v, st₂)
            | .error m => (.err m, st₁)
          else
            match lookupVar st₁ st₁.cur name with
            | .ok current =>
              match applyCompound st₁.heap op current v with
              | .ok (newV, h) =>
                let st₂ := { st₁ with heap := h }
                match assignVar st₂ name newV with
                | .ok st₃ => (.ok v, st₃)
                | .error m => (.err m, st₂)
              | .error m => (.err m, st₁)
            | .error m => (.err m, st₁)
        | .indexAccess objE idxE =>
          match evalE fuel objE st₁ with
          | (.ok ov, st₂) =>
            match evalE fuel idxE st₂ with
            | (.ok iv, st₃) =>
              if op = "=" then
                match pyStoreIndex fuel st₃.heap ov iv v with
                | .ok h => (.ok v, { st₃ with heap := h })
                | .error m => (.err m, st₃)
              else
                match pyIndex fuel st₃.heap ov iv with
                | .ok current =>
                  match applyCompound st₃.heap op current v with
                  | .ok (newV, h) =>
                    match pyStoreIndex fuel h ov iv newV with
                    | .ok h' => (.ok v, { st₃ with heap := h' })
                    | .error m => (.err m, { st₃ with heap := h })
                  | .error m => (.err m, st₃)
                | .error m => (.err m, st₃)
            | other => other
          | other => other
        | .memberAccess objE m =>
          match evalE fuel objE st₁ with
          | (.ok ov, st₂) =>
            match ov with
            | .vmap r =>
              if op = "=" then
                match pyMapSet fuel st₂.heap (st₂.heap.mapAt r) (.vstr m) v with
                | .ok entries =>
                  (.ok v, { st₂ with heap := st₂.heap.setMap r entries })
                | .error msg => (.err msg, st₂)
              else
                match pyMapFindB fuel st₂.heap (st₂.heap.mapAt r) (.vstr m) with
                | .ok cur? =>
                  match applyCompound st₂.heap op (cur?.getD .vnone) v with
                  | .ok (newV, h) =>
                    match pyMapSet fuel h (h.mapAt r) (.vstr m) newV with
                    | .ok entries => (.ok v, { st₂ with heap := h.setMap r entries })
                    | .error msg => (.err msg, { st₂ with heap := h })
                  | .error msg => (.err msg, st₂)
                | .error msg => (.err msg, st₂)
            | _ => (.err ("Invalid assignment target: MemberAccess"), st₂)
          | other => other
        | _ => (.err ("Invalid assignment target: " ++ target.nodeName), st₁)
      | other => other
    | .block stmts => execStmts fuel stmts st
    | .ifStmt cond thenB elifs elseB =>
      match evalE fuel cond st with
      | (.ok c, st₁) =>
        if truthy st₁.heap c then execStmts fuel thenB st₁
        else execElifs fuel elifs elseB st₁
      | other => other
    | .whileStmt cond body => execWhile fuel cond body .vnone st
    | .forStmt varName iterable body =>
      match evalE fuel iterable st with
      | (.ok itv, st₁) =>
        let previous := st₁.cur
        let (child, st₂) := st₁.allocScope (some previous)
        let st₃ := { st₂ with cur := child }
        let (r, st₄) :=
          match itv with
          | .vlist ref => execForList fuel varName ref 0 body .vnone st₃
          | .vstr s =>
            execForItems fuel varName (s.data.map (fun c => .vstr ⟨[c]⟩)) body
              .vnone st₃
          | .vmap ref =>
            execForItems fuel varName ((st₃.heap.mapAt ref).map Prod.fst) body
              .vnone st₃
          | _ => (.err ("'" ++ pyTypeName itv ++ "' object is not iterable"), st₃)
        (r, { st₄ with cur := previous })
      | other => other
    | .breakStmt => (.brk, st)
    | .continueStmt => (.cont, st)
    | .returnStmt value? =>
      match value? with
      | some e =>
        match evalE fuel e st with
        | (.ok v, st₁) => (.ret v, st₁)
        | other => other
      | none => (.ret .vnone, st)
    | .fnDecl name params retTy body isAsync =>
      let clos : Value := .vclosure ⟨name, params, retTy, body, isAsync⟩ st.cur st.objCount
      let st₁ := { st with objCount := st.objCount + 1 }
      (.ok .vnone, defineIn st₁ st₁.cur name clos false)
    | .eventDecl name fields =>
      let st₁ := { st with events := aset st.events name [] }
      let (fieldVals, st₂) := allocFields st₁ fields
      let (fv, st₃) := st₂.allocList fieldVals
      let (mv, st₄) := st₃.allocMap
        [(.vstr "__type__", .vstr "event"), (.vstr "__name__", .vstr name),
         (.vstr "__fields__", fv)]
      (.ok .vnone, defineIn st₄ st₄.cur name mv false)
    | .emitStmt name args =>
      match evalArgs fuel args st with
      | (.ok avs, st₁) =>
        let entry := ((aget st₁.events name).getD []) ++ [avs]
        let line := "[EVENT] " ++ name ++ ": [" ++
          String.intercalate ", " (avs.map (pyRepr fuel st₁.heap)) ++ "]\n"
        (.ok .vnone,
          { st₁ with events := aset st₁.events name entry, out := st₁.out ++ [line] })
      | (.ret v, st₁) => (.ret v, st₁)
      | (.brk, st₁) => (.brk, st₁)
      | (.cont, st₁) => (.cont, st₁)
      | (.err m, st₁) => (.err m, st₁)

termination_by structural fuel _ _ => fuel

def execStmts : Nat → List Stmt → St → Res × St
  | 0, _, st => (.err "out of fuel", st)
  | _+1, [], st => (.ok .vnone, st)
  | fuel+1, [s], st => execStmt fuel s st
  | fuel+1, s :: t :: rest, st =>
    match execStmt fuel s st with
    | (.ok _, st₁) => execStmts fuel (t :: rest) st₁
    | other => other

termination_by structural fuel _ _ => fuel

def execElifs : Nat → List (Expr × List Stmt) → Option (List Stmt) → St →
    Res × St
  | 0, _, _, st => (.err "out of fuel", st)
  | fuel+1, [], elseB, st =>
    match elseB with
    | some els => execStmts fuel els st
    | none => (.ok .vnone, st)
  | fuel+1, (c, b) :: rest, elseB, st =>
    match evalE fuel c st with
    | (.ok cv, st₁) =>
      if truthy st₁.heap cv then execStmts fuel b st₁
      else execElifs fuel rest elseB st₁
    | other => other

termination_by structural fuel _ _ _ => fuel

def execWhile : Nat → Expr → List Stmt → Value → St → Res × St
  | 0, _, _, _, st => (.err "out of fuel", st)
  | fuel+1, cond, body, acc, st =>
    match evalE fuel cond st with
    | (.ok c, st₁) =>
      if truthy st₁.heap c then
        match execStmts fuel body st₁ with
        | (.ok v, st₂) => execWhile fuel cond body v st₂
        | (.brk, st₂) => (.ok acc, st₂)
        | (.cont, st₂) => execWhile fuel cond body acc st₂
        | (.ret v, st₂) => (.ret v, st₂)
        | (.err m, st₂) => (.err m, st₂)
      else (.ok acc, st₁)
    | other => other

termination_by structural fuel _ _ _ _ => fuel

def execForList : Nat → String → Nat → Nat → List Stmt → Value → St → Res × St
  | 0, _, _, _, _, _, st => (.err "out of fuel", st)
  | fuel+1, varName, ref, idx, body, acc, st =>
    if idx < (st.heap.listAt ref).length then
      let item := (st.heap.listAt ref).getD idx .vnone
      let st₁ := defineIn st st.cur varName item false
      match execStmts fuel body st₁ with
      | (.ok v, st₂) => execForList fuel varName ref (idx + 1) body v st₂
      | (.brk, st₂) => (.ok acc, st₂)
      | (.cont, st₂) => execForList fuel varName ref (idx + 1) body acc st₂
      | (.ret v, st₂) => (.ret v, st₂)
      | (.err m, st₂) => (.err m, st₂)
    else (.ok acc, st)

termination_by structural fuel _ _ _ _ _ => fuel

def execForItems : Nat → String → List Value → List Stmt → Value → St → Res × St
  | 0, _, _, _, _, st => (.err "out of fuel", st)
  | _+1, _, [], _, acc, st => (.ok acc, st)
  | fuel+1, varName, item :: items, body, acc, st =>
    let st₁ := defineIn st st.cur varName item false
    match execStmts fuel body st₁ with
    | (.ok v, st₂) => execForItems fuel varName items body v st₂
    | (.brk, st₂) => (.ok acc, st₂)
    | (.cont, st₂) => execForItems fuel varName items body acc st₂
    | (.ret v, st₂) => (.ret v, st₂)
    | (.err m, st₂) => (.err m, st₂)

termination_by structural fuel _ _ _ _ _ => fuel

end

/-- `Interpreter.__init__`: global environment pre-loaded with the
builtin registry, in `_setup_builtins` order. -/
def interpInit : St :=
  { heap := Heap.empty
    envs := [⟨[("print", .vbuiltin "print"), ("println", .vbuiltin "println"),
      ("len", .vbuiltin "len"), ("range", .vbuiltin "range"),
      ("str", .vbuiltin "str"), ("int", .vbuiltin "int"),
      ("float", .vbuiltin "float"), ("type", .vbuiltin "type"),
      ("input", .vbuiltin "input"), ("append", .vbuiltin "append"),
      ("pop", .vbuiltin "pop"), ("keys", .vbuiltin "keys"),
      ("values", .vbuiltin "values"), ("abs", .vbuiltin "abs"),
      ("min", .vbuiltin "min"), ("max", .vbuiltin "max"),
      ("sum", .vbuiltin "sum")], [], none⟩]
    cur := 0
    events := []
    out := []
    objCount := 0 }

/-- `Interpreter.run`: execute the program statements in order and
return the last statement's result. -/
def interpRun (fuel : Nat) (prog : List Stmt) : Res × St :=
  execStmts fuel prog interpInit

/-! ### The bytecode compiler (`vm.py` `Compiler`) -/

/-- Entries of the compiler's constant pool (`add_constant` is only
ever called with attribute-name strings and `CompiledFunction`s). -/
inductive VConst where
  | cstr (s : String)
  | cfunc (f : CompiledFn)
deriving DecidableEq, Repr

/-- Compiler state: instruction list, constant pool, local-slot
table, and the `break`/`continue` patch stacks (head = innermost). -/
structure CompSt where
  instrs : List Instruction
  consts : List VConst
  localsMap : List (String × Nat)
  localCount : Nat
  loopStarts : List Nat
  loopEnds : List (List Nat)

def CompSt.empty : CompSt := ⟨[], [], [], 0, [], []⟩

/-- `Compiler.emit`: append, return the instruction's address. -/
def CompSt.emit (c : CompSt) (i : Instruction) : CompSt × Nat :=
  ({ c with instrs := c.instrs ++ [i] }, c.instrs.length)

def CompSt.emit1 (c : CompSt) (i : Instruction) : CompSt := (c.emit i).1

/-- `Compiler.patch_jump`: overwrite the operand at `addr`. -/
def CompSt.patch (c : CompSt) (addr target : Nat) : CompSt :=
  match c.instrs.get? addr with
  | some (.jump _) => { c with instrs := c.instrs.set addr (.jump target) }
  | some (.jumpIfFalse _) =>
    { c with instrs := c.instrs.set addr (.jumpIfFalse target) }
  | some (.jumpIfTrue _) =>
    { c with instrs := c.instrs.set addr (.jumpIfTrue target) }
  | _ => c

def CompSt.addConst (c : CompSt) (v : VConst) : CompSt × Nat :=
  ({ c with consts := c.consts ++ [v] }, c.consts.length)

/-- `Compiler.get_local`. -/
def CompSt.getLocal (c : CompSt) (name : String) : CompSt × Nat :=
  match aget c.localsMap name with
  | some slot => (c, slot)
  | none =>
    ({ c with
        localsMap := aset c.localsMap name c.localCount
        localCount := c.localCount + 1 }, c.localCount)

def CompSt.here (c : CompSt) : Nat := c.instrs.length

/-- `Compiler._emit_compound_op` (emits nothing on an unknown op). -/
def CompSt.emitCompound (c : CompSt) (op : String) : CompSt :=
  if op = "+=" then c.emit1 .add
  else if op = "-=" then c.emit1 .sub
  else if op = "*=" then c.emit1 .mul
  else if op = "/=" then c.emit1 .div
  else c

/-- `compile_BinaryOp`'s table (emits nothing on an unknown op). -/
def CompSt.emitBinOp (c : CompSt) (op : String) : CompSt :=
  if op = "+" then c.emit1 .add
  else if op = "-" then c.emit1 .sub
  else if op = "*" then c.emit1 .mul
  else if op = "/" then c.emit1 .div
  else if op = "%" then c.emit1 .mod
  else if op = "**" then c.emit1 .pow
  else if op = "&" then c.emit1 .bitAnd
  else if op = "|" then c.emit1 .bitOr
  else if op = "^" then c.emit1 .bitXor
  else if op = "<<" then c.emit1 .shl
  else if op = ">>" then c.emit1 .shr
  else c

/-- `compile_ComparisonOp`'s table. -/
def CompSt.emitCmpOp (c : CompSt) (op : String) : CompSt :=
  if op = "==" then c.emit1 .eq
  else if op = "!=" then c.emit1 .ne
  else if op = "<" then c.emit1 .lt
  else if op = ">" then c.emit1 .gt
  else if op = "<=" then c.emit1 .le
  else if op = ">=" then c.emit1 .ge
  else c

mutual

def compileExpr : Nat → Expr → CompSt → Except String CompSt
  | 0, _, _ => .error "compiler out of fuel"
  | fuel+1, e, c =>
    match e with
    | .integerLiteral n => .ok (c.emit1 (.push (.pint n)))
    | .floatLiteral q => .ok (c.emit1 (.push (.pfloat q)))
    | .stringLiteral s => .ok (c.emit1 (.push (.pstr s)))
    | .booleanLiteral b => .ok (c.emit1 (.push (.pbool b)))
    | .nullLiteral => .ok (c.emit1 (.push .pnone))
    | .identifier name => .ok (c.emit1 (.load name))
    | .listLiteral es =>
      match compileArgs fuel es c with
      | .ok c₁ => .ok (c₁.emit1 (.buildList es.length))
      | .error m => .error m
    | .mapLiteral pairs =>
      match compilePairs fuel pairs c with
      | .ok c₁ => .ok (c₁.emit1 (.buildMap pairs.length))
      | .error m => .error m
    | .binaryOp l op r =>
      match compileExpr fuel l c with
      | .ok c₁ =>
        match compileExpr fuel r c₁ with
        | .ok c₂ => .ok (c₂.emitBinOp op)
        | .error m => .error m
      | .error m => .error m
    | .unaryOp op operand =>
      match compileExpr fuel operand c with
      | .ok c₁ =>
        if op = "-" then .ok (c₁.emit1 .neg)
        else if op = "~" then .ok (c₁.emit1 .bitNot)
        else if op = "not" then .ok (c₁.emit1 .notOp)
        else .ok c₁
      | .error m => .error m
    | .comparisonOp l op r =>
      match compileExpr fuel l c with
      | .ok c₁ =>
        match compileExpr fuel r c₁ with
        | .ok c₂ => .ok (c₂.emitCmpOp op)
        | .error m => .error m
      | .error m => .error m
    | .logicalOp l op r =>
      match compileExpr fuel l c with
      | .ok c₁ =>
        if op = "and" then
          let (c₂, jmp) := c₁.emit (.jumpIfFalse 0)
          match compileExpr fuel r (c₂.emit1 .pop) with
          | .ok c₃ => .ok (c₃.patch jmp c₃.here)
          | .error m => .error m
        else if op = "or" then
          let (c₂, jmp) := c₁.emit (.jumpIfTrue 0)
          match compileExpr fuel r (c₂.emit1 .pop) with
          | .ok c₃ => .ok (c₃.patch jmp c₃.here)
          | .error m => .error m
        else .ok c₁
      | .error m => .error m
    | .functionCall f args =>
      match compileArgs fuel args c with
      | .ok c₁ =>
        match compileExpr fuel f c₁ with
        | .ok c₂ => .ok (c₂.emit1 (.call args.length))
        | .error m => .error m
      | .error m => .error m
    | .indexAccess objE idxE =>
      match compileExpr fuel objE c with
      | .ok c₁ =>
        match compileExpr fuel idxE c₁ with
        | .ok c₂ => .ok (c₂.emit1 .index)
        | .error m => .error m
      | .error m => .error m
    | .memberAccess objE member =>
      match compileExpr fuel objE c with
      | .ok c₁ =>
        let (c₂, idx) := c₁.addConst (.cstr member)
        .ok (c₂.emit1 (.getAttr idx))
      | .error m => .error m
    | .methodCall _ _ _ => .error "Cannot compile expression: MethodCall"
    | .awaitExpr _ => .error "Cannot compile expression: AwaitExpression"
termination_by structural fuel _ _ => fuel

def compileArgs : Nat → List Expr → CompSt → Except String CompSt
  | 0, _, _ => .error "compiler out of fuel"
  | _+1, [], c => .ok c
  | fuel+1, e :: es, c =>
    match compileExpr fuel e c with
    | .ok c₁ => compileArgs fuel es c₁
    | .error m => .error m
termination_by structural fuel _ _ => fuel

def compilePairs : Nat → List (Expr × Expr) → CompSt → Except String CompSt
  | 0, _, _ => .error "compiler out of fuel"
  | _+1, [], c => .ok c
  | fuel+1, (k, v) :: rest, c =>
    match compileExpr fuel k c with
    | .ok c₁ =>
      match compileExpr fuel v c₁ with
      | .ok c₂ => compilePairs fuel rest c₂
      | .error m => .error m
    | .error m => .error m
termination_by structural fuel _ _ => fuel

def compileStmt : Nat → Stmt → CompSt → Except String CompSt
  | 0, _, _ => .error "compiler out of fuel"
  | fuel+1, s, c =>
    match s with
    | .exprStmt e =>
      match compileExpr fuel e c with
      | .ok c₁ => .ok (c₁.emit1 .pop)
      | .error m => .error m
    | .varDecl name _ value? _ =>
      let compiled :=
        match value? with
        | some e => compileExpr fuel e c
        | none => .ok (c.emit1 (.push .pnone))
      match compiled with
      | .ok c₁ =>
        let (c₂, slot) := c₁.getLocal name
        .ok (c₂.emit1 (.defineI name slot))
      | .error m => .error m
    | .assign target op value =>
      match target with
      | .identifier name =>
        if op = "=" then
          match compileExpr fuel value c with
          | .ok c₁ => .ok (c₁.emit1 (.store name))
          | .error m => .error m
        else
          match compileExpr fuel value (c.emit1 (.load name)) with
          | .ok c₁ => .ok ((c₁.emitCompound op).emit1 (.store name))
          | .error m => .error m
      | .indexAccess objE idxE =>
        match compileExpr fuel objE c with
        | .ok c₁ =>
          match compileExpr fuel idxE c₁ with
          | .ok c₂ =>
            if op = "=" then
              match compileExpr fuel value c₂ with
              | .ok c₃ => .ok (c₃.emit1 .storeIndex)
              | .error m => .error m
            else
              let c₃ := ((c₂.emit1 .dup).emit1 .dup).emit1 .index
              match compileExpr fuel value c₃ with
              | .ok c₄ => .ok ((c₄.emitCompound op).emit1 .storeIndex)
              | .error m => .error m
          | .error m => .error m
        | .error m => .error m
      | _ => .ok c
    | .block stmts => compileStmts fuel stmts c
    | .ifStmt cond thenB elifs elseB =>
      match compileExpr fuel cond c with
      | .ok c₁ =>
        let (c₂, jif) := c₁.emit (.jumpIfFalse 0)
        match compileStmts fuel thenB c₂ with
        | .ok c₃ =>
          let (c₄, jend) := c₃.emit (.jump 0)
          match compileElifs fuel elifs (c₄.patch jif c₄.here) with
          | .ok c₅ =>
            match
              (match elseB with
               | some els => compileStmts fuel els c₅
               | none => .ok c₅) with
            | .ok c₆ => .ok (c₆.patch jend c₆.here)
            | .error m => .error m
          | .error m => .error m
        | .error m => .error m
      | .error m => .error m
    | .whileStmt cond body =>
      let loopStart := c.here
      let c₀ := { c with
        loopStarts := loopStart :: c.loopStarts
        loopEnds := [] :: c.loopEnds }
      match compileExpr fuel cond c₀ with
      | .ok c₁ =>
        let (c₂, exitJ) := c₁.emit (.jumpIfFalse 0)
        match compileStmts fuel body c₂ with
        | .ok c₃ =>
          let c₄ := c₃.emit1 (.jump loopStart)
          let loopEnd := c₄.here
          let c₅ := c₄.patch exitJ loopEnd
          let breaks := c₅.loopEnds.headD []
          let c₆ := breaks.foldl (fun acc j => acc.patch j loopEnd) c₅
          .ok { c₆ with
            loopStarts := c₆.loopStarts.tail
            loopEnds := c₆.loopEnds.tail }
        | .error m => .error m
      | .error m => .error m
    | .forStmt varName iterable body =>
      match compileExpr fuel iterable c with
      | .ok c₁ =>
        let (c₂, iterSlot) := c₁.getLocal "__iter__"
        let c₃ := c₂.emit1 (.defineI "__iter__" iterSlot)
        let (c₄, idxSlot) := c₃.getLocal "__idx__"
        let c₅ := (c₄.emit1 (.push (.pint 0))).emit1 (.defineI "__idx__" idxSlot)
        let loopStart := c₅.here
        let c₆ := { c₅ with
          loopStarts := loopStart :: c₅.loopStarts
          loopEnds := [] :: c₅.loopEnds }
        let c₇ := (c₆.emit1 (.load "__idx__")).emit1 (.load "__iter__")
        let (c₈, lenIdx) := c₇.addConst (.cstr "__len__")
        let c₉ := (c₈.emit1 (.getAttr lenIdx)).emit1 .lt
        let (c₁₀, exitJ) := c₉.emit (.jumpIfFalse 0)
        let c₁₁ := ((c₁₀.emit1 (.load "__iter__")).emit1 (.load "__idx__")).emit1 .index
        let (c₁₂, varSlot) := c₁₁.getLocal varName
        let c₁₃ := c₁₂.emit1 (.defineI varName varSlot)
        match compileStmts fuel body c₁₃ with
        | .ok c₁₄ =>
          let c₁₅ := ((((c₁₄.emit1 (.load "__idx__")).emit1
            (.push (.pint 1))).emit1 .add).emit1 (.store "__idx__")).emit1
            (.jump loopStart)
          let loopEnd := c₁₅.here
          let c₁₆ := c₁₅.patch exitJ loopEnd
          let breaks := c₁₆.loopEnds.headD []
          let c₁₇ := breaks.foldl (fun acc j => acc.patch j loopEnd) c₁₆
          .ok { c₁₇ with
            loopStarts := c₁₇.loopStarts.tail
            loopEnds := c₁₇.loopEnds.tail }
        | .error m => .error m
      | .error m => .error m
    | .breakStmt =>
      match c.loopEnds with
      | [] => .ok c
      | top :: rest =>
        let (c₁, j) := c.emit (.jump 0)
        .ok { c₁ with loopEnds := (top ++ [j]) :: rest }
    | .continueStmt =>
      match c.loopStarts with
      | [] => .ok c
      | start :: _ => .ok (c.emit1 (.jump start))
    | .returnStmt value? =>
      match
        (match value? with
         | some e => compileExpr fuel e c
         | none => .ok (c.emit1 (.push .pnone))) with
      | .ok c₁ => .ok (c₁.emit1 .retI)
      | .error m => .error m
    | .fnDecl name params _ body _ =>
      let sub := params.foldl (fun (acc : CompSt) p => (acc.getLocal p.1).1)
        CompSt.empty
      match compileStmts fuel body sub with
      | .ok sub₁ =>
        let sub₂ := (sub₁.emit1 (.push .pnone)).emit1 .retI
        let cf : CompiledFn :=
          ⟨name, params.map (fun p => p.1), sub₂.instrs, sub₂.localCount⟩
        let (c₁, idx) := c.addConst (.cfunc cf)
        let c₂ := c₁.emit1 (.loadConst idx)
        let (c₃, slot) := c₂.getLocal name
        .ok (c₃.emit1 (.defineI name slot))
      | .error m => .error m
    | .eventDecl _ _ => .error "Cannot compile: EventDeclaration"
    | .emitStmt _ _ => .error "Cannot compile: EmitStatement"
termination_by structural fuel _ _ => fuel

def compileStmts : Nat → List Stmt → CompSt → Except String CompSt
  | 0, _, _ => .error "compiler out of fuel"
  | _+1, [], c => .ok c
  | fuel+1, s :: rest, c =>
    match compileStmt fuel s c with
    | .ok c₁ => compileStmts fuel rest c₁
    | .error m => .error m
termination_by structural fuel _ _ => fuel

def compileElifs : Nat → List (Expr × List Stmt) → CompSt → Except String CompSt
  | 0, _, _ => .error "compiler out of fuel"
  | _+1, [], c => .ok c
  | fuel+1, (cond, b) :: rest, c =>
    match compileExpr fuel cond c with
    | .ok c₁ =>
      let (c₂, ej) := c₁.emit (.jumpIfFalse 0)
      match compileStmts fuel b c₂ with
      | .ok c₃ =>
        let (c₄, _) := c₃.emit (.jump 0)
        compileElifs fuel rest (c₄.patch ej c₄.here)
      | .error m => .error m
    | .error m => .error m
termination_by structural fuel _ _ => fuel

end

/-- `Compiler.compile`: compile the program, then `HALT`.  The
`jump_to_end_elif` addresses are (faithfully) left unpatched at 0. -/
def compileProgram (fuel : Nat) (prog : List Stmt) :
    Except String (List Instruction × List VConst) :=
  match compileStmts fuel prog CompSt.empty with
  | .ok c => .ok ((c.emit1 .halt).instrs, c.consts)
  | .error m => .error m

/-! ### The virtual machine (`vm.py` `VirtualMachine`) -/

def Prim.toValue : Prim → Value
  | .pint n => .vint n
  | .pfloat q => .vfloat q
  | .pstr s => .vstr s
  | .pbool b => .vbool b
  | .pnone => .vnone

/-- VM state.  The frame stack holds the innermost frame at the head;
`current_frame` is the head, or the globals when no frame exists. -/
structure VMSt where
  heap : Heap
  stack : List Value
  frames : List (List (String × Value))
  globalsV : List (String × Value)
  pc : Nat
  out : List String

/-- `VirtualMachine._setup_builtins` (the VM's smaller registry). -/
def vmGlobals : List (String × Value) :=
  [("print", .vbuiltin "print"), ("println", .vbuiltin "println"),
   ("len", .vbuiltin "len"), ("range", .vbuiltin "range"),
   ("str", .vbuiltin "str"), ("int", .vbuiltin "int"),
   ("float", .vbuiltin "float"), ("abs", .vbuiltin "abs"),
   ("min", .vbuiltin "min"), ("max", .vbuiltin "max"),
   ("sum", .vbuiltin "sum")]

def VMSt.init : VMSt := ⟨Heap.empty, [], [[]], vmGlobals, 0, []⟩

/-- `self.stack.pop()`: Python raises `IndexError` on an empty list. -/
def VMSt.popV (s : VMSt) : Except String (Value × VMSt) :=
  match s.stack with
  | [] => .error "pop from empty list"
  | v :: rest => .ok (v, { s with stack := rest })

def VMSt.pushV (s : VMSt) (v : Value) : VMSt := { s with stack := v :: s.stack }

/-- `self.peek()`: top of stack or `None`. -/
def VMSt.peekV (s : VMSt) : Value := s.stack.headD .vnone

/-- Pop `n` values; `[self.pop() for _ in range(n)][::-1]`. -/
def VMSt.popN (s : VMSt) : Nat → Except String (List Value × VMSt)
  | 0 => .ok ([], s)
  | n+1 =>
    match s.popV with
    | .ok (v, s₁) =>
      match s₁.popN n with
      | .ok (vs, s₂) => .ok (vs ++ [v], s₂)
      | .error m => .error m
    | .error m => .error m

/-- Write to the current frame (`frame[name] = value`). -/
def VMSt.storeCur (s : VMSt) (name : String) (v : Value) : VMSt :=
  match s.frames with
  | [] => { s with globalsV := aset s.globalsV name v }
  | f :: rest => { s with frames := aset f name v :: rest }

/-- `LOAD`: current frame, then globals. -/
def VMSt.loadName (s : VMSt) (name : String) : Except String Value :=
  let frame := s.frames.headD s.globalsV
  match aget frame name with
  | some v => .ok v
  | none =>
    match aget s.globalsV name with
    | some v => .ok v
    | none => .error ("Undefined variable: " ++ name)

/-- Binary opcode helper: `b, a = pop(), pop(); push(a ∘ b)`. -/
def vmBinArith (s : VMSt) (op : String) : Except String VMSt :=
  match s.popV with
  | .ok (b, s₁) =>
    match s₁.popV with
    | .ok (a, s₂) =>
      match applyBin s₂.heap op a b with
      | .ok (v, h) => .ok ({ s₂ with heap := h }.pushV v)
      | .error m => .error m
    | .error m => .error m
  | .error m => .error m

def vmBinCmp (fuel : Nat) (s : VMSt) (op : String) : Except String VMSt :=
  match s.popV with
  | .ok (b, s₁) =>
    match s₁.popV with
    | .ok (a, s₂) =>
      match applyCmp fuel s₂.heap op a b with
      | .ok v => .ok (s₂.pushV v)
      | .error m => .error m
    | .error m => .error m
  | .error m => .error m

/-- `VirtualMachine._execute_instruction` (the `pc` has already been
advanced by the fetch).  The second component is `True` on `HALT`. -/
def vmExec (fuel : Nat) (consts : List VConst) (i : Instruction) (s : VMSt) :
    Except String (VMSt × Bool) :=
  match i with
  | .push p => .ok (s.pushV p.toValue, false)
  | .pop => (s.popV).map (fun (_, s₁) => (s₁, false))
  | .dup => .ok (s.pushV s.peekV, false)
  | .add => (vmBinArith s "+").map (·, false)
  | .sub => (vmBinArith s "-").map (·, false)
  | .mul => (vmBinArith s "*").map (·, false)
  | .div => (vmBinArith s "/").map (·, false)
  | .mod => (vmBinArith s "%").map (·, false)
  | .pow => (vmBinArith s "**").map (·, false)
  | .neg =>
    match s.popV with
    | .ok (v, s₁) =>
      match negV v with
      | .ok w => .ok (s₁.pushV w, false)
      | .error m => .error m
    | .error m => .error m
  | .eq => (vmBinCmp fuel s "==").map (·, false)
  | .ne => (vmBinCmp fuel s "!=").map (·, false)
  | .lt => (vmBinCmp fuel s "<").map (·, false)
  | .gt => (vmBinCmp fuel s ">").map (·, false)
  | .le => (vmBinCmp fuel s "<=").map (·, false)
  | .ge => (vmBinCmp fuel s ">=").map (·, false)
  | .notOp =>
    (s.popV).map (fun (v, s₁) => (s₁.pushV (.vbool (!truthy s₁.heap v)), false))
  | .bitAnd => (vmBinArith s "&").map (·, false)
  | .bitOr => (vmBinArith s "|").map (·, false)
  | .bitXor => (vmBinArith s "^").map (·, false)
  | .bitNot =>
    match s.popV with
    | .ok (v, s₁) =>
      match bitNotV v with
      | .ok w => .ok (s₁.pushV w, false)
      | .error m => .error m
    | .error m => .error m
  | .shl => (vmBinArith s "<<").map (·, false)
  | .shr => (vmBinArith s ">>").map (·, false)
  | .load name => (s.loadName name).map (fun v => (s.pushV v, false))
  | .store name => (s.popV).map (fun (v, s₁) => (s₁.storeCur name v, false))
  | .defineI name _ => (s.popV).map (fun (v, s₁) => (s₁.storeCur name v, false))
  | .loadConst idx =>
    match consts.get? idx with
    | some (.cstr str) => .ok (s.pushV (.vstr str), false)
    | some (.cfunc f) => .ok (s.pushV (.vcompiled f), false)
    | none => .error "constant index out of range"
  | .jump t => .ok ({ s with pc := t }, false)
  | .jumpIfFalse t =>
    (s.popV).map (fun (v, s₁) =>
      (if !truthy s₁.heap v then { s₁ with pc := t } else s₁, false))
  | .jumpIfTrue t =>
    (s.popV).map (fun (v, s₁) =>
      (if truthy s₁.heap v then { s₁ with pc := t } else s₁, false))
  | .call n =>
    match s.popV with
    | .ok (func, s₁) =>
      match s₁.popN n with
      | .ok (args, s₂) =>
        match func with
        | .vbuiltin nm =>
          match applyBuiltin fuel nm args s₂.heap s₂.out with
          | .ok (v, h, o) => .ok (({ s₂ with heap := h, out := o }).pushV v, false)
          | .error m => .error m
        | .vmeth recv member =>
          match applyBoundMeth fuel s₂.heap recv member args with
          | .ok (v, h) => .ok (({ s₂ with heap := h }).pushV v, false)
          | .error m => .error m
        | .vcompiled f =>
          let frame := (List.range f.params.length).map (fun i =>
            ((f.params.get? i).getD "", (args.get? i).getD .vnone))
          .ok ({ s₂ with frames := frame :: s₂.frames }, false)
        | _ => .ok (s₂, false)
      | .error m => .error m
    | .error m => .error m
  | .retI =>
    match s.popV with
    | .ok (v, s₁) =>
      match s₁.frames with
      | [] => .error "pop from empty list"
      | _ :: rest => .ok (({ s₁ with frames := rest }).pushV v, false)
    | .error m => .error m
  | .buildList n =>
    match s.popN n with
    | .ok (vs, s₁) =>
      let (v, h) := s₁.heap.allocList vs
      .ok (({ s₁ with heap := h }).pushV v, false)
    | .error m => .error m
  | .buildMap n =>
    match s.popN (2 * n) with
    | .ok (flat, s₁) =>
      let pairs := (List.range n).map (fun i =>
        ((flat.get? (2 * i)).getD .vnone, (flat.get? (2 * i + 1)).getD .vnone))
      match buildMapVals fuel s₁.heap [] pairs with
      | .ok entries =>
        let (v, h) := s₁.heap.allocMap entries
        .ok (({ s₁ with heap := h }).pushV v, false)
      | .error m => .error m
    | .error m => .error m
  | .index =>
    match s.popV with
    | .ok (idx, s₁) =>
      match s₁.popV with
      | .ok (obj, s₂) =>
        match pyIndex fuel s₂.heap obj idx with
        | .ok v => .ok (s₂.pushV v, false)
        | .error m => .error m
      | .error m => .error m
    | .error m => .error m
  | .storeIndex =>
    match s.popV with
    | .ok (v, s₁) =>
      match s₁.popV with
      | .ok (idx, s₂) =>
        match s₂.popV with
        | .ok (obj, s₃) =>
          match pyStoreIndex fuel s₃.heap obj idx v with
          | .ok h => .ok ({ s₃ with heap := h }, false)
          | .error m => .error m
        | .error m => .error m
      | .error m => .error m
    | .error m => .error m
  | .getAttr idx =>
    match consts.get? idx with
    | some (.cstr member) =>
      match s.popV with
      | .ok (obj, s₁) =>
        match obj with
        | .vmap r =>
          match pyMapFindB fuel s₁.heap (s₁.heap.mapAt r) (.vstr member) with
          | .ok v? => .ok (s₁.pushV (v?.getD .vnone), false)
          | .error m => .error m
        | _ =>
          if hasattrB obj member then .ok (s₁.pushV (.vmeth obj member), false)
          else .ok (s₁.pushV .vnone, false)
      | .error m => .error m
    | some (.cfunc _) => .error "attribute name must be string"
    | none => .error "constant index out of range"
  | .setAttr idx =>
    match consts.get? idx with
    | some (.cstr member) =>
      match s.popV with
      | .ok (v, s₁) =>
        match s₁.popV with
        | .ok (obj, s₂) =>
          match obj with
          | .vmap r =>
            match pyMapSet fuel s₂.heap (s₂.heap.mapAt r) (.vstr member) v with
            | .ok entries =>
              .ok ({ s₂ with heap := s₂.heap.setMap r entries }, false)
            | .error m => .error m
          | _ =>
            .error ("cannot set attribute on " ++ pyTypeName obj)
        | .error m => .error m
      | .error m => .error m
    | some (.cfunc _) => .error "attribute name must be string"
    | none => .error "constant index out of range"
  | .printI =>
    (s.popV).map (fun (v, s₁) =>
      ({ s₁ with out := s₁.out ++ [pyStr fuel s₁.heap v] }, false))
  | .halt => .ok (s, true)
  | .nop => .ok (s, false)

/-- `VirtualMachine.run`: fetch (advancing the `pc`), dispatch, stop
on `HALT` or when the `pc` runs off the end; the result is the final
top of stack (`None` when empty). -/
def vmRun : Nat → List Instruction → List VConst → VMSt →
    Except String (Value × VMSt)
  | 0, _, _, _ => .error "out of fuel"
  | fuel+1, instrs, consts, s =>
    match instrs.get? s.pc with
    | none => .ok (s.peekV, s)
    | some i =>
      let s₁ := { s with pc := s.pc + 1 }
      match vmExec fuel consts i s₁ with
      | .ok (s₂, true) => .ok (s₂.peekV, s₂)
      | .ok (s₂, false) => vmRun fuel instrs consts s₂
      | .error m => .error m

/-- Compile and run a program on the VM backend
(`Compiler.compile` + `VirtualMachine.run`). -/
def vmRunProg (cfuel rfuel : Nat) (prog : List Stmt) :
    Except String (Value × VMSt) :=
  match compileProgram cfuel prog with
  | .ok (instrs, consts) => vmRun rfuel instrs consts VMSt.init
  | .error m => .error m

/-! ### The lexer (`tokens.py`, `lexer.py`)

Identifier characters follow the ASCII view of Python's
`isalpha`/`isalnum`. -/

/-- `tokens.py` `TokenType`. -/
inductive TokType where
  | INTEGER | FLOAT | STRING | BOOLEAN | NULL
  | IDENTIFIER
  | IF | ELSE | ELIF | WHILE | FOR | IN | BREAK | CONTINUE | RETURN
  | LET | CONST | FN | ASYNC | AWAIT | CONTRACT | STRUCT | ENUM | IMPL
  | TYPE_INT | TYPE_FLOAT | TYPE_STRING | TYPE_BOOL | TYPE_VOID
  | TYPE_LIST | TYPE_MAP
  | TRUE | FALSE | NONE | AND | OR | NOT | EMIT | EVENT
  | PLUS | MINUS | MULTIPLY | DIVIDE | MODULO | POWER
  | EQUAL | NOT_EQUAL | LESS | GREATER | LESS_EQUAL | GREATER_EQUAL
  | ASSIGN | PLUS_ASSIGN | MINUS_ASSIGN | MULTIPLY_ASSIGN | DIVIDE_ASSIGN
  | BIT_AND | BIT_OR | BIT_XOR | BIT_NOT | LEFT_SHIFT | RIGHT_SHIFT
  | LPAREN | RPAREN | LBRACKET | RBRACKET | LBRACE | RBRACE
  | COMMA | DOT | COLON | SEMICOLON | ARROW | FAT_ARROW
  | NEWLINE | EOF | COMMENT
deriving DecidableEq, Repr

/-- `tokens.py` `Token` (payloads reuse the literal sum `Prim`). -/
structure Tok where
  type : TokType
  value : Prim
  line : Nat
  column : Nat
deriving DecidableEq, Repr

/-- `lexer.py` `LexerError` payload. -/
structure LexErr where
  msg : String
  line : Nat
  column : Nat
deriving DecidableEq, Repr

/-- `tokens.py` `KEYWORDS`. -/
def KEYWORDS : List (String × TokType) :=
  [("if", .IF), ("else", .ELSE), ("elif", .ELIF), ("while", .WHILE),
   ("for", .FOR), ("in", .IN), ("break", .BREAK), ("continue", .CONTINUE),
   ("return", .RETURN),
   ("let", .LET), ("const", .CONST), ("fn", .FN), ("async", .ASYNC),
   ("await", .AWAIT), ("contract", .CONTRACT), ("struct", .STRUCT),
   ("enum", .ENUM), ("impl", .IMPL),
   ("int", .TYPE_INT), ("float", .TYPE_FLOAT), ("string", .TYPE_STRING),
   ("bool", .TYPE_BOOL), ("void", .TYPE_VOID), ("list", .TYPE_LIST),
   ("map", .TYPE_MAP),
   ("true", .TRUE), ("false", .FALSE), ("none", .NONE),
   ("and", .AND), ("or", .OR), ("not", .NOT),
   ("emit", .EMIT), ("event", .EVENT)]

/-- `Lexer.advance`'s position bookkeeping for one consumed char. -/
def advancePos (ch : Char) (l c : Nat) : Nat × Nat :=
  if ch = '\n' then (l + 1, 1) else (l, c + 1)

/-- The escape table of `Lexer.read_string`: `\n \t \r \\ \" \'`
translate, any other character is copied verbatim. -/
def escChar (e : Char) : Char :=
  if e = 'n' then '\n'
  else if e = 't' then '\t'
  else if e = 'r' then '\r'
  else if e = '\\' then '\\'
  else if e = '"' then '"'
  else if e = '\'' then '\''
  else e

/-- `Lexer.read_string` after the opening quote has been consumed:
`q` is the quote character, `(sl, sc)` the position of the opening
quote (used for the token and for the unterminated-string error),
`acc` the collected content, `(l, c)` the current position.  A
backslash at end of input also leaves the string unterminated. -/
def readStringLex (q : Char) (sl sc : Nat) :
    List Char → List Char → Nat → Nat →
    Except LexErr (Tok × List Char × Nat × Nat)
  | _, [], _, _ => .error ⟨"Unterminated string literal", sl, sc⟩
  | acc, ch :: rest, l, c =>
    if ch = q then
      let (l', c') := advancePos ch l c
      .ok (⟨.STRING, .pstr ⟨acc⟩, sl, sc⟩, rest, l', c')
    else if ch = '\\' then
      match rest with
      | [] => .error ⟨"Unterminated string literal", sl, sc⟩
      | e :: rest' =>
        let (l₁, c₁) := advancePos ch l c
        let (l₂, c₂) := advancePos e l₁ c₁
        readStringLex q sl sc (acc ++ [escChar e]) rest' l₂ c₂
    else
      let (l', c') := advancePos ch l c
      readStringLex q sl sc (acc ++ [ch]) rest l' c'

/-- `Lexer.read_number`'s scan: digits, with at most one `.` that
must be followed by a digit (otherwise the dot is left for member
access).  Returns the consumed characters, the rest, and whether the
literal is a float. -/
def readNumAux : List Char → Bool → List Char × List Char × Bool
  | [], isF => ([], [], isF)
  | ch :: rest, isF =>
    if ch.isDigit then
      let (ds, r, f) := readNumAux rest isF
      (ch :: ds, r, f)
    else if ch = '.' then
      if isF then ([], ch :: rest, isF)
      else
        match rest with
        | d :: _ =>
          if d.isDigit then
            let (ds, r, f) := readNumAux rest true
            (ch :: ds, r, f)
          else ([], ch :: rest, isF)
        | [] => ([], ch :: rest, isF)
    else ([], ch :: rest, isF)

/-- Value of a lexed number (`int(s)` / `float(s)`; the float value
is exact here, where Python would round to binary). -/
def numToken (ds : List Char) (isF : Bool) (sl sc : Nat) : Tok :=
  if isF then
    ⟨.FLOAT, .pfloat ((parseFracStr ds).getD 0), sl, sc⟩
  else
    ⟨.INTEGER, .pint ((digitsVal? ds).getD 0 : Nat), sl, sc⟩

/-- `Lexer.read_identifier`, including keyword promotion and the
`true`/`false`/`none` payloads (`none` lexes as a `NULL` token). -/
def identToken (word : String) (sl sc : Nat) : Tok :=
  match aget KEYWORDS word with
  | some .TRUE => ⟨.TRUE, .pbool true, sl, sc⟩
  | some .FALSE => ⟨.FALSE, .pbool false, sl, sc⟩
  | some .NONE => ⟨.NULL, .pnone, sl, sc⟩
  | some tt => ⟨tt, .pstr word, sl, sc⟩
  | none => ⟨.IDENTIFIER, .pstr word, sl, sc⟩

/-- The two-character operator table (longest match first). -/
def twoCharOps : List (String × TokType) :=
  [("==", .EQUAL), ("!=", .NOT_EQUAL), ("<=", .LESS_EQUAL),
   (">=", .GREATER_EQUAL), ("+=", .PLUS_ASSIGN), ("-=", .MINUS_ASSIGN),
   ("*=", .MULTIPLY_ASSIGN), ("/=", .DIVIDE_ASSIGN), ("**", .POWER),
   ("->", .ARROW), ("=>", .FAT_ARROW), ("<<", .LEFT_SHIFT),
   (">>", .RIGHT_SHIFT)]

/-- The single-character operator/delimiter table. -/
def singleCharOps : List (String × TokType) :=
  [("+", .PLUS), ("-", .MINUS), ("*", .MULTIPLY), ("/", .DIVIDE),
   ("%", .MODULO), ("<", .LESS), (">", .GREATER), ("=", .ASSIGN),
   ("&", .BIT_AND), ("|", .BIT_OR), ("^", .BIT_XOR), ("~", .BIT_NOT),
   ("(", .LPAREN), (")", .RPAREN), ("[", .LBRACKET), ("]", .RBRACKET),
   ("\x7b", .LBRACE), ("\x7d", .RBRACE), (",", .COMMA), (".", .DOT),
   (":", .COLON), (";", .SEMICOLON)]

/-- Skip a `/* … */` comment body (opening `/​*` already consumed);
an unclosed comment consumes the rest of the input. -/
def skipBlockComment : List Char → Nat → Nat → List Char × Nat × Nat
  | [], l, c => ([], l, c)
  | '*' :: '/' :: rest, l, c => (rest, l, c + 2)
  | ch :: rest, l, c =>
    let (l', c') := advancePos ch l c
    skipBlockComment rest l' c'

/-- `Lexer.tokenize`, fuelled by the input length (every iteration
consumes at least one character). -/
def tokenizeAux : Nat → List Char → Nat → Nat → List Tok →
    Except LexErr (List Tok)
  | 0, _, l, c, _ => .error ⟨"lexer out of fuel", l, c⟩
  | _+1, [], l, c, acc => .ok (acc ++ [⟨.EOF, .pnone, l, c⟩])
  | fuel+1, ch :: rest, l, c, acc =>
    if ch = ' ' ∨ ch = '\t' ∨ ch = '\r' then
      tokenizeAux fuel rest l (c + 1) acc
    else if ch = '\n' then
      tokenizeAux fuel rest (l + 1) 1 (acc ++ [⟨.NEWLINE, .pstr "\n", l, c⟩])
    else if ch = '/' ∧ rest.head? = some '/' then
      let body := rest.tail.takeWhile (· ≠ '\n')
      let remaining := rest.tail.dropWhile (· ≠ '\n')
      tokenizeAux fuel remaining l (c + 2 + body.length) acc
    else if ch = '/' ∧ rest.head? = some '*' then
      let (remaining, l', c') := skipBlockComment rest.tail l (c + 2)
      tokenizeAux fuel remaining l' c' acc
    else if ch = '"' ∨ ch = '\'' then
      match readStringLex ch l c [] rest l (c + 1) with
      | .ok (tok, rest', l', c') => tokenizeAux fuel rest' l' c' (acc ++ [tok])
      | .error e => .error e
    else if ch.isDigit then
      let (ds, rest', isF) := readNumAux (ch :: rest) false
      tokenizeAux fuel rest' l (c + ds.length) (acc ++ [numToken ds isF l c])
    else if ch.isAlpha ∨ ch = '_' then
      let word := (ch :: rest).takeWhile (fun x => x.isAlphanum ∨ x = '_')
      let rest' := (ch :: rest).dropWhile (fun x => x.isAlphanum ∨ x = '_')
      tokenizeAux fuel rest' l (c + word.length) (acc ++ [identToken ⟨word⟩ l c])
    else
      match rest.head? with
      | some c2 =>
        match aget twoCharOps ⟨[ch, c2]⟩ with
        | some tt =>
          tokenizeAux fuel rest.tail l (c + 2)
            (acc ++ [⟨tt, .pstr ⟨[ch, c2]⟩, l, c⟩])
        | none =>
          match aget singleCharOps ⟨[ch]⟩ with
          | some tt =>
            tokenizeAux fuel rest l (c + 1) (acc ++ [⟨tt, .pstr ⟨[ch]⟩, l, c⟩])
          | none =>
            .error ⟨"Unexpected character: " ++ ⟨[ch]⟩, l, c⟩
      | none =>
        match aget singleCharOps ⟨[ch]⟩ with
        | some tt =>
          tokenizeAux fuel rest l (c + 1) (acc ++ [⟨tt, .pstr ⟨[ch]⟩, l, c⟩])
        | none =>
          .error ⟨"Unexpected character: " ++ ⟨[ch]⟩, l, c⟩

def tokenize (src : String) : Except LexErr (List Tok) :=
  tokenizeAux (2 * src.data.length + 2) src.data 1 1 []

/-! ### The parser (`parser.py`)

Recursive descent with precedence climbing, over the remaining token
list (`current_token` is the head, with the trailing `EOF` token as
the fallback).  The `struct`/`enum`/`contract`/`impl` statement
branches construct nodes outside the embedded fragment and are
represented by an explicit failure; no theorem feeds them. -/

def tokTypeName : TokType → String
  | .INTEGER => "INTEGER" | .FLOAT => "FLOAT" | .STRING => "STRING"
  | .BOOLEAN => "BOOLEAN" | .NULL => "NULL" | .IDENTIFIER => "IDENTIFIER"
  | .IF => "IF" | .ELSE => "ELSE" | .ELIF => "ELIF" | .WHILE => "WHILE"
  | .FOR => "FOR" | .IN => "IN" | .BREAK => "BREAK" | .CONTINUE => "CONTINUE"
  | .RETURN => "RETURN" | .LET => "LET" | .CONST => "CONST" | .FN => "FN"
  | .ASYNC => "ASYNC" | .AWAIT => "AWAIT" | .CONTRACT => "CONTRACT"
  | .STRUCT => "STRUCT" | .ENUM => "ENUM" | .IMPL => "IMPL"
  | .TYPE_INT => "TYPE_INT" | .TYPE_FLOAT => "TYPE_FLOAT"
  | .TYPE_STRING => "TYPE_STRING" | .TYPE_BOOL => "TYPE_BOOL"
  | .TYPE_VOID => "TYPE_VOID" | .TYPE_LIST => "TYPE_LIST"
  | .TYPE_MAP => "TYPE_MAP" | .TRUE => "TRUE" | .FALSE => "FALSE"
  | .NONE => "NONE" | .AND => "AND" | .OR => "OR" | .NOT => "NOT"
  | .EMIT => "EMIT" | .EVENT => "EVENT" | .PLUS => "PLUS" | .MINUS => "MINUS"
  | .MULTIPLY => "MULTIPLY" | .DIVIDE => "DIVIDE" | .MODULO => "MODULO"
  | .POWER => "POWER" | .EQUAL => "EQUAL" | .NOT_EQUAL => "NOT_EQUAL"
  | .LESS => "LESS" | .GREATER => "GREATER" | .LESS_EQUAL => "LESS_EQUAL"
  | .GREATER_EQUAL => "GREATER_EQUAL" | .ASSIGN => "ASSIGN"
  | .PLUS_ASSIGN => "PLUS_ASSIGN" | .MINUS_ASSIGN => "MINUS_ASSIGN"
  | .MULTIPLY_ASSIGN => "MULTIPLY_ASSIGN" | .DIVIDE_ASSIGN => "DIVIDE_ASSIGN"
  | .BIT_AND => "BIT_AND" | .BIT_OR => "BIT_OR" | .BIT_XOR => "BIT_XOR"
  | .BIT_NOT => "BIT_NOT" | .LEFT_SHIFT => "LEFT_SHIFT"
  | .RIGHT_SHIFT => "RIGHT_SHIFT" | .LPAREN => "LPAREN" | .RPAREN => "RPAREN"
  | .LBRACKET => "LBRACKET" | .RBRACKET => "RBRACKET" | .LBRACE => "LBRACE"
  | .RBRACE => "RBRACE" | .COMMA => "COMMA" | .DOT => "DOT"
  | .COLON => "COLON" | .SEMICOLON => "SEMICOLON" | .ARROW => "ARROW"
  | .FAT_ARROW => "FAT_ARROW" | .NEWLINE => "NEWLINE" | .EOF => "EOF"
  | .COMMENT => "COMMENT"

/-- `parser.py` `ParserError`: a message plus the offending token. -/
structure ParseErr where
  msg : String
  tok : Tok
deriving DecidableEq, Repr

def curTok (ts : List Tok) : Tok := ts.headD ⟨.EOF, .pnone, 0, 0⟩

def tokStr (t : Tok) : String :=
  match t.value with
  | .pstr s => s
  | _ => ""

def skipNLs (ts : List Tok) : List Tok := ts.dropWhile (·.type = .NEWLINE)

/-- `Parser.expect`: consume the expected token type or fail at the
current token. -/
def expectT (tt : TokType) (ts : List Tok) : Except ParseErr (Tok × List Tok) :=
  let cur := curTok ts
  if cur.type = tt then .ok (cur, ts.tail)
  else
    .error ⟨"Expected " ++ tokTypeName tt ++ ", got " ++ tokTypeName cur.type,
      cur⟩

def matchT (ts : List Tok) (tt : TokType) : Bool := (curTok ts).type = tt

/-- `Parser.parse_type_annotation`. -/
def parseTypeAnn (ts : List Tok) : Except ParseErr (String × List Tok) :=
  let cur := curTok ts
  if cur.type = .TYPE_INT ∨ cur.type = .TYPE_FLOAT ∨ cur.type = .TYPE_STRING ∨
      cur.type = .TYPE_BOOL ∨ cur.type = .TYPE_VOID ∨ cur.type = .TYPE_LIST ∨
      cur.type = .TYPE_MAP ∨ cur.type = .IDENTIFIER then
    .ok (tokStr cur, ts.tail)
  else .error ⟨"Expected type annotation", cur⟩

mutual

def parseExpression : Nat → List Tok → Except ParseErr (Expr × List Tok)
  | 0, ts => .error ⟨"parser out of fuel", curTok ts⟩
  | fuel+1, ts => parseOrExpr fuel ts
termination_by structural fuel _ => fuel

def parseOrExpr : Nat → List Tok → Except ParseErr (Expr × List Tok)
  | 0, ts => .error ⟨"parser out of fuel", curTok ts⟩
  | fuel+1, ts =>
    match parseAndExpr fuel ts with
    | .ok (left, ts₁) => parseOrRest fuel left ts₁
    | .error e => .error e
termination_by structural fuel _ => fuel

def parseOrRest : Nat → Expr → List Tok → Except ParseErr (Expr × List Tok)
  | 0, _, ts => .error ⟨"parser out of fuel", curTok ts⟩
  | fuel+1, left, ts =>
    if matchT ts .OR then
      match parseAndExpr fuel ts.tail with
      | .ok (right, ts₁) => parseOrRest fuel (.logicalOp left "or" right) ts₁
      | .error e => .error e
    else .ok (left, ts)
termination_by structural fuel _ _ => fuel

def parseAndExpr : Nat → List Tok → Except ParseErr (Expr × List Tok)
  | 0, ts => .error ⟨"parser out of fuel", curTok ts⟩
  | fuel+1, ts =>
    match parseNotExpr fuel ts with
    | .ok (left, ts₁) => parseAndRest fuel left ts₁
    | .error e => .error e
termination_by structural fuel _ => fuel

def parseAndRest : Nat → Expr → List Tok → Except ParseErr (Expr × List Tok)
  | 0, _, ts => .error ⟨"parser out of fuel", curTok ts⟩
  | fuel+1, left, ts =>
    if matchT ts .AND then
      match parseNotExpr fuel ts.tail with
      | .ok (right, ts₁) => parseAndRest fuel (.logicalOp left "and" right) ts₁
      | .error e => .error e
    else .ok (left, ts)
termination_by structural fuel _ _ => fuel

def parseNotExpr : Nat → List Tok → Except ParseErr (Expr × List Tok)
  | 0, ts => .error ⟨"parser out of fuel", curTok ts⟩
  | fuel+1, ts =>
    if matchT ts .NOT then
      match parseNotExpr fuel ts.tail with
      | .ok (operand, ts₁) => .ok (.unaryOp "not" operand, ts₁)
      | .error e => .error e
    else parseComparison fuel ts
termination_by structural fuel _ => fuel

def parseComparison : Nat → List Tok → Except ParseErr (Expr × List Tok)
  | 0, ts => .error ⟨"parser out of fuel", curTok ts⟩
  | fuel+1, ts =>
    match parseAdditive fuel ts with
    | .ok (left, ts₁) => parseComparisonRest fuel left ts₁
    | .error e => .error e
termination_by structural fuel _ => fuel

def parseComparisonRest : Nat → Expr → List Tok →
    Except ParseErr (Expr × List Tok)
  | 0, _, ts => .error ⟨"parser out of fuel", curTok ts⟩
  | fuel+1, left, ts =>
    let cur := curTok ts
    if cur.type = .EQUAL ∨ cur.type = .NOT_EQUAL ∨ cur.type = .LESS ∨
        cur.type = .GREATER ∨ cur.type = .LESS_EQUAL ∨
        cur.type = .GREATER_EQUAL then
      match parseAdditive fuel ts.tail with
      | .ok (right, ts₁) =>
        parseComparisonRest fuel (.comparisonOp left (tokStr cur) right) ts₁
      | .error e => .error e
    else .ok (left, ts)
termination_by structural fuel _ _ => fuel

def parseAdditive : Nat → List Tok → Except ParseErr (Expr × List Tok)
  | 0, ts => .error ⟨"parser out of fuel", curTok ts⟩
  | fuel+1, ts =>
    match parseMultiplicative fuel ts with
    | .ok (left, ts₁) => parseAdditiveRest fuel left ts₁
    | .error e => .error e
termination_by structural fuel _ => fuel

def parseAdditiveRest : Nat → Expr → List Tok →
    Except ParseErr (Expr × List Tok)
  | 0, _, ts => .error ⟨"parser out of fuel", curTok ts⟩
  | fuel+1, left, ts =>
    let cur := curTok ts
    if cur.type = .PLUS ∨ cur.type = .MINUS then
      match parseMultiplicative fuel ts.tail with
      | .ok (right, ts₁) =>
        parseAdditiveRest fuel (.binaryOp left (tokStr cur) right) ts₁
      | .error e => .error e
    else .ok (left, ts)
termination_by structural fuel _ _ => fuel

def parseMultiplicative : Nat → List Tok → Except ParseErr (Expr × List Tok)
  | 0, ts => .error ⟨"parser out of fuel", curTok ts⟩
  | fuel+1, ts =>
    match parsePower fuel ts with
    | .ok (left, ts₁) => parseMultiplicativeRest fuel left ts₁
    | .error e => .error e
termination_by structural fuel _ => fuel

def parseMultiplicativeRest : Nat → Expr → List Tok →
    Except ParseErr (Expr × List Tok)
  | 0, _, ts => .error ⟨"parser out of fuel", curTok ts⟩
  | fuel+1, left, ts =>
    let cur := curTok ts
    if cur.type = .MULTIPLY ∨ cur.type = .DIVIDE ∨ cur.type = .MODULO then
      match parsePower fuel ts.tail with
      | .ok (right, ts₁) =>
        parseMultiplicativeRest fuel (.binaryOp left (tokStr cur) right) ts₁
      | .error e => .error e
    else .ok (left, ts)
termination_by structural fuel _ _ => fuel

def parsePower : Nat → List Tok → Except ParseErr (Expr × List Tok)
  | 0, ts => .error ⟨"parser out of fuel", curTok ts⟩
  | fuel+1, ts =>
    match parseUnary fuel ts with
    | .ok (left, ts₁) =>
      if matchT ts₁ .POWER then
        match parsePower fuel ts₁.tail with
        | .ok (right, ts₂) => .ok (.binaryOp left "**" right, ts₂)
        | .error e => .error e
      else .ok (left, ts₁)
    | .error e => .error e
termination_by structural fuel _ => fuel

def parseUnary : Nat → List Tok → Except ParseErr (Expr × List Tok)
  | 0, ts => .error ⟨"parser out of fuel", curTok ts⟩
  | fuel+1, ts =>
    let cur := curTok ts
    if cur.type = .MINUS ∨ cur.type = .BIT_NOT then
      match parseUnary fuel ts.tail with
      | .ok (operand, ts₁) => .ok (.unaryOp (tokStr cur) operand, ts₁)
      | .error e => .error e
    else parseAwaitE fuel ts
termination_by structural fuel _ => fuel

def parseAwaitE : Nat → List Tok → Except ParseErr (Expr × List Tok)
  | 0, ts => .error ⟨"parser out of fuel", curTok ts⟩
  | fuel+1, ts =>
    if matchT ts .AWAIT then
      match parsePostfix fuel ts.tail with
      | .ok (e, ts₁) => .ok (.awaitExpr e, ts₁)
      | .error e => .error e
    else parsePostfix fuel ts
termination_by structural fuel _ => fuel

def parsePostfix : Nat → List Tok → Except ParseErr (Expr × List Tok)
  | 0, ts => .error ⟨"parser out of fuel", curTok ts⟩
  | fuel+1, ts =>
    match parsePrimary fuel ts with
    | .ok (e, ts₁) => parsePostfixRest fuel e ts₁
    | .error e => .error e
termination_by structural fuel _ => fuel

def parsePostfixRest : Nat → Expr → List Tok →
    Except ParseErr (Expr × List Tok)
  | 0, _, ts => .error ⟨"parser out of fuel", curTok ts⟩
  | fuel+1, e, ts =>
    if matchT ts .LPAREN then
      match parseArgsAux fuel ts.tail with
      | .ok (args, ts₁) =>
        match expectT .RPAREN ts₁ with
        | .ok (_, ts₂) => parsePostfixRest fuel (.functionCall e args) ts₂
        | .error err => .error err
      | .error err => .error err
    else if matchT ts .DOT then
      match expectT .IDENTIFIER ts.tail with
      | .ok (memberTok, ts₁) =>
        if matchT ts₁ .LPAREN then
          match parseArgsAux fuel ts₁.tail with
          | .ok (args, ts₂) =>
            match expectT .RPAREN ts₂ with
            | .ok (_, ts₃) =>
              parsePostfixRest fuel (.methodCall e (tokStr memberTok) args) ts₃
            | .error err => .error err
          | .error err => .error err
        else parsePostfixRest fuel (.memberAccess e (tokStr memberTok)) ts₁
      | .error err => .error err
    else if matchT ts .LBRACKET then
      match parseExpression fuel ts.tail with
      | .ok (idx, ts₁) =>
        match expectT .RBRACKET ts₁ with
        | .ok (_, ts₂) => parsePostfixRest fuel (.indexAccess e idx) ts₂
        | .error err => .error err
      | .error err => .error err
    else .ok (e, ts)
termination_by structural fuel _ _ => fuel

/-- `Parser.parse_arguments` (stops before the closing paren). -/
def parseArgsAux : Nat → List Tok → Except ParseErr (List Expr × List Tok)
  | 0, ts => .error ⟨"parser out of fuel", curTok ts⟩
  | fuel+1, ts =>
    if matchT ts .RPAREN then .ok ([], ts)
    else
      match parseExpression fuel ts with
      | .ok (e, ts₁) =>
        if matchT ts₁ .COMMA then
          match parseArgsAux fuel ts₁.tail with
          | .ok (es, ts₂) => .ok (e :: es, ts₂)
          | .error err => .error err
        else .ok ([e], ts₁)
      | .error err => .error err
termination_by structural fuel _ => fuel

def parsePrimary : Nat → List Tok → Except ParseErr (Expr × List Tok)
  | 0, ts => .error ⟨"parser out of fuel", curTok ts⟩
  | fuel+1, ts =>
    let cur := curTok ts
    match cur.type with
    | .INTEGER =>
      match cur.value with
      | .pint n => .ok (.integerLiteral n, ts.tail)
      | _ => .error ⟨"malformed INTEGER token", cur⟩
    | .FLOAT =>
      match cur.value with
      | .pfloat q => .ok (.floatLiteral q, ts.tail)
      | _ => .error ⟨"malformed FLOAT token", cur⟩
    | .STRING =>
      match cur.value with
      | .pstr s => .ok (.stringLiteral s, ts.tail)
      | _ => .error ⟨"malformed STRING token", cur⟩
    | .TRUE => .ok (.booleanLiteral true, ts.tail)
    | .FALSE => .ok (.booleanLiteral false, ts.tail)
    | .NULL => .ok (.nullLiteral, ts.tail)
    | .IDENTIFIER => .ok (.identifier (tokStr cur), ts.tail)
    | .LPAREN =>
      match parseExpression fuel ts.tail with
      | .ok (e, ts₁) =>
        match expectT .RPAREN ts₁ with
        | .ok (_, ts₂) => .ok (e, ts₂)
        | .error err => .error err
      | .error err => .error err
    | .LBRACKET => parseListLit fuel ts
    | .LBRACE => parseMapLit fuel ts
    | _ => .error ⟨"Unexpected token: " ++ tokTypeName cur.type, cur⟩
termination_by structural fuel _ => fuel

def parseListLit : Nat → List Tok → Except ParseErr (Expr × List Tok)
  | 0, ts => .error ⟨"parser out of fuel", curTok ts⟩
  | fuel+1, ts =>
    match expectT .LBRACKET ts with
    | .ok (_, ts₁) =>
      match parseListElems fuel ts₁ with
      | .ok (es, ts₂) =>
        match expectT .RBRACKET ts₂ with
        | .ok (_, ts₃) => .ok (.listLiteral es, ts₃)
        | .error err => .error err
      | .error err => .error err
    | .error err => .error err
termination_by structural fuel _ => fuel

def parseListElems : Nat → List Tok → Except ParseErr (List Expr × List Tok)
  | 0, ts => .error ⟨"parser out of fuel", curTok ts⟩
  | fuel+1, ts =>
    if matchT ts .RBRACKET then .ok ([], ts)
    else
      match parseExpression fuel ts with
      | .ok (e, ts₁) =>
        if matchT ts₁ .COMMA then
          match parseListElems fuel ts₁.tail with
          | .ok (es, ts₂) => .ok (e :: es, ts₂)
          | .error err => .error err
        else .ok ([e], ts₁)
      | .error err => .error err
termination_by structural fuel _ => fuel

def parseMapLit : Nat → List Tok → Except ParseErr (Expr × List Tok)
  | 0, ts => .error ⟨"parser out of fuel", curTok ts⟩
  | fuel+1, ts =>
    match expectT .LBRACE ts with
    | .ok (_, ts₁) =>
      match parseMapPairs fuel (skipNLs ts₁) with
      | .ok (pairs, ts₂) =>
        match expectT .RBRACE ts₂ with
        | .ok (_, ts₃) => .ok (.mapLiteral pairs, ts₃)
        | .error err => .error err
      | .error err => .error err
    | .error err => .error err
termination_by structural fuel _ => fuel

def parseMapPairs : Nat → List Tok →
    Except ParseErr (List (Expr × Expr) × List Tok)
  | 0, ts => .error ⟨"parser out of fuel", curTok ts⟩
  | fuel+1, ts =>
    if matchT ts .RBRACE then .ok ([], ts)
    else
      match parseExpression fuel ts with
      | .ok (k, ts₁) =>
        match expectT .COLON ts₁ with
        | .ok (_, ts₂) =>
          match parseExpression fuel ts₂ with
          | .ok (v, ts₃) =>
            let ts₄ := skipNLs ts₃
            let ts₅ := if matchT ts₄ .COMMA then skipNLs ts₄.tail else skipNLs ts₄
            match parseMapPairs fuel ts₅ with
            | .ok (pairs, ts₆) => .ok ((k, v) :: pairs, ts₆)
            | .error err => .error err
          | .error err => .error err
        | .error err => .error err
      | .error err => .error err
termination_by structural fuel _ => fuel

end

/-- `Parser.parse_parameters`. -/
def parseParams : Nat → List Tok →
    Except ParseErr (List (String × Option String × Option Expr) × List Tok)
  | 0, ts => .error ⟨"parser out of fuel", curTok ts⟩
  | fuel+1, ts =>
    if matchT ts .RPAREN then .ok ([], ts)
    else
      match expectT .IDENTIFIER ts with
      | .ok (nameTok, ts₁) =>
        match
          (if matchT ts₁ .COLON then
            (parseTypeAnn ts₁.tail).map (fun (t, r) => (some t, r))
          else .ok (none, ts₁)) with
        | .ok (tyAnn, ts₂) =>
          match
            (if matchT ts₂ .ASSIGN then
              (parseExpression fuel ts₂.tail).map (fun (e, r) => (some e, r))
            else .ok (none, ts₂)) with
          | .ok (dflt, ts₃) =>
            if matchT ts₃ .COMMA then
              match parseParams fuel ts₃.tail with
              | .ok (ps, ts₄) =>
                .ok ((tokStr nameTok, tyAnn, dflt) :: ps, ts₄)
              | .error err => .error err
            else .ok ([(tokStr nameTok, tyAnn, dflt)], ts₃)
          | .error err => .error err
        | .error err => .error err
      | .error err => .error err

/-- `Parser.parse_event_declaration`'s field loop. -/
def parseEventFields : Nat → List Tok →
    Except ParseErr (List (String × String) × List Tok)
  | 0, ts => .error ⟨"parser out of fuel", curTok ts⟩
  | fuel+1, ts =>
    if matchT ts .RPAREN then .ok ([], ts)
    else
      match expectT .IDENTIFIER ts with
      | .ok (nameTok, ts₁) =>
        match expectT .COLON ts₁ with
        | .ok (_, ts₂) =>
          match parseTypeAnn ts₂ with
          | .ok (fieldTy, ts₃) =>
            if matchT ts₃ .COMMA then
              match parseEventFields fuel ts₃.tail with
              | .ok (fs, ts₄) => .ok ((tokStr nameTok, fieldTy) :: fs, ts₄)
              | .error err => .error err
            else .ok ([(tokStr nameTok, fieldTy)], ts₃)
          | .error err => .error err
        | .error err => .error err
      | .error err => .error err

mutual

/-- `Parser.parse_statement`: dispatch on the leading token; anything
unmatched falls into *expression-or-assignment*.  The
`struct`/`enum`/`contract`/`impl` branches build declarations outside
the embedded fragment. -/
def parseStatement : Nat → List Tok → Except ParseErr (Stmt × List Tok)
  | 0, ts => .error ⟨"parser out of fuel", curTok ts⟩
  | fuel+1, ts₀ =>
    let ts := skipNLs ts₀
    match (curTok ts).type with
    | .LET => parseVarDeclP fuel false ts
    | .CONST => parseVarDeclP fuel true ts
    | .FN => parseFnDecl fuel false ts
    | .ASYNC =>
      match expectT .ASYNC ts with
      | .ok (_, ts₁) => parseFnDecl fuel true ts₁
      | .error err => .error err
    | .IF => parseIfStmt fuel ts
    | .WHILE => parseWhileStmt fuel ts
    | .FOR => parseForStmt fuel ts
    | .RETURN => parseReturnStmt fuel ts
    | .BREAK => .ok (.breakStmt, ts.tail)
    | .CONTINUE => .ok (.continueStmt, ts.tail)
    | .STRUCT => .error ⟨"struct declarations are outside the embedded fragment", curTok ts⟩
    | .ENUM => .error ⟨"enum declarations are outside the embedded fragment", curTok ts⟩
    | .CONTRACT => .error ⟨"contract declarations are outside the embedded fragment", curTok ts⟩
    | .IMPL => .error ⟨"impl blocks are outside the embedded fragment", curTok ts⟩
    | .EMIT => parseEmitStmt fuel ts
    | .EVENT => parseEventDecl fuel ts
    | _ => parseExprOrAssign fuel ts
termination_by structural fuel _ => fuel

/-- `Parser.parse_variable_declaration`. -/
def parseVarDeclP : Nat → Bool → List Tok → Except ParseErr (Stmt × List Tok)
  | 0, _, ts => .error ⟨"parser out of fuel", curTok ts⟩
  | fuel+1, isConst, ts =>
    match expectT .IDENTIFIER ts.tail with
    | .ok (nameTok, ts₁) =>
      match
        (if matchT ts₁ .COLON then
          (parseTypeAnn ts₁.tail).map (fun (t, r) => (some t, r))
        else .ok (none, ts₁)) with
      | .ok (tyAnn, ts₂) =>
        match
          (if matchT ts₂ .ASSIGN then
            (parseExpression fuel ts₂.tail).map (fun (e, r) => (some e, r))
          else .ok (none, ts₂)) with
        | .ok (value, ts₃) =>
          .ok (.varDecl (tokStr nameTok) tyAnn value isConst, ts₃)
        | .error err => .error err
      | .error err => .error err
    | .error err => .error err

/-- `Parser.parse_function_declaration`. -/
def parseFnDecl : Nat → Bool → List Tok → Except ParseErr (Stmt × List Tok)
  | 0, _, ts => .error ⟨"parser out of fuel", curTok ts⟩
  | fuel+1, isAsync, ts =>
    match expectT .FN ts with
    | .ok (_, ts₁) =>
      match expectT .IDENTIFIER ts₁ with
      | .ok (nameTok, ts₂) =>
        match expectT .LPAREN ts₂ with
        | .ok (_, ts₃) =>
          match parseParams fuel ts₃ with
          | .ok (params, ts₄) =>
            match expectT .RPAREN ts₄ with
            | .ok (_, ts₅) =>
              match
                (if matchT ts₅ .ARROW then
                  (parseTypeAnn ts₅.tail).map (fun (t, r) => (some t, r))
                else .ok (none, ts₅)) with
              | .ok (retTy, ts₆) =>
                match parseBlockP fuel ts₆ with
                | .ok (body, ts₇) =>
                  .ok (.fnDecl (tokStr nameTok) params retTy body isAsync, ts₇)
                | .error err => .error err
              | .error err => .error err
            | .error err => .error err
          | .error err => .error err
        | .error err => .error err
      | .error err => .error err
    | .error err => .error err
termination_by structural fuel _ _ => fuel

/-- `Parser.parse_block`. -/
def parseBlockP : Nat → List Tok → Except ParseErr (List Stmt × List Tok)
  | 0, ts => .error ⟨"parser out of fuel", curTok ts⟩
  | fuel+1, ts =>
    match expectT .LBRACE (skipNLs ts) with
    | .ok (_, ts₁) =>
      match parseBlockStmts fuel (skipNLs ts₁) with
      | .ok (stmts, ts₂) =>
        match expectT .RBRACE ts₂ with
        | .ok (_, ts₃) => .ok (stmts, ts₃)
        | .error err => .error err
      | .error err => .error err
    | .error err => .error err
termination_by structural fuel _ => fuel

def parseBlockStmts : Nat → List Tok → Except ParseErr (List Stmt × List Tok)
  | 0, ts => .error ⟨"parser out of fuel", curTok ts⟩
  | fuel+1, ts =>
    if matchT ts .RBRACE ∨ matchT ts .EOF then .ok ([], ts)
    else
      match parseStatement fuel ts with
      | .ok (s, ts₁) =>
        match parseBlockStmts fuel (skipNLs ts₁) with
        | .ok (ss, ts₂) => .ok (s :: ss, ts₂)
        | .error err => .error err
      | .error err => .error err
termination_by structural fuel _ => fuel

/-- `Parser.parse_if_statement`. -/
def parseIfStmt : Nat → List Tok → Except ParseErr (Stmt × List Tok)
  | 0, ts => .error ⟨"parser out of fuel", curTok ts⟩
  | fuel+1, ts =>
    match expectT .IF ts with
    | .ok (_, ts₁) =>
      match parseExpression fuel ts₁ with
      | .ok (cond, ts₂) =>
        match parseBlockP fuel ts₂ with
        | .ok (thenB, ts₃) =>
          match parseElifsP fuel (skipNLs ts₃) with
          | .ok (elifs, ts₄) =>
            if matchT ts₄ .ELSE then
              match parseBlockP fuel ts₄.tail with
              | .ok (elseB, ts₅) =>
                .ok (.ifStmt cond thenB elifs (some elseB), ts₅)
              | .error err => .error err
            else .ok (.ifStmt cond thenB elifs none, ts₄)
          | .error err => .error err
        | .error err => .error err
      | .error err => .error err
    | .error err => .error err
termination_by structural fuel _ => fuel

def parseElifsP : Nat → List Tok →
    Except ParseErr (List (Expr × List Stmt) × List Tok)
  | 0, ts => .error ⟨"parser out of fuel", curTok ts⟩
  | fuel+1, ts =>
    if matchT ts .ELIF then
      match parseExpression fuel ts.tail with
      | .ok (cond, ts₁) =>
        match parseBlockP fuel ts₁ with
        | .ok (body, ts₂) =>
          match parseElifsP fuel (skipNLs ts₂) with
          | .ok (rest, ts₃) => .ok ((cond, body) :: rest, ts₃)
          | .error err => .error err
        | .error err => .error err
      | .error err => .error err
    else .ok ([], ts)
termination_by structural fuel _ => fuel

def parseWhileStmt : Nat → List Tok → Except ParseErr (Stmt × List Tok)
  | 0, ts => .error ⟨"parser out of fuel", curTok ts⟩
  | fuel+1, ts =>
    match expectT .WHILE ts with
    | .ok (_, ts₁) =>
      match parseExpression fuel ts₁ with
      | .ok (cond, ts₂) =>
        match parseBlockP fuel ts₂ with
        | .ok (body, ts₃) => .ok (.whileStmt cond body, ts₃)
        | .error err => .error err
      | .error err => .error err
    | .error err => .error err
termination_by structural fuel _ => fuel

def parseForStmt : Nat → List Tok → Except ParseErr (Stmt × List Tok)
  | 0, ts => .error ⟨"parser out of fuel", curTok ts⟩
  | fuel+1, ts =>
    match expectT .FOR ts with
    | .ok (_, ts₁) =>
      match expectT .IDENTIFIER ts₁ with
      | .ok (varTok, ts₂) =>
        match expectT .IN ts₂ with
        | .ok (_, ts₃) =>
          match parseExpression fuel ts₃ with
          | .ok (iter, ts₄) =>
            match parseBlockP fuel ts₄ with
            | .ok (body, ts₅) => .ok (.forStmt (tokStr varTok) iter body, ts₅)
            | .error err => .error err
          | .error err => .error err
        | .error err => .error err
      | .error err => .error err
    | .error err => .error err
termination_by structural fuel _ => fuel

def parseReturnStmt : Nat → List Tok → Except ParseErr (Stmt × List Tok)
  | 0, ts => .error ⟨"parser out of fuel", curTok ts⟩
  | fuel+1, ts =>
    match expectT .RETURN ts with
    | .ok (_, ts₁) =>
      if matchT ts₁ .NEWLINE ∨ matchT ts₁ .RBRACE ∨ matchT ts₁ .EOF then
        .ok (.returnStmt none, ts₁)
      else
        match parseExpression fuel ts₁ with
        | .ok (e, ts₂) => .ok (.returnStmt (some e), ts₂)
        | .error err => .error err
    | .error err => .error err

def parseEventDecl : Nat → List Tok → Except ParseErr (Stmt × List Tok)
  | 0, ts => .error ⟨"parser out of fuel", curTok ts⟩
  | fuel+1, ts =>
    match expectT .EVENT ts with
    | .ok (_, ts₁) =>
      match expectT .IDENTIFIER ts₁ with
      | .ok (nameTok, ts₂) =>
        match expectT .LPAREN ts₂ with
        | .ok (_, ts₃) =>
          match parseEventFields fuel ts₃ with
          | .ok (fields, ts₄) =>
            match expectT .RPAREN ts₄ with
            | .ok (_, ts₅) => .ok (.eventDecl (tokStr nameTok) fields, ts₅)
            | .error err => .error err
          | .error err => .error err
        | .error err => .error err
      | .error err => .error err
    | .error err => .error err

def parseEmitStmt : Nat → List Tok → Except ParseErr (Stmt × List Tok)
  | 0, ts => .error ⟨"parser out of fuel", curTok ts⟩
  | fuel+1, ts =>
    match expectT .EMIT ts with
    | .ok (_, ts₁) =>
      match expectT .IDENTIFIER ts₁ with
      | .ok (nameTok, ts₂) =>
        match expectT .LPAREN ts₂ with
        | .ok (_, ts₃) =>
          match parseArgsAux fuel ts₃ with
          | .ok (args, ts₄) =>
            match expectT .RPAREN ts₄ with
            | .ok (_, ts₅) => .ok (.emitStmt (tokStr nameTok) args, ts₅)
            | .error err => .error err
          | .error err => .error err
        | .error err => .error err
      | .error err => .error err
    | .error err => .error err

/-- `Parser.parse_expression_or_assignment`: parse an expression; if
an assignment operator follows, *any* parsed expression becomes the
assignment target — no target-shape check happens here. -/
def parseExprOrAssign : Nat → List Tok → Except ParseErr (Stmt × List Tok)
  | 0, ts => .error ⟨"parser out of fuel", curTok ts⟩
  | fuel+1, ts =>
    match parseExpression fuel ts with
    | .ok (e, ts₁) =>
      let cur := curTok ts₁
      if cur.type = .ASSIGN ∨ cur.type = .PLUS_ASSIGN ∨
          cur.type = .MINUS_ASSIGN ∨ cur.type = .MULTIPLY_ASSIGN ∨
          cur.type = .DIVIDE_ASSIGN then
        match parseExpression fuel ts₁.tail with
        | .ok (value, ts₂) => .ok (.assign e (tokStr cur) value, ts₂)
        | .error err => .error err
      else .ok (.exprStmt e, ts₁)
    | .error err => .error err

def parseProgramAux : Nat → List Tok → Except ParseErr (List Stmt)
  | 0, ts => .error ⟨"parser out of fuel", curTok ts⟩
  | fuel+1, ts =>
    if matchT ts .EOF then .ok []
    else
      match parseStatement fuel ts with
      | .ok (s, ts₁) =>
        match parseProgramAux fuel (skipNLs ts₁) with
        | .ok ss => .ok (s :: ss)
        | .error err => .error err
      | .error err => .error err
termination_by structural fuel _ => fuel

end

/-- `Parser.parse`. -/
def parseProgram (fuel : Nat) (ts : List Tok) : Except ParseErr (List Stmt) :=
  parseProgramAux fuel (skipNLs ts)

/-- Lex and parse a source string. -/
def lexParse (fuel : Nat) (src : String) : Except String (List Stmt) :=
  match tokenize src with
  | .error e =>
    .error ("Lexer Error at line " ++ toString e.line ++ ", column " ++
      toString e.column ++ ": " ++ e.msg)
  | .ok ts =>
    match parseProgram fuel ts with
    | .ok prog => .ok prog
    | .error e =>
      .error ("Parser Error at line " ++ toString e.tok.line ++ ", column " ++
        toString e.tok.column ++ ": " ++ e.msg)

/-! ### Concrete programs used as evidence -/

/-- `fn f() { return 42 }` followed by `f()` — squarely inside the
claimed backend-overlap subset. -/
def progC1 : List Stmt :=
  [.fnDecl "f" [] none [.returnStmt (some (.integerLiteral 42))] false,
   .exprStmt (.functionCall (.identifier "f") [])]

def srcC1 : String := "fn f() \x7b return 42 \x7d\nf()"

/-- `1 and 2` as a top-level expression statement. -/
def progC2 : List Stmt :=
  [.exprStmt (.logicalOp (.integerLiteral 1) "and" (.integerLiteral 2))]

def srcC2 : String := "1 and 2"

/-- `g`'s default parameter expression reads `d`; `h` binds a local
`d = 2` and calls `g()`; `d = 1` at the definition site. -/
def progC3 : List Stmt :=
  [.varDecl "d" none (some (.integerLiteral 1)) false,
   .fnDecl "g" [("x", none, some (.identifier "d"))] none
     [.returnStmt (some (.identifier "x"))] false,
   .fnDecl "h" [] none
     [.varDecl "d" none (some (.integerLiteral 2)) false,
      .returnStmt (some (.functionCall (.identifier "g") []))] false,
   .exprStmt (.functionCall (.identifier "h") [])]

def srcC3 : String :=
  "let d = 1\nfn g(x = d) \x7b return x \x7d\nfn h() \x7b let d = 2\nreturn g() \x7d\nh()"

def srcC5 : String := "1 = 2"

def progC6 : List Stmt :=
  [.varDecl "K" none (some (.integerLiteral 3)) true,
   .assign (.identifier "K") "=" (.integerLiteral 4)]

def srcC6 : String := "const K = 3\nK = 4"

/-- `let l = [1, "a"]` then `l.sort()`. -/
def progC9 : List Stmt :=
  [.varDecl "l" none
     (some (.listLiteral [.integerLiteral 1, .stringLiteral "a"])) false,
   .exprStmt (.methodCall (.identifier "l") "sort" [])]

def srcC9 : String := "let l = [1, \"a\"]\nl.sort()"

/-! ### Small helper lemmas -/

/-- A two-scope state: scope 0 is a function's captured closure
environment binding `d ↦ w`, scope 1 is the caller's current
environment binding `d ↦ v`. -/
def c3CallerSt (v w : Value) : St :=
  { heap := Heap.empty
    envs := [⟨[("d", w)], [], none⟩, ⟨[("d", v)], [], none⟩]
    cur := 1
    events := []
    out := []
    objCount := 0 }

/-- `fn g(x = d) { return x }`. -/
def c3Decl : FnD :=
  ⟨"g", [("x", none, some (.identifier "d"))], none,
   [.returnStmt (some (.identifier "x"))], false⟩

/-- The name resolves, through the same walk as `Environment.assign`,
to a binding marked constant. -/
def resolvesConstAux : Nat → List Scope → Nat → String → Bool
  | 0, _, _, _ => false
  | walk+1, envs, i, name =>
    match envs.get? i with
    | none => false
    | some sc =>
      if (aget sc.vars name).isSome then sc.consts.contains name
      else
        match sc.parent with
        | some p => resolvesConstAux walk envs p name
        | none => false

def resolvesConst (st : St) (name : String) : Bool :=
  resolvesConstAux (st.envs.length + 1) st.envs st.cur name

/-! ### C7: scope-frame machinery for `execute_ForStatement`

The *shape* of a scope is everything except the bound values: its key
set (in insertion order), its const-marked names, and its parent link.
`execute_ForStatement` runs the body in a freshly appended child
environment, so statement execution can only reshape the scope that is
`current_env` at the time; every other pre-existing scope keeps its
shape (assignments through the chain update values of existing
bindings but never add, remove or re-const a name). -/

def scopeSig (s : Scope) : List String × List String × Option Nat :=
  (akeys s.vars, s.consts, s.parent)

def sigAt (envs : List Scope) (i : Nat) :
    Option (List String × List String × Option Nat) :=
  (envs[i]?).map scopeSig

def parAt (envs : List Scope) (i : Nat) : Option (Option Nat) :=
  (envs[i]?).map Scope.parent

/-- Frame relation between interpreter states: `current_env` is
restored, environments are only appended (never dropped), every
pre-existing scope keeps its parent link, and every pre-existing scope
other than the exempted one `ex` keeps its exact shape. -/
def FrameX (ex : Option Nat) (st st' : St) : Prop :=
  st'.cur = st.cur ∧
  st.envs.length ≤ st'.envs.length ∧
  (∀ i, i < st.envs.length → parAt st'.envs i = parAt st.envs i) ∧
  (∀ i, i < st.envs.length → ex ≠ some i → sigAt st'.envs i = sigAt st.envs i)

/-- The state in which `execute_ForStatement` runs the loop body: a
fresh child scope (parent = the enclosing scope) is appended and made
current. -/
def forChildSt (st₁ : St) : St :=
  { st₁ with
      envs := st₁.envs ++ [⟨[], [], some st₁.cur⟩]
      cur := st₁.envs.length }

def iterC7 : Expr := .listLiteral [.integerLiteral 1, .integerLiteral 2]

def bodyC7 : List Stmt := [.varDecl "y" none (some (.identifier "i")) false]

def stmtC7 : Stmt := .forStmt "i" iterC7 bodyC7

def scope0C7 : Scope := ⟨[("x", .vint 7)], [], none⟩

def stC7 : St := ⟨Heap.empty, [scope0C7], 0, [], [], 0⟩

def stFinC7 : St :=
  ⟨⟨[[.vint 1, .vint 2]], []⟩,
   [scope0C7, ⟨[("i", .vint 2), ("y", .vint 2)], [], some 0⟩], 0, [], [], 0⟩

theorem aget_aset {α : Type} (xs : List (String × α)) (k : String) (v : α) :
    aget (aset xs k v) k = some v := by
  induction xs with
  | nil => simp [aset, aget]
  | cons p rest ih =>
    by_cases h : p.1 = k
    · simp [aset, aget, h]
    · simp [aset, aget, h, ih]

theorem aget_none_iff_not_mem_akeys {α : Type} (xs : List (String × α))
    (k : String) : aget xs k = none ↔ k ∉ akeys xs := by
  induction xs with
  | nil => simp [aget, akeys]
  | cons p rest ih =>
    by_cases h : p.1 = k
    · simp [aget, akeys, h]
    · simp only [aget, akeys, h, if_false, List.map_cons, List.mem_cons]
      rw [ih]
      constructor
      · rintro hn (hp | hm)
        · exact h hp.symm
        · exact hn hm
      · intro hn hm
        exact hn (Or.inr hm)

/-! ### Claim theorems -/

/-- C1.  The claimed backend equivalence fails on the code: for the
program `fn f() { return 42 }  f()` — function declaration and call
with positional arguments, squarely inside the claimed overlap subset
— the tree-walking evaluator returns 42, while the compiler-plus-VM
backend crashes: the VM's `CALL` pushes a new frame for a
`CompiledFunction` but never transfers control into its code, so the
body never runs, no result is pushed, and the `POP` of the enclosing
expression statement underflows the operand stack (Python:
`IndexError: pop from empty list`). -/
theorem c1_backend_divergence :
    lexParse 40 srcC1 = .ok progC1 ∧
    (interpRun 40 progC1).1 = .ok (.vint 42) ∧
    vmRunProg 40 64 progC1 = .error "pop from empty list" :=
  ⟨rfl, rfl, rfl⟩

/-- C2 counterexample.  The claim that the VM lowering of `and`/`or`
"yields the same value" is false: for `1 and 2` the evaluator returns
2, but the compiled code (`PUSH 1; JUMP_IF_FALSE end; POP; PUSH 2;
end: POP; HALT`) underflows — `JUMP_IF_FALSE` pops its test
unconditionally, so on the fall-through path the extra `POP` has
nothing left to pop. -/
theorem c2_vm_lowering_loses_value :
    lexParse 40 srcC2 = .ok progC2 ∧
    (interpRun 40 progC2).1 = .ok (.vint 2) ∧
    vmRunProg 40 64 progC2 = .error "pop from empty list" :=
  ⟨rfl, rfl, rfl⟩

/-- C2 (amended).  Under the tree-walking evaluator, `a and b`
returns the value of `a` (uncoerced) when `a` is falsy and otherwise
the value of `b`, and symmetrically for `or`; `b` is evaluated
exactly when the result depends on it (the resulting state is the
post-`a` state when `b` is skipped).  Under the VM backend the claim
fails: its unconditionally-popping jumps lose the operand, so
evaluating `0 or 5` at the top level underflows the stack rather
than producing 0 or 5. -/
theorem c2_logical_ops (fuel : Nat) (a b : Expr) (st st₁ : St) (lv : Value)
    (h : evalE fuel a st = (.ok lv, st₁)) :
    (truthy st₁.heap lv = false →
      evalE (fuel+1) (.logicalOp a "and" b) st = (.ok lv, st₁)) ∧
    (truthy st₁.heap lv = true →
      evalE (fuel+1) (.logicalOp a "and" b) st = evalE fuel b st₁) ∧
    (truthy st₁.heap lv = true →
      evalE (fuel+1) (.logicalOp a "or" b) st = (.ok lv, st₁)) ∧
    (truthy st₁.heap lv = false →
      evalE (fuel+1) (.logicalOp a "or" b) st = evalE fuel b st₁) ∧
    vmRunProg 40 64 [.exprStmt (.logicalOp (.integerLiteral 0) "or"
      (.integerLiteral 5))] = .error "pop from empty list" := by
  refine ⟨?_, ?_, ?_, ?_, rfl⟩ <;> intro ht <;> simp [evalE, h, ht]

/-- C2 witness: instantiating the theorem at `0 and 2` in the initial
state. -/
theorem c2_logical_ops_witness :
    evalE 11 (.logicalOp (.integerLiteral 0) "and" (.integerLiteral 2))
      interpInit = (.ok (.vint 0), interpInit) :=
  (c2_logical_ops 10 (.integerLiteral 0) (.integerLiteral 2) interpInit
    interpInit (.vint 0) rfl).1 rfl

/-- C3 counterexample.  In `_call_function` the default expressions
are evaluated *before* `current_env` is switched to the new function
environment, i.e. in the caller's environment, not the defining
closure: running `progC3` yields 2 (the caller `h`'s local `d`),
where the claim's "defining environment" semantics would yield 1. -/
theorem c3_default_uses_caller_env :
    lexParse 40 srcC3 = .ok progC3 ∧
    (interpRun 40 progC3).1 = .ok (.vint 2) ∧
    (interpRun 40 progC3).1 ≠ .ok (.vint 1) := by
  refine ⟨rfl, rfl, ?_⟩
  rw [show (interpRun 40 progC3).1 = .ok (.vint 2) from rfl]
  simp

/-- C3 (amended).  (i) A missing argument's default expression is
evaluated in the *caller's current* environment: calling
`fn g(x = d) { return x }` with no argument returns the caller
environment's binding of `d` (`v`), whatever the captured closure
environment binds `d` to (`w`).  (ii) If the body completes without
executing `return`, the call returns `none`. -/
theorem c3_default_caller_env_and_none_return :
    (∀ v w : Value, (callFunction 10 c3Decl 0 [] (c3CallerSt v w)).1 = .ok v) ∧
    (∀ (fuel : Nat) (d : FnD) (envC : Nat) (st : St) (u : Value) (st₂ : St),
      d.params = [] →
      execStmts (fuel+1) d.body
        { st with envs := st.envs ++ [⟨[], [], some envC⟩],
                  cur := st.envs.length } = (.ok u, st₂) →
      callFunction (fuel+2) d envC [] st = (.ok .vnone, { st₂ with cur := st.cur })) := by
  constructor
  · intro v w
    rfl
  · intro fuel d envC st u st₂ hp hb
    simp [callFunction, St.allocScope, hp, bindParams, hb]

/-- C3 witness: both parts applied at concrete inputs. -/
theorem c3_witness :
    (callFunction 10 c3Decl 0 [] (c3CallerSt (.vint 2) (.vint 1))).1 =
      .ok (.vint 2) ∧
    callFunction 7 ⟨"k", [], none, [], false⟩ 0 []
      (c3CallerSt (.vint 2) (.vint 1)) =
      (.ok .vnone, { c3CallerSt (.vint 2) (.vint 1) with
        envs := (c3CallerSt (.vint 2) (.vint 1)).envs ++ [⟨[], [], some 0⟩] }) := by
  constructor
  · exact c3_default_caller_env_and_none_return.1 (.vint 2) (.vint 1)
  · exact c3_default_caller_env_and_none_return.2 5 ⟨"k", [], none, [], false⟩ 0
      (c3CallerSt (.vint 2) (.vint 1)) .vnone _ rfl rfl

/-- Python `==` between values of distinct kinds is `False` — except
inside the numeric tower, where `bool` counts as a number. -/
theorem pyEqB_cross_kind (fuel : Nat) (h : Heap) (a b : Value)
    (hk : a.kind ≠ b.kind) (hn : ¬(numericKind a = true ∧ numericKind b = true)) :
    pyEqB (fuel+1) h a b = .ok false := by
  cases a <;> cases b <;>
    simp_all [pyEqB, numVal?, Value.kind, numericKind]

/-- C4 counterexample.  `evaluate_ComparisonOp` applies the host
language's `==`, and Python treats `bool` as a numeric type:
`true == 1` evaluates to `true`, not `false` as the claim requires
for distinct kinds. -/
theorem c4_bool_int_equality_is_true :
    (interpRun 32 [.exprStmt (.comparisonOp (.booleanLiteral true) "=="
      (.integerLiteral 1))]).1 = .ok (.vbool true) ∧
    applyCmp 10 Heap.empty "==" (.vbool true) (.vint 1) = .ok (.vbool true) ∧
    Value.vbool true ≠ Value.vbool false := by
  refine ⟨rfl, rfl, ?_⟩
  simp

/-- C4 (amended).  For every pair of runtime values of distinct kinds
*outside the numeric tower* (`bool`/`int`/`float` compare
numerically, so `true == 1`), `==` returns `false` and `!=` returns
`true`, and neither raises; this also holds for the full
`ComparisonOp` evaluation once both operands are evaluated. -/
theorem c4_cross_kind_equality (fuel : Nat) (hf : fuel ≠ 0) (h : Heap)
    (a b : Value) (hk : a.kind ≠ b.kind)
    (hn : ¬(numericKind a = true ∧ numericKind b = true)) :
    applyCmp fuel h "==" a b = .ok (.vbool false) ∧
    applyCmp fuel h "!=" a b = .ok (.vbool true) ∧
    (∀ (l r : Expr) (st st₁ st₂ : St),
      evalE fuel l st = (.ok a, st₁) →
      evalE fuel r st₁ = (.ok b, st₂) →
      st₂.heap = h →
      evalE (fuel+1) (.comparisonOp l "==" r) st = (.ok (.vbool false), st₂) ∧
      evalE (fuel+1) (.comparisonOp l "!=" r) st = (.ok (.vbool true), st₂)) := by
  have he : pyEqB fuel h a b = .ok false := by
    cases fuel with
    | zero => exact absurd rfl hf
    | succ n => exact pyEqB_cross_kind n h a b hk hn
  refine ⟨?_, ?_, ?_⟩
  · simp [applyCmp, he, Except.map]
  · simp [applyCmp, he, Except.map]
  · intro l r st st₁ st₂ h₁ h₂ hh
    subst hh
    constructor <;> simp [evalE, h₁, h₂, applyCmp, he, Except.map]

/-- C4 witness: `none == 0` and a string/list pair, through the
amended theorem. -/
theorem c4_cross_kind_equality_witness :
    applyCmp 10 Heap.empty "==" .vnone (.vint 0) = .ok (.vbool false) ∧
    applyCmp 10 Heap.empty "!=" (.vstr "0") (.vint 0) = .ok (.vbool true) := by
  constructor
  · exact (c4_cross_kind_equality 9 (by decide) Heap.empty .vnone (.vint 0)
      (by decide) (by simp [numericKind, numVal?])).1
  · exact (c4_cross_kind_equality 9 (by decide) Heap.empty (.vstr "0") (.vint 0)
      (by decide) (by simp [numericKind, numVal?])).2.1

/-- C5 counterexample.  The claim says the parser rejects `1 = 2` at
the operator token; in fact `parse_expression_or_assignment` accepts
*any* expression as an assignment target, so lexing + parsing `1 = 2`
succeeds, producing `Assignment(IntegerLiteral 1, "=",
IntegerLiteral 2)`. -/
theorem c5_parser_accepts_literal_target :
    lexParse 32 srcC5 =
      .ok [.assign (.integerLiteral 1) "=" (.integerLiteral 2)] := rfl

/-- C5 (amended).  The parser accepts any expression as the target of
`= += -= *= /=` (shown for literal-target statements `n <op> m`); the
rejection happens at *execution* time: running such an assignment
evaluates the right-hand side and then fails with
`Invalid assignment target: IntegerLiteral`, leaving the state as it
was after the right-hand side evaluation. -/
theorem c5_target_check_is_at_runtime :
    (∀ (n m : Int) (opT : TokType) (opS : String),
      (opT, opS) ∈ [(TokType.ASSIGN, "="), (TokType.PLUS_ASSIGN, "+="),
        (TokType.MINUS_ASSIGN, "-="), (TokType.MULTIPLY_ASSIGN, "*="),
        (TokType.DIVIDE_ASSIGN, "/=")] →
      parseStatement 32 [⟨.INTEGER, .pint n, 1, 1⟩, ⟨opT, .pstr opS, 1, 3⟩,
        ⟨.INTEGER, .pint m, 1, 5⟩, ⟨.EOF, .pnone, 1, 6⟩] =
        .ok (.assign (.integerLiteral n) opS (.integerLiteral m),
          [⟨.EOF, .pnone, 1, 6⟩])) ∧
    (∀ (fuel : Nat) (st st₁ : St) (n : Int) (op : String) (rhs : Expr)
      (v : Value),
      evalE fuel rhs st = (.ok v, st₁) →
      execStmt (fuel+1) (.assign (.integerLiteral n) op rhs) st =
        (.err "Invalid assignment target: IntegerLiteral", st₁)) := by
  constructor
  · intro n m opT opS hmem
    simp only [List.mem_cons, List.not_mem_nil, or_false] at hmem
    rcases hmem with h | h | h | h | h <;>
      (injection h with h₁ h₂; subst h₁; subst h₂; rfl)
  · intro fuel st st₁ n op rhs v h
    simp [execStmt, h, Expr.nodeName]

/-- C5 witness: `1 = 2` through the amended theorem, for the parser
part and the runtime part. -/
theorem c5_target_check_witness :
    parseStatement 32 [⟨.INTEGER, .pint 1, 1, 1⟩, ⟨.ASSIGN, .pstr "=", 1, 3⟩,
      ⟨.INTEGER, .pint 2, 1, 5⟩, ⟨.EOF, .pnone, 1, 6⟩] =
      .ok (.assign (.integerLiteral 1) "=" (.integerLiteral 2),
        [⟨.EOF, .pnone, 1, 6⟩]) ∧
    execStmt 11 (.assign (.integerLiteral 1) "=" (.integerLiteral 2))
      interpInit =
      (.err "Invalid assignment target: IntegerLiteral", interpInit) :=
  ⟨c5_target_check_is_at_runtime.1 1 2 .ASSIGN "=" (by simp),
   c5_target_check_is_at_runtime.2 10 interpInit interpInit 1 "="
     (.integerLiteral 2) (.vint 2) rfl⟩

theorem assignVarAux_const (walk : Nat) (envs : List Scope) (i : Nat)
    (name : String) (v : Value)
    (hc : resolvesConstAux walk envs i name = true) :
    assignVarAux walk envs i name v =
      .error ("Cannot reassign constant '" ++ name ++ "'") := by
  induction walk generalizing i with
  | zero => simp [resolvesConstAux] at hc
  | succ w ih =>
    simp only [resolvesConstAux] at hc
    simp only [assignVarAux]
    match hg : envs.get? i with
    | none => rw [hg] at hc; simp at hc
    | some sc =>
      rw [hg] at hc
      simp only at hc
      by_cases hfound : (aget sc.vars name).isSome
      · simp [hfound] at hc ⊢
        simp [hc]
      · simp [hfound] at hc ⊢
        match hp : sc.parent with
        | some p => rw [hp] at hc; exact ih p hc
        | none => rw [hp] at hc; simp at hc

/-- C6.  Assigning — plainly or compoundly — to a name whose binding
is marked `const` is a runtime failure: the `Environment.assign` walk
raises `Cannot reassign constant '<name>'` (a message containing both
the name and the word "constant"); the environment is left exactly as
it was after the right-hand side was evaluated, so the binding keeps
its value (demonstrated concretely: after `const K = 3; K = 4` fails,
`K` still resolves to 3). -/
theorem c6_const_reassignment_fails :
    (∀ (walk : Nat) (envs : List Scope) (i : Nat) (name : String) (v : Value),
      resolvesConstAux walk envs i name = true →
      assignVarAux walk envs i name v =
        .error ("Cannot reassign constant '" ++ name ++ "'")) ∧
    (∀ name : String,
      "Cannot reassign constant '" ++ name ++ "'" =
        "Cannot reassign " ++ "constant" ++ " '" ++ name ++ "'") ∧
    (∀ (fuel : Nat) (st st₁ : St) (name : String) (rhs : Expr) (v : Value),
      evalE fuel rhs st = (.ok v, st₁) →
      resolvesConst st₁ name = true →
      execStmt (fuel+1) (.assign (.identifier name) "=" rhs) st =
        (.err ("Cannot reassign constant '" ++ name ++ "'"), st₁)) ∧
    (∀ (fuel : Nat) (st st₁ : St) (name op : String) (rhs : Expr)
      (v current w : Value) (h' : Heap),
      op ≠ "=" →
      evalE fuel rhs st = (.ok v, st₁) →
      lookupVar st₁ st₁.cur name = .ok current →
      applyCompound st₁.heap op current v = .ok (w, h') →
      resolvesConst st₁ name = true →
      execStmt (fuel+1) (.assign (.identifier name) op rhs) st =
        (.err ("Cannot reassign constant '" ++ name ++ "'"),
          { st₁ with heap := h' })) ∧
    (lexParse 32 srcC6 = .ok progC6 ∧
     (interpRun 32 progC6).1 = .err "Cannot reassign constant 'K'" ∧
     lookupVar (interpRun 32 progC6).2 (interpRun 32 progC6).2.cur "K" =
       .ok (.vint 3)) := by
  refine ⟨assignVarAux_const, ?_, ?_, ?_, rfl, rfl, rfl⟩
  · intro name
    rfl
  · intro fuel st st₁ name rhs v h hc
    have ha : assignVar st₁ name v =
        .error ("Cannot reassign constant '" ++ name ++ "'") := by
      unfold assignVar
      rw [assignVarAux_const _ _ _ _ _ hc]
      rfl
    simp [execStmt, h, ha]
  · intro fuel st st₁ name op rhs v current w h' hop h hl hcomp hc
    have ha : assignVar { st₁ with heap := h' } name w =
        .error ("Cannot reassign constant '" ++ name ++ "'") := by
      unfold assignVar
      rw [assignVarAux_const _ _ _ _ _ hc]
      rfl
    simp [execStmt, h, hop, hl, hcomp, ha]

/-- C6 witness: the defining statement of `const K = 3` followed by
plain reassignment, through the theorem's third conjunct. -/
theorem c6_const_reassignment_witness :
    execStmt 11 (.assign (.identifier "K") "=" (.integerLiteral 4))
      (execStmt 31 (.varDecl "K" none (some (.integerLiteral 3)) true)
        interpInit).2 =
      (.err ("Cannot reassign constant '" ++ "K" ++ "'"),
        (execStmt 31 (.varDecl "K" none (some (.integerLiteral 3)) true)
          interpInit).2) :=
  c6_const_reassignment_fails.2.2.1 10 _ _ "K" (.integerLiteral 4) (.vint 4)
    rfl rfl

theorem readStringLex_error_aux (q : Char) (sl sc : Nat) :
    ∀ (n : Nat) (cs : List Char), cs.length ≤ n →
    ∀ (acc : List Char) (l c : Nat) (e : LexErr),
    readStringLex q sl sc acc cs l c = .error e →
    e = ⟨"Unterminated string literal", sl, sc⟩ := by
  intro n
  induction n with
  | zero =>
    intro cs hlen acc l c e h
    match cs with
    | [] =>
      simp only [readStringLex] at h
      exact (Except.error.injEq _ _).mp h.symm |>.symm ▸ rfl
    | _ :: _ =>
      simp only [List.length_cons] at hlen
      omega
  | succ m ih =>
    intro cs hlen acc l c e h
    match cs with
    | [] =>
      simp only [readStringLex] at h
      exact ((Except.error.injEq _ _).mp h).symm
    | ch :: rest =>
      match rest with
      | [] =>
        simp only [readStringLex] at h
        by_cases hq : ch = q
        · rw [if_pos hq] at h
          exact Except.noConfusion h
        · rw [if_neg hq] at h
          by_cases hb : ch = '\\'
          · rw [if_pos hb] at h
            exact ((Except.error.injEq _ _).mp h).symm
          · rw [if_neg hb] at h
            exact ((Except.error.injEq _ _).mp h).symm
      | e' :: rest' =>
        simp only [readStringLex] at h
        by_cases hq : ch = q
        · rw [if_pos hq] at h
          exact Except.noConfusion h
        · rw [if_neg hq] at h
          by_cases hb : ch = '\\'
          · rw [if_pos hb] at h
            have hlen' : rest'.length ≤ m := by
              simp only [List.length_cons] at hlen
              omega
            exact ih rest' hlen' _ _ _ _ h
          · rw [if_neg hb] at h
            have hlen' : (e' :: rest').length ≤ m := by
              simp only [List.length_cons] at hlen ⊢
              omega
            exact ih (e' :: rest') hlen' _ _ _ _ h

/-- C8.  (i) Whenever `read_string` fails, its error is the single
`Unterminated string literal` error carrying the line and column of
the *opening* quote; in particular this is what happens when the
input runs out before an unescaped closing quote.  (ii) A backslash
followed by any character continues the scan with the translated
character appended — `\n \t \r \\ \" \'` map through the escape
table and every other character is copied verbatim.  (iii) At the
whole-lexer level, `let s = "abc` fails with that single error at
line 1 column 9, the position of the opening quote. -/
theorem c8_unterminated_string_and_escapes :
    (∀ (q : Char) (sl sc : Nat) (cs acc : List Char) (l c : Nat) (e : LexErr),
      readStringLex q sl sc acc cs l c = .error e →
      e = ⟨"Unterminated string literal", sl, sc⟩) ∧
    (∀ (q : Char) (sl sc : Nat) (acc : List Char) (e : Char)
      (rest : List Char) (l c : Nat), q ≠ '\\' →
      ∃ l' c', readStringLex q sl sc acc ('\\' :: e :: rest) l c =
        readStringLex q sl sc (acc ++ [escChar e]) rest l' c') ∧
    (escChar 'n' = '\n' ∧ escChar 't' = '\t' ∧ escChar 'r' = '\r' ∧
     escChar '\\' = '\\' ∧ escChar '"' = '"' ∧ escChar '\'' = '\'' ∧
     (∀ ch : Char, ch ≠ 'n' → ch ≠ 't' → ch ≠ 'r' → ch ≠ '\\' → ch ≠ '"' →
       ch ≠ '\'' → escChar ch = ch)) ∧
    tokenize "let s = \"abc" = .error ⟨"Unterminated string literal", 1, 9⟩ := by
  refine ⟨?_, ?_, ⟨rfl, rfl, rfl, rfl, rfl, rfl, ?_⟩, rfl⟩
  · intro q sl sc cs acc l c e h
    exact readStringLex_error_aux q sl sc cs.length cs le_rfl acc l c e h
  · intro q sl sc acc e rest l c hq
    refine ⟨(advancePos e l (c+1)).1, (advancePos e l (c+1)).2, ?_⟩
    have hne : ('\\' : Char) ≠ q := fun hcontra => hq hcontra.symm
    simp [readStringLex, hne, advancePos]
  · intro ch h1 h2 h3 h4 h5 h6
    simp [escChar, h1, h2, h3, h4, h5, h6]

/-- C8 witness: the general error-position part applied at a concrete
unterminated remainder, and the escape part at `\q`. -/
theorem c8_witness :
    (⟨"Unterminated string literal", 3, 7⟩ : LexErr) =
      ⟨"Unterminated string literal", 3, 7⟩ ∧
    ∃ l' c', readStringLex '"' 3 7 [] ['\\', 'q'] 3 8 =
      readStringLex '"' 3 7 ['q'] [] l' c' :=
  ⟨c8_unterminated_string_and_escapes.1 '"' 3 7 ['a'] [] 3 8 _ rfl,
   c8_unterminated_string_and_escapes.2.1 '"' 3 7 [] 'q' [] 3 8 (by decide)⟩

/-- C9 counterexample.  `l.sort()` does not always hand back a
sorted copy: `sorted` compares elements with `<`, so for
`l = [1, "a"]` the call raises (`str` and `int` do not compare)
instead of returning a list. -/
theorem c9_sort_raises_on_mixed_list :
    lexParse 40 srcC9 = .ok progC9 ∧
    (interpRun 40 progC9).1 = .err "unsupported comparison between str and int" :=
  ⟨rfl, rfl⟩

/-- C9 (amended).  On the `list_methods` table: when the element
comparisons needed by `sorted` succeed, `l.sort()` returns a
*freshly allocated* list (a new reference, never the receiver's) and
leaves the receiver's cells unchanged; `l.reverse()` likewise always
returns a fresh reversed list; `l.append(x)` mutates the receiver in
place and returns the *same* reference, whose contents have grown by
`x`.  (Sorting a list whose elements do not compare is a runtime
failure, as the counterexample shows.) -/
theorem c9_list_method_effects :
    (∀ (fuel : Nat) (h : Heap) (r : Nat) (sorted : List Value),
      r < h.lists.length →
      sortValues fuel h (h.listAt r) = .ok sorted →
      applyListMethod fuel h r "sort" [] =
        .ok (.vlist h.lists.length, { h with lists := h.lists ++ [sorted] }) ∧
      h.lists.length ≠ r ∧
      ({ h with lists := h.lists ++ [sorted] } : Heap).listAt r = h.listAt r) ∧
    (∀ (fuel : Nat) (h : Heap) (r : Nat),
      r < h.lists.length →
      applyListMethod fuel h r "reverse" [] =
        .ok (.vlist h.lists.length,
          { h with lists := h.lists ++ [(h.listAt r).reverse] }) ∧
      h.lists.length ≠ r ∧
      ({ h with lists := h.lists ++ [(h.listAt r).reverse] } : Heap).listAt r =
        h.listAt r) ∧
    (∀ (fuel : Nat) (h : Heap) (r : Nat) (x : Value),
      applyListMethod fuel h r "append" [x] =
        .ok (.vlist r, h.setList r (h.listAt r ++ [x])) ∧
      (r < h.lists.length →
        (h.setList r (h.listAt r ++ [x])).listAt r = h.listAt r ++ [x])) := by
  refine ⟨?_, ?_, ?_⟩
  · intro fuel h r sorted hr hs
    refine ⟨?_, by omega, ?_⟩
    · have hbr : applyListMethod fuel h r "sort" [] =
          (sortValues fuel h (h.listAt r)).map h.allocList := rfl
      rw [hbr, hs]
      rfl
    · simp [Heap.listAt, List.getElem?_append_left hr]
  · intro fuel h r hr
    refine ⟨rfl, by omega, ?_⟩
    simp [Heap.listAt, List.getElem?_append_left hr]
  · intro fuel h r x
    refine ⟨rfl, ?_⟩
    intro hr
    simp [Heap.listAt, Heap.setList, List.getElem?_set_eq_of_lt _ hr]

/-- C9 witness: the three parts at a concrete heap holding `[2, 1]`. -/
theorem c9_list_method_effects_witness :
    applyListMethod 10 ⟨[[.vint 2, .vint 1]], []⟩ 0 "sort" [] =
      .ok (.vlist 1, ⟨[[.vint 2, .vint 1], [.vint 1, .vint 2]], []⟩) ∧
    applyListMethod 10 ⟨[[.vint 2, .vint 1]], []⟩ 0 "reverse" [] =
      .ok (.vlist 1, ⟨[[.vint 2, .vint 1], [.vint 1, .vint 2]], []⟩) ∧
    applyListMethod 10 ⟨[[.vint 2, .vint 1]], []⟩ 0 "append" [.vint 7] =
      .ok (.vlist 0, ⟨[[.vint 2, .vint 1, .vint 7]], []⟩) := by
  refine ⟨?_, ?_, ?_⟩
  · exact (c9_list_method_effects.1 10 ⟨[[.vint 2, .vint 1]], []⟩ 0
      [.vint 1, .vint 2] (by decide) rfl).1
  · exact (c9_list_method_effects.2.1 10 ⟨[[.vint 2, .vint 1]], []⟩ 0
      (by decide)).1
  · exact (c9_list_method_effects.2.2 10 ⟨[[.vint 2, .vint 1]], []⟩ 0
      (.vint 7)).1

/-- C10.  `execute_EmitStatement` never requires the event to be
declared: once the arguments evaluate, `emit E(args…)` always
succeeds with `none`, appends the evaluated argument list to the
event-log entry for `E` — starting that entry from `[]` when `E` has
no entry, exactly the value a declared event starts from — and
prints the `[EVENT] E: […]` line; the formula is literally the same
whether or not `E` was declared. -/
theorem c10_emit_undeclared_event (fuel : Nat) (st st₁ : St) (name : String)
    (args : List Expr) (avs : List Value)
    (h : evalArgs fuel args st = (.ok avs, st₁)) :
    execStmt (fuel+1) (.emitStmt name args) st =
      (.ok .vnone,
        { st₁ with
          events := aset st₁.events name ((aget st₁.events name).getD [] ++ [avs])
          out := st₁.out ++ ["[EVENT] " ++ name ++ ": [" ++
            String.intercalate ", " (avs.map (pyRepr fuel st₁.heap)) ++ "]\n"] }) ∧
    aget (aset st₁.events name ((aget st₁.events name).getD [] ++ [avs])) name =
      some ((aget st₁.events name).getD [] ++ [avs]) := by
  constructor
  · simp [execStmt, h]
  · exact aget_aset _ _ _

/-- C10 witness: `emit E(1)` in the initial state, where no `event E`
was ever executed. -/
theorem c10_emit_undeclared_event_witness :
    execStmt 11 (.emitStmt "E" [.integerLiteral 1]) interpInit =
      (.ok .vnone,
        { interpInit with
          events := aset interpInit.events "E"
            ((aget interpInit.events "E").getD [] ++ [[.vint 1]])
          out := interpInit.out ++ ["[EVENT] " ++ "E" ++ ": [" ++
            String.intercalate ", "
              ([Value.vint 1].map (pyRepr 10 interpInit.heap)) ++ "]\n"] }) :=
  (c10_emit_undeclared_event 10 interpInit interpInit "E" [.integerLiteral 1]
    [.vint 1] rfl).1


theorem frame_refl (ex : Option Nat) (st : St) : FrameX ex st st :=
  ⟨rfl, Nat.le_refl _, fun _ _ => rfl, fun _ _ _ => rfl⟩

theorem frame_trans {ex : Option Nat} {st st₁ st₂ : St}
    (h₁ : FrameX ex st st₁) (h₂ : FrameX ex st₁ st₂) : FrameX ex st st₂ := by
  obtain ⟨c₁, l₁, p₁, s₁⟩ := h₁
  obtain ⟨c₂, l₂, p₂, s₂⟩ := h₂
  exact ⟨c₂.trans c₁, l₁.trans l₂,
    fun i hi => (p₂ i (lt_of_lt_of_le hi l₁)).trans (p₁ i hi),
    fun i hi hex => (s₂ i (lt_of_lt_of_le hi l₁) hex).trans (s₁ i hi hex)⟩

theorem frame_mono {ex : Option Nat} {st st' : St}
    (h : FrameX none st st') : FrameX ex st st' :=
  ⟨h.1, h.2.1, h.2.2.1, fun i hi _ => h.2.2.2 i hi (fun hc => Option.noConfusion hc)⟩

/-- Any state step that leaves `envs` and `cur` alone (heap, output,
event-log or object-counter updates) is a frame step. -/
theorem frame_of_eq {ex : Option Nat} {st st' : St}
    (he : st'.envs = st.envs) (hc : st'.cur = st.cur) : FrameX ex st st' :=
  ⟨hc, by rw [he], fun i _ => by rw [he], fun i _ _ => by rw [he]⟩

theorem frame_allocScope (ex : Option Nat) (st : St) (p : Option Nat) :
    FrameX ex st (st.allocScope p).2 := by
  refine ⟨rfl, ?_, ?_, ?_⟩
  · simp [St.allocScope]
  · intro i hi
    unfold parAt
    show ((st.envs ++ [⟨[], [], p⟩])[i]?).map Scope.parent =
      (st.envs[i]?).map Scope.parent
    rw [List.getElem?_append_left hi]
  · intro i hi _
    unfold sigAt
    show ((st.envs ++ [⟨[], [], p⟩])[i]?).map scopeSig =
      (st.envs[i]?).map scopeSig
    rw [List.getElem?_append_left hi]

theorem defineIn_cur (st : St) (j : Nat) (n : String) (v : Value) (c : Bool) :
    (defineIn st j n v c).cur = st.cur := by
  unfold defineIn
  cases st.envs.get? j <;> rfl

theorem defineIn_length (st : St) (j : Nat) (n : String) (v : Value) (c : Bool) :
    (defineIn st j n v c).envs.length = st.envs.length := by
  unfold defineIn
  cases st.envs.get? j
  · rfl
  · simp

theorem defineIn_get_ne (st : St) (j : Nat) (n : String) (v : Value) (c : Bool)
    (i : Nat) (hij : i ≠ j) :
    (defineIn st j n v c).envs[i]? = st.envs[i]? := by
  unfold defineIn
  cases st.envs.get? j
  · rfl
  · exact List.getElem?_set_ne (fun h => hij h.symm)

theorem defineIn_parAt (st : St) (j : Nat) (n : String) (v : Value) (c : Bool)
    (i : Nat) : parAt (defineIn st j n v c).envs i = parAt st.envs i := by
  by_cases hij : i = j
  · subst hij
    unfold defineIn parAt
    cases h : st.envs.get? i with
    | none => rfl
    | some sc =>
      rw [List.get?_eq_getElem?] at h
      obtain ⟨hi, -⟩ := List.getElem?_eq_some.mp h
      simp [List.getElem?_set, hi, h]
  · unfold parAt
    rw [defineIn_get_ne st j n v c i hij]

theorem frame_defineIn (st : St) (j : Nat) (n : String) (v : Value) (c : Bool) :
    FrameX (some j) st (defineIn st j n v c) := by
  refine ⟨defineIn_cur st j n v c, Nat.le_of_eq (defineIn_length st j n v c).symm,
    fun i _ => defineIn_parAt st j n v c i, fun i _ hex => ?_⟩
  unfold sigAt
  rw [defineIn_get_ne st j n v c i (fun h => hex (by rw [h]))]

theorem akeys_aset_of_isSome {α : Type} (xs : List (String × α)) (k : String)
    (v : α) (h : (aget xs k).isSome) : akeys (aset xs k v) = akeys xs := by
  induction xs with
  | nil => simp [aget] at h
  | cons p rest ih =>
    obtain ⟨k₀, v₀⟩ := p
    by_cases hk : k₀ = k
    · subst hk
      simp [aset, akeys]
    · simp only [aget, if_neg hk] at h
      have hrec := ih h
      simp only [akeys] at hrec ⊢
      simp [aset, if_neg hk, hrec]

theorem assignVarAux_sig (walk : Nat) :
    ∀ (envs : List Scope) (i0 : Nat) (n : String) (v : Value)
      (envs' : List Scope), assignVarAux walk envs i0 n v = .ok envs' →
      envs'.length = envs.length ∧
      (∀ j, parAt envs' j = parAt envs j) ∧
      (∀ j, sigAt envs' j = sigAt envs j) := by
  induction walk with
  | zero => intro envs i0 n v envs' h; exact absurd h (by simp [assignVarAux])
  | succ walk ih =>
    intro envs i0 n v envs' h
    rw [assignVarAux] at h
    cases hg : envs.get? i0 with
    | none => simp only [hg] at h; exact Except.noConfusion h
    | some sc =>
      simp only [hg] at h
      have hg' := hg
      rw [List.get?_eq_getElem?] at hg'
      by_cases hs : (aget sc.vars n).isSome
      · rw [if_pos hs] at h
        by_cases hc : sc.consts.contains n
        · rw [if_pos hc] at h; exact absurd h (by simp)
        · rw [if_neg hc] at h
          have henv : envs' = envs.set i0 { sc with vars := aset sc.vars n v } :=
            ((Except.ok.injEq _ _).mp h).symm
          subst henv
          obtain ⟨hi0, -⟩ := List.getElem?_eq_some.mp hg'
          refine ⟨by simp, fun j => ?_, fun j => ?_⟩
          · by_cases hj : j = i0
            · subst hj
              unfold parAt
              simp [List.getElem?_set, hi0, hg']
            · unfold parAt
              rw [List.getElem?_set_ne (fun hh => hj hh.symm)]
          · by_cases hj : j = i0
            · subst hj
              unfold sigAt
              simp [List.getElem?_set, hi0, hg', scopeSig,
                akeys_aset_of_isSome sc.vars n v hs]
            · unfold sigAt
              rw [List.getElem?_set_ne (fun hh => hj hh.symm)]
      · rw [if_neg hs] at h
        cases hp : sc.parent with
        | none => simp only [hp] at h; exact Except.noConfusion h
        | some p => simp only [hp] at h; exact ih envs p n v envs' h

theorem frame_assignVar {st : St} {n : String} {v : Value} {st' : St}
    (ex : Option Nat) (h : assignVar st n v = .ok st') : FrameX ex st st' := by
  unfold assignVar at h
  cases hg : assignVarAux (st.envs.length + 1) st.envs st.cur n v with
  | error m => rw [hg] at h; exact absurd h (by simp [Except.map])
  | ok envs' =>
    rw [hg] at h
    simp only [Except.map] at h
    have hst : st' = { st with envs := envs' } := ((Except.ok.injEq _ _).mp h).symm
    subst hst
    obtain ⟨hl, hp, hs⟩ := assignVarAux_sig _ _ _ _ _ _ hg
    exact ⟨rfl, Nat.le_of_eq hl.symm, fun i _ => hp i, fun i _ _ => hs i⟩


theorem frame_step_evalArgs (fuel : Nat)
    (ihE : ∀ e st, FrameX none st (evalE fuel e st).2)
    (ihA : ∀ es st, FrameX none st (evalArgs fuel es st).2) :
    ∀ es st, FrameX none st (evalArgs (fuel+1) es st).2 := by
  intro es st
  cases es with
  | nil => exact frame_refl _ _
  | cons e rest =>
    simp only [evalArgs]
    split
    case _ v st₁ heq =>
      have hE := ihE e st
      rw [heq] at hE
      split
      case _ vs st₂ heq₂ =>
        have hA := ihA rest st₁
        rw [heq₂] at hA
        exact frame_trans hE hA
      case _ =>
        exact frame_trans hE (ihA rest st₁)
    all_goals
      rename_i heq
      have hE := ihE e st
      rw [heq] at hE
      exact hE

theorem frame_step_evalPairs (fuel : Nat)
    (ihE : ∀ e st, FrameX none st (evalE fuel e st).2)
    (ihP : ∀ ps st, FrameX none st (evalPairs fuel ps st).2) :
    ∀ ps st, FrameX none st (evalPairs (fuel+1) ps st).2 := by
  intro ps st
  cases ps with
  | nil => exact frame_refl _ _
  | cons p rest =>
    obtain ⟨ke, ve⟩ := p
    simp only [evalPairs]
    split
    case _ kv st₁ heq =>
      have h₁ := ihE ke st
      rw [heq] at h₁
      split
      case _ vv st₂ heq₂ =>
        have h₂ := ihE ve st₁
        rw [heq₂] at h₂
        split
        case _ kvs st₃ heq₃ =>
          have h₃ := ihP rest st₂
          rw [heq₃] at h₃
          exact frame_trans h₁ (frame_trans h₂ h₃)
        case _ =>
          exact frame_trans h₁ (frame_trans h₂ (ihP rest st₂))
      all_goals
        rename_i heq₂
        have h₂ := ihE ve st₁
        rw [heq₂] at h₂
        exact frame_trans h₁ h₂
    all_goals
      rename_i heq
      have h₁ := ihE ke st
      rw [heq] at h₁
      exact h₁

theorem frame_step_bindParams (fuel : Nat)
    (ihE : ∀ e st, FrameX none st (evalE fuel e st).2)
    (ihB : ∀ ps args fe st, FrameX (some fe) st (bindParams fuel ps args fe st).2) :
    ∀ ps args fe st, FrameX (some fe) st (bindParams (fuel+1) ps args fe st).2 := by
  intro ps args fe st
  cases ps with
  | nil => exact frame_refl _ _
  | cons p ps' =>
    cases args with
    | cons a as =>
      exact frame_trans (frame_defineIn st fe p.1 a false)
        (ihB ps' as fe (defineIn st fe p.1 a false))
    | nil =>
      simp only [bindParams]
      split
      case _ dflt heq =>
        split
        case _ v st₁ heq₂ =>
          have hE := ihE dflt st
          rw [heq₂] at hE
          exact frame_trans (frame_mono hE)
            (frame_trans (frame_defineIn st₁ fe p.1 v false)
              (ihB ps' [] fe (defineIn st₁ fe p.1 v false)))
        all_goals
          rename_i heq₂
          have hE := ihE dflt st
          rw [heq₂] at hE
          exact frame_mono hE
      case _ heq =>
        exact frame_trans (frame_defineIn st fe p.1 .vnone false)
          (ihB ps' [] fe (defineIn st fe p.1 .vnone false))

theorem frame_step_execStmts (fuel : Nat)
    (ihS : ∀ s st, FrameX (some st.cur) st (execStmt fuel s st).2)
    (ihSs : ∀ ss st, FrameX (some st.cur) st (execStmts fuel ss st).2) :
    ∀ ss st, FrameX (some st.cur) st (execStmts (fuel+1) ss st).2 := by
  intro ss st
  cases ss with
  | nil => exact frame_refl _ _
  | cons s rest =>
    cases rest with
    | nil => exact ihS s st
    | cons t rest' =>
      simp only [execStmts]
      split
      case _ v st₁ heq =>
        have hS := ihS s st
        rw [heq] at hS
        have hSs := ihSs (t :: rest') st₁
        rw [hS.1] at hSs
        exact frame_trans hS hSs
      case _ =>
        exact ihS s st

theorem frame_step_execElifs (fuel : Nat)
    (ihE : ∀ e st, FrameX none st (evalE fuel e st).2)
    (ihSs : ∀ ss st, FrameX (some st.cur) st (execStmts fuel ss st).2)
    (ihElifs : ∀ els elseB st, FrameX (some st.cur) st (execElifs fuel els elseB st).2) :
    ∀ els elseB st, FrameX (some st.cur) st (execElifs (fuel+1) els elseB st).2 := by
  intro els elseB st
  cases els with
  | nil =>
    cases elseB with
    | some b => exact ihSs b st
    | none => exact frame_refl _ _
  | cons p rest =>
    obtain ⟨c, b⟩ := p
    simp only [execElifs]
    split
    case _ cv st₁ heq =>
      have hE := ihE c st
      rw [heq] at hE
      rw [← hE.1]
      split
      · have hSs := ihSs b st₁
        exact frame_trans (frame_mono hE) hSs
      · exact frame_trans (frame_mono hE) (ihElifs rest elseB st₁)
    case _ =>
      exact frame_mono (ihE c st)

theorem frame_step_execWhile (fuel : Nat)
    (ihE : ∀ e st, FrameX none st (evalE fuel e st).2)
    (ihSs : ∀ ss st, FrameX (some st.cur) st (execStmts fuel ss st).2)
    (ihW : ∀ c b acc st, FrameX (some st.cur) st (execWhile fuel c b acc st).2) :
    ∀ c b acc st, FrameX (some st.cur) st (execWhile (fuel+1) c b acc st).2 := by
  intro c b acc st
  simp only [execWhile]
  split
  case _ cv st₁ heq =>
    have hE := ihE c st
    rw [heq] at hE
    rw [← hE.1]
    split
    · split
      case _ v st₂ heq₂ =>
        have hB := ihSs b st₁
        rw [heq₂] at hB
        have hW := ihW c b v st₂
        rw [hB.1] at hW
        exact frame_trans (frame_mono hE) (frame_trans hB hW)
      case _ st₂ heq₂ =>
        have hB := ihSs b st₁
        rw [heq₂] at hB
        exact frame_trans (frame_mono hE) hB
      case _ st₂ heq₂ =>
        have hB := ihSs b st₁
        rw [heq₂] at hB
        have hW := ihW c b acc st₂
        rw [hB.1] at hW
        exact frame_trans (frame_mono hE) (frame_trans hB hW)
      case _ v st₂ heq₂ =>
        have hB := ihSs b st₁
        rw [heq₂] at hB
        exact frame_trans (frame_mono hE) hB
      case _ m st₂ heq₂ =>
        have hB := ihSs b st₁
        rw [heq₂] at hB
        exact frame_trans (frame_mono hE) hB
    · exact frame_mono hE
  case _ =>
    exact frame_mono (ihE c st)

theorem frame_step_execForItems (fuel : Nat)
    (ihSs : ∀ ss st, FrameX (some st.cur) st (execStmts fuel ss st).2)
    (ihFI : ∀ vn items b acc st,
      FrameX (some st.cur) st (execForItems fuel vn items b acc st).2) :
    ∀ vn items b acc st,
      FrameX (some st.cur) st (execForItems (fuel+1) vn items b acc st).2 := by
  intro vn items b acc st
  cases items with
  | nil => exact frame_refl _ _
  | cons item rest =>
    simp only [execForItems]
    have hD := frame_defineIn st st.cur vn item false
    split
    case _ v st₂ heq =>
      have hB := ihSs b (defineIn st st.cur vn item false)
      rw [defineIn_cur, heq] at hB
      have hR := ihFI vn rest b v st₂
      rw [(frame_trans hD hB).1] at hR
      exact frame_trans hD (frame_trans hB hR)
    case _ st₂ heq =>
      have hB := ihSs b (defineIn st st.cur vn item false)
      rw [defineIn_cur, heq] at hB
      exact frame_trans hD hB
    case _ st₂ heq =>
      have hB := ihSs b (defineIn st st.cur vn item false)
      rw [defineIn_cur, heq] at hB
      have hR := ihFI vn rest b acc st₂
      rw [(frame_trans hD hB).1] at hR
      exact frame_trans hD (frame_trans hB hR)
    case _ v st₂ heq =>
      have hB := ihSs b (defineIn st st.cur vn item false)
      rw [defineIn_cur, heq] at hB
      exact frame_trans hD hB
    case _ m st₂ heq =>
      have hB := ihSs b (defineIn st st.cur vn item false)
      rw [defineIn_cur, heq] at hB
      exact frame_trans hD hB

theorem frame_step_execForList (fuel : Nat)
    (ihSs : ∀ ss st, FrameX (some st.cur) st (execStmts fuel ss st).2)
    (ihFL : ∀ vn r idx b acc st,
      FrameX (some st.cur) st (execForList fuel vn r idx b acc st).2) :
    ∀ vn r idx b acc st,
      FrameX (some st.cur) st (execForList (fuel+1) vn r idx b acc st).2 := by
  intro vn r idx b acc st
  simp only [execForList]
  split
  · have hD := frame_defineIn st st.cur vn ((st.heap.listAt r).getD idx .vnone) false
    split
    case _ v st₂ heq =>
      have hB := ihSs b (defineIn st st.cur vn ((st.heap.listAt r).getD idx .vnone) false)
      rw [defineIn_cur, heq] at hB
      have hR := ihFL vn r (idx + 1) b v st₂
      rw [(frame_trans hD hB).1] at hR
      exact frame_trans hD (frame_trans hB hR)
    case _ st₂ heq =>
      have hB := ihSs b (defineIn st st.cur vn ((st.heap.listAt r).getD idx .vnone) false)
      rw [defineIn_cur, heq] at hB
      exact frame_trans hD hB
    case _ st₂ heq =>
      have hB := ihSs b (defineIn st st.cur vn ((st.heap.listAt r).getD idx .vnone) false)
      rw [defineIn_cur, heq] at hB
      have hR := ihFL vn r (idx + 1) b acc st₂
      rw [(frame_trans hD hB).1] at hR
      exact frame_trans hD (frame_trans hB hR)
    case _ v st₂ heq =>
      have hB := ihSs b (defineIn st st.cur vn ((st.heap.listAt r).getD idx .vnone) false)
      rw [defineIn_cur, heq] at hB
      exact frame_trans hD hB
    case _ m st₂ heq =>
      have hB := ihSs b (defineIn st st.cur vn ((st.heap.listAt r).getD idx .vnone) false)
      rw [defineIn_cur, heq] at hB
      exact frame_trans hD hB
  · exact frame_refl _ _

theorem allocFields_frame (fs : List (String × String)) :
    ∀ st : St, (allocFields st fs).2.envs = st.envs ∧ (allocFields st fs).2.cur = st.cur := by
  induction fs with
  | nil => intro st; exact ⟨rfl, rfl⟩
  | cons p rest ih =>
    intro st
    obtain ⟨n, t⟩ := p
    exact ⟨(ih _).1, (ih _).2⟩

/-- Gluing lemma for `_call_function`: the fresh function environment
sits at index `st.envs.length`, so steps that only reshape it (and
append) preserve every scope of the caller; `current_env` is restored
at the end. -/
theorem frame_call_glue {st stX : St} (cid : Nat)
    (hlen : (st.allocScope (some cid)).2.envs.length ≤ stX.envs.length)
    (hpar : ∀ i, i < (st.allocScope (some cid)).2.envs.length →
      parAt stX.envs i = parAt (st.allocScope (some cid)).2.envs i)
    (hsig : ∀ i, i < (st.allocScope (some cid)).2.envs.length →
      (some st.envs.length : Option Nat) ≠ some i →
      sigAt stX.envs i = sigAt (st.allocScope (some cid)).2.envs i) :
    FrameX none st { stX with cur := st.cur } := by
  have hlenA : (st.allocScope (some cid)).2.envs.length = st.envs.length + 1 := by
    simp [St.allocScope]
  refine ⟨rfl, ?_, ?_, ?_⟩
  · show st.envs.length ≤ stX.envs.length
    omega
  · intro i hi
    have hiA : i < (st.allocScope (some cid)).2.envs.length := by omega
    have h₁ : parAt stX.envs i = parAt (st.allocScope (some cid)).2.envs i := hpar i hiA
    have h₂ : parAt (st.allocScope (some cid)).2.envs i = parAt st.envs i := by
      unfold parAt
      show ((st.envs ++ [⟨[], [], some cid⟩])[i]?).map Scope.parent =
        (st.envs[i]?).map Scope.parent
      rw [List.getElem?_append_left hi]
    exact h₁.trans h₂
  · intro i hi _
    have hne : (some st.envs.length : Option Nat) ≠ some i := by
      intro hcon
      have : st.envs.length = i := Option.some.inj hcon
      omega
    have hiA : i < (st.allocScope (some cid)).2.envs.length := by omega
    have h₁ : sigAt stX.envs i = sigAt (st.allocScope (some cid)).2.envs i :=
      hsig i hiA hne
    have h₂ : sigAt (st.allocScope (some cid)).2.envs i = sigAt st.envs i := by
      unfold sigAt
      show ((st.envs ++ [⟨[], [], some cid⟩])[i]?).map scopeSig =
        (st.envs[i]?).map scopeSig
      rw [List.getElem?_append_left hi]
    exact h₁.trans h₂

theorem frame_step_callFunction (fuel : Nat)
    (ihB : ∀ ps args fe st, FrameX (some fe) st (bindParams fuel ps args fe st).2)
    (ihSs : ∀ ss st, FrameX (some st.cur) st (execStmts fuel ss st).2) :
    ∀ d cid args st, FrameX none st (callFunction (fuel+1) d cid args st).2 := by
  intro d cid args st
  simp only [callFunction]
  split
  case _ u stB heq =>
    have hB := ihB d.params args (st.allocScope (some cid)).1 (st.allocScope (some cid)).2
    rw [heq] at hB
    split <;> rename_i st₄ heq₂ <;>
      (have hE := ihSs d.body { stB with cur := (st.allocScope (some cid)).1 };
       rw [heq₂] at hE;
       exact frame_call_glue cid (hB.2.1.trans hE.2.1)
         (fun i hi => (hE.2.2.1 i (lt_of_lt_of_le hi hB.2.1)).trans (hB.2.2.1 i hi))
         (fun i hi hex =>
           (hE.2.2.2 i (lt_of_lt_of_le hi hB.2.1) hex).trans (hB.2.2.2 i hi hex)))
  all_goals
    rename_i heq
    have hB := ihB d.params args (st.allocScope (some cid)).1 (st.allocScope (some cid)).2
    rw [heq] at hB
    exact frame_call_glue cid hB.2.1 hB.2.2.1 hB.2.2.2

theorem frame_step_evalE (fuel : Nat)
    (ihE : ∀ e st, FrameX none st (evalE fuel e st).2)
    (ihA : ∀ es st, FrameX none st (evalArgs fuel es st).2)
    (ihP : ∀ ps st, FrameX none st (evalPairs fuel ps st).2)
    (ihC : ∀ d cid args st, FrameX none st (callFunction fuel d cid args st).2) :
    ∀ e st, FrameX none st (evalE (fuel+1) e st).2 := by
  intro e st
  cases e with
  | integerLiteral n => exact frame_refl _ _
  | floatLiteral q => exact frame_refl _ _
  | stringLiteral s => exact frame_refl _ _
  | booleanLiteral b => exact frame_refl _ _
  | nullLiteral => exact frame_refl _ _
  | listLiteral es =>
    simp only [evalE]
    split
    case _ vs st₁ heq =>
      have hA := ihA es st
      rw [heq] at hA
      exact frame_trans hA (frame_of_eq rfl rfl)
    all_goals
      rename_i heq
      have hA := ihA es st
      rw [heq] at hA
      exact hA
  | mapLiteral pairs =>
    simp only [evalE]
    split
    case _ kvs st₁ heq =>
      have hP := ihP pairs st
      rw [heq] at hP
      split
      case _ entries heq₂ => exact frame_trans hP (frame_of_eq rfl rfl)
      case _ m heq₂ => exact hP
    all_goals
      rename_i heq
      have hP := ihP pairs st
      rw [heq] at hP
      exact hP
  | identifier name =>
    simp only [evalE]
    split <;> exact frame_refl _ _
  | binaryOp l op r =>
    simp only [evalE]
    split
    case _ lv st₁ heq =>
      have h₁ := ihE l st
      rw [heq] at h₁
      split
      case _ rv st₂ heq₂ =>
        have h₂ := ihE r st₁
        rw [heq₂] at h₂
        split
        case _ v hh heq₃ =>
          exact frame_trans h₁ (frame_trans h₂ (frame_of_eq rfl rfl))
        case _ m heq₃ => exact frame_trans h₁ h₂
      case _ => exact frame_trans h₁ (ihE r st₁)
    case _ => exact ihE l st
  | unaryOp op operand =>
    simp only [evalE]
    split
    case _ v st₁ heq =>
      have h₁ := ihE operand st
      rw [heq] at h₁
      split
      · split <;> exact h₁
      · split
        · split <;> exact h₁
        · split
          · exact h₁
          · exact h₁
    case _ => exact ihE operand st
  | comparisonOp l op r =>
    simp only [evalE]
    split
    case _ lv st₁ heq =>
      have h₁ := ihE l st
      rw [heq] at h₁
      split
      case _ rv st₂ heq₂ =>
        have h₂ := ihE r st₁
        rw [heq₂] at h₂
        split <;> exact frame_trans h₁ h₂
      case _ => exact frame_trans h₁ (ihE r st₁)
    case _ => exact ihE l st
  | logicalOp l op r =>
    simp only [evalE]
    split
    case _ lv st₁ heq =>
      have h₁ := ihE l st
      rw [heq] at h₁
      split
      · split
        · exact h₁
        · exact frame_trans h₁ (ihE r st₁)
      · split
        · split
          · exact h₁
          · exact frame_trans h₁ (ihE r st₁)
        · exact h₁
    case _ => exact ihE l st
  | functionCall f args =>
    simp only [evalE]
    split
    case _ fv st₁ heq =>
      have h₁ := ihE f st
      rw [heq] at h₁
      split
      case _ avs st₂ heq₂ =>
        have h₂ := ihA args st₁
        rw [heq₂] at h₂
        split
        · split
          case _ v hh o heq₃ =>
            exact frame_trans h₁ (frame_trans h₂ (frame_of_eq rfl rfl))
          case _ m heq₃ => exact frame_trans h₁ h₂
        · split
          case _ v hh heq₃ =>
            exact frame_trans h₁ (frame_trans h₂ (frame_of_eq rfl rfl))
          case _ m heq₃ => exact frame_trans h₁ h₂
        · rename_i d envId oid
          exact frame_trans h₁ (frame_trans h₂ (ihC d envId avs st₂))
        · exact frame_trans h₁ h₂
      all_goals
        rename_i heq₂
        have h₂ := ihA args st₁
        rw [heq₂] at h₂
        exact frame_trans h₁ h₂
    case _ => exact ihE f st
  | methodCall objE m args =>
    simp only [evalE]
    split
    case _ ov st₁ heq =>
      have h₁ := ihE objE st
      rw [heq] at h₁
      split
      case _ avs st₂ heq₂ =>
        have h₂ := ihA args st₁
        rw [heq₂] at h₂
        split
        · split
          case _ v hh heq₃ =>
            exact frame_trans h₁ (frame_trans h₂ (frame_of_eq rfl rfl))
          case _ msg heq₃ => exact frame_trans h₁ h₂
        · split
          case _ v hh heq₃ =>
            exact frame_trans h₁ (frame_trans h₂ (frame_of_eq rfl rfl))
          case _ msg heq₃ => exact frame_trans h₁ h₂
        · split
          case _ v hh heq₃ =>
            exact frame_trans h₁ (frame_trans h₂ (frame_of_eq rfl rfl))
          case _ msg heq₃ => exact frame_trans h₁ h₂
        · exact frame_trans h₁ h₂
      all_goals
        rename_i heq₂
        have h₂ := ihA args st₁
        rw [heq₂] at h₂
        exact frame_trans h₁ h₂
    case _ => exact ihE objE st
  | memberAccess objE m =>
    simp only [evalE]
    split
    case _ ov st₁ heq =>
      have h₁ := ihE objE st
      rw [heq] at h₁
      split
      · split <;> exact h₁
      · exact h₁
    case _ => exact ihE objE st
  | indexAccess objE idxE =>
    simp only [evalE]
    split
    case _ ov st₁ heq =>
      have h₁ := ihE objE st
      rw [heq] at h₁
      split
      case _ iv st₂ heq₂ =>
        have h₂ := ihE idxE st₁
        rw [heq₂] at h₂
        split <;> exact frame_trans h₁ h₂
      case _ => exact frame_trans h₁ (ihE idxE st₁)
    case _ => exact ihE objE st
  | awaitExpr inner => exact ihE inner st

/-- Gluing lemma for `execute_ForStatement`: the loop body runs with
`current_env` pointing at the freshly appended child scope (index
`st₁.envs.length`), so the loop preserves the shape of *every*
pre-existing scope, and the child scope survives with its parent link
to the enclosing scope. -/
theorem frame_for_glue {st st₁ stX : St}
    (hE : FrameX none st st₁)
    (hF : FrameX (some st₁.envs.length) (forChildSt st₁) stX) :
    FrameX none st { stX with cur := st₁.cur } ∧
    (∃ sc, stX.envs[st₁.envs.length]? = some sc ∧ sc.parent = some st.cur) := by
  have hlenE := hE.2.1
  have hlenF : st₁.envs.length + 1 ≤ stX.envs.length := by
    have h := hF.2.1
    simpa [forChildSt] using h
  constructor
  · refine ⟨hE.1, ?_, ?_, ?_⟩
    · show st.envs.length ≤ stX.envs.length
      omega
    · intro i hi
      have hi1 : i < st₁.envs.length := lt_of_lt_of_le hi hlenE
      have hiA : i < (forChildSt st₁).envs.length := by
        simp [forChildSt]
        omega
      have p1 := hF.2.2.1 i hiA
      have p2 : parAt (forChildSt st₁).envs i = parAt st₁.envs i := by
        unfold parAt forChildSt
        show ((st₁.envs ++ [⟨[], [], some st₁.cur⟩])[i]?).map Scope.parent =
          (st₁.envs[i]?).map Scope.parent
        rw [List.getElem?_append_left hi1]
      have p3 := hE.2.2.1 i hi
      exact (p1.trans (p2.trans p3))
    · intro i hi _
      have hi1 : i < st₁.envs.length := lt_of_lt_of_le hi hlenE
      have hiA : i < (forChildSt st₁).envs.length := by
        simp [forChildSt]
        omega
      have hne : (some st₁.envs.length : Option Nat) ≠ some i := by
        intro hcon
        have := Option.some.inj hcon
        omega
      have p1 := hF.2.2.2 i hiA hne
      have p2 : sigAt (forChildSt st₁).envs i = sigAt st₁.envs i := by
        unfold sigAt forChildSt
        show ((st₁.envs ++ [⟨[], [], some st₁.cur⟩])[i]?).map scopeSig =
          (st₁.envs[i]?).map scopeSig
        rw [List.getElem?_append_left hi1]
      have p3 := hE.2.2.2 i hi (fun hc => Option.noConfusion hc)
      exact (p1.trans (p2.trans p3))
  · have hiA : st₁.envs.length < (forChildSt st₁).envs.length := by
      simp [forChildSt]
    have p1 := hF.2.2.1 st₁.envs.length hiA
    have p2 : parAt (forChildSt st₁).envs st₁.envs.length = some (some st₁.cur) := by
      unfold parAt forChildSt
      show ((st₁.envs ++ [⟨[], [], some st₁.cur⟩])[st₁.envs.length]?).map Scope.parent =
        some (some st₁.cur)
      rw [List.getElem?_concat_length]
      rfl
    have p := p1.trans p2
    cases hx : stX.envs[st₁.envs.length]? with
    | none =>
      unfold parAt at p
      rw [hx] at p
      exact absurd p (by simp)
    | some sc =>
      unfold parAt at p
      rw [hx] at p
      refine ⟨sc, rfl, ?_⟩
      have hp : sc.parent = some st₁.cur := Option.some.inj p
      rw [hp, hE.1]

theorem frame_forStmt_step (fuel : Nat)
    (ihE : ∀ e st, FrameX none st (evalE fuel e st).2)
    (ihFL : ∀ vn r idx b acc st,
      FrameX (some st.cur) st (execForList fuel vn r idx b acc st).2)
    (ihFI : ∀ vn items b acc st,
      FrameX (some st.cur) st (execForItems fuel vn items b acc st).2)
    (vn : String) (iterable : Expr) (body : List Stmt) (st : St) :
    FrameX none st (execStmt (fuel+1) (.forStmt vn iterable body) st).2 ∧
    (∀ itv st₁, evalE fuel iterable st = (.ok itv, st₁) →
      ∃ sc, (execStmt (fuel+1) (.forStmt vn iterable body) st).2.envs[st₁.envs.length]? =
          some sc ∧ sc.parent = some st.cur) := by
  simp only [execStmt]
  rcases hev : evalE fuel iterable st with ⟨rv, st₁⟩
  have hE := ihE iterable st
  rw [hev] at hE
  cases rv with
  | ok itv =>
    cases itv
    case vlist ref =>
      have hF := ihFL vn ref 0 body .vnone (forChildSt st₁)
      refine ⟨(frame_for_glue hE hF).1, ?_⟩
      intro itv' st₁' hpair
      injection hpair with h1 h2
      subst h2
      exact (frame_for_glue hE hF).2
    case vstr sLit =>
      have hF := ihFI vn (sLit.data.map (fun c => Value.vstr ⟨[c]⟩)) body .vnone
        (forChildSt st₁)
      refine ⟨(frame_for_glue hE hF).1, ?_⟩
      intro itv' st₁' hpair
      injection hpair with h1 h2
      subst h2
      exact (frame_for_glue hE hF).2
    case vmap ref =>
      have hF := ihFI vn ((st₁.heap.mapAt ref).map Prod.fst) body .vnone
        (forChildSt st₁)
      refine ⟨(frame_for_glue hE hF).1, ?_⟩
      intro itv' st₁' hpair
      injection hpair with h1 h2
      subst h2
      exact (frame_for_glue hE hF).2
    all_goals
      refine ⟨(frame_for_glue hE (frame_refl _ _)).1, ?_⟩
      intro itv' st₁' hpair
      injection hpair with h1 h2
      subst h2
      exact (frame_for_glue hE (frame_refl _ _)).2
  | ret v =>
    refine ⟨hE, ?_⟩
    intro itv' st₁' hpair
    injection hpair with h1 h2
    exact RRes.noConfusion h1
  | brk =>
    refine ⟨hE, ?_⟩
    intro itv' st₁' hpair
    injection hpair with h1 h2
    exact RRes.noConfusion h1
  | cont =>
    refine ⟨hE, ?_⟩
    intro itv' st₁' hpair
    injection hpair with h1 h2
    exact RRes.noConfusion h1
  | err m =>
    refine ⟨hE, ?_⟩
    intro itv' st₁' hpair
    injection hpair with h1 h2
    exact RRes.noConfusion h1

theorem frame_step_execStmt (fuel : Nat)
    (ihE : ∀ e st, FrameX none st (evalE fuel e st).2)
    (ihA : ∀ es st, FrameX none st (evalArgs fuel es st).2)
    (ihSs : ∀ ss st, FrameX (some st.cur) st (execStmts fuel ss st).2)
    (ihElifs : ∀ els elseB st, FrameX (some st.cur) st (execElifs fuel els elseB st).2)
    (ihW : ∀ c b acc st, FrameX (some st.cur) st (execWhile fuel c b acc st).2)
    (ihFL : ∀ vn r idx b acc st,
      FrameX (some st.cur) st (execForList fuel vn r idx b acc st).2)
    (ihFI : ∀ vn items b acc st,
      FrameX (some st.cur) st (execForItems fuel vn items b acc st).2) :
    ∀ s st, FrameX (some st.cur) st (execStmt (fuel+1) s st).2 := by
  intro s st
  cases s with
  | exprStmt e => exact frame_mono (ihE e st)
  | varDecl name ty valOpt isConst =>
    cases valOpt with
    | none => exact frame_defineIn st st.cur name .vnone isConst
    | some e =>
      simp only [execStmt]
      split
      case _ v st₁ heq =>
        have hE := ihE e st
        rw [heq] at hE
        rw [← hE.1]
        exact frame_trans (frame_mono hE) (frame_defineIn st₁ st₁.cur name v isConst)
      case _ => exact frame_mono (ihE e st)
  | assign target op value =>
    cases target
    case identifier name =>
      simp only [execStmt]
      split
      case _ v st₁ heq =>
        have hE := ihE value st
        rw [heq] at hE
        split
        · split
          case _ st₂ heq₂ => exact frame_trans (frame_mono hE) (frame_assignVar _ heq₂)
          case _ m heq₂ => exact frame_mono hE
        · split
          case _ current heq₂ =>
            split
            case _ newV hh heq₃ =>
              have hmid : FrameX (some st.cur) st₁ { st₁ with heap := hh } :=
                frame_of_eq rfl rfl
              split
              case _ st₃ heq₄ =>
                exact frame_trans (frame_mono hE)
                  (frame_trans hmid (frame_assignVar _ heq₄))
              case _ m heq₄ =>
                exact frame_trans (frame_mono hE) hmid
            case _ m heq₃ => exact frame_mono hE
          case _ m heq₂ => exact frame_mono hE
      case _ => exact frame_mono (ihE value st)
    case indexAccess objE idxE =>
      simp only [execStmt]
      split
      case _ v st₁ heq =>
        have hE := ihE value st
        rw [heq] at hE
        split
        case _ ov st₂ heq₂ =>
          have h₂ := ihE objE st₁
          rw [heq₂] at h₂
          split
          case _ iv st₃ heq₃ =>
            have h₃ := ihE idxE st₂
            rw [heq₃] at h₃
            have hchain : FrameX (some st.cur) st st₃ :=
              frame_trans (frame_mono hE)
                (frame_trans (frame_mono h₂) (frame_mono h₃))
            split
            · split
              case _ hh heq₄ => exact frame_trans hchain (frame_of_eq rfl rfl)
              case _ m heq₄ => exact hchain
            · split
              case _ current heq₄ =>
                split
                case _ newV hh heq₅ =>
                  split
                  case _ hh2 heq₆ => exact frame_trans hchain (frame_of_eq rfl rfl)
                  case _ m heq₆ => exact frame_trans hchain (frame_of_eq rfl rfl)
                case _ m heq₅ => exact hchain
              case _ m heq₄ => exact hchain
          case _ =>
            exact frame_trans (frame_mono hE)
              (frame_trans (frame_mono h₂) (frame_mono (ihE idxE st₂)))
        case _ => exact frame_trans (frame_mono hE) (frame_mono (ihE objE st₁))
      case _ => exact frame_mono (ihE value st)
    case memberAccess objE mname =>
      simp only [execStmt]
      split
      case _ v st₁ heq =>
        have hE := ihE value st
        rw [heq] at hE
        split
        case _ ov st₂ heq₂ =>
          have h₂ := ihE objE st₁
          rw [heq₂] at h₂
          have hchain : FrameX (some st.cur) st st₂ :=
            frame_trans (frame_mono hE) (frame_mono h₂)
          split
          · split
            · split
              case _ entries heq₃ => exact frame_trans hchain (frame_of_eq rfl rfl)
              case _ m heq₃ => exact hchain
            · split
              case _ curOpt heq₃ =>
                split
                case _ newV hh heq₄ =>
                  split
                  case _ entries heq₅ => exact frame_trans hchain (frame_of_eq rfl rfl)
                  case _ m heq₅ => exact frame_trans hchain (frame_of_eq rfl rfl)
                case _ m heq₄ => exact hchain
              case _ m heq₃ => exact hchain
          · exact hchain
        case _ => exact frame_trans (frame_mono hE) (frame_mono (ihE objE st₁))
      case _ => exact frame_mono (ihE value st)
    all_goals
      simp only [execStmt]
      split
      case _ v st₁ heq =>
        have hE := ihE value st
        rw [heq] at hE
        exact frame_mono hE
      case _ => exact frame_mono (ihE value st)
  | block stmts => exact ihSs stmts st
  | ifStmt cond thenB elifs elseB =>
    simp only [execStmt]
    split
    case _ c st₁ heq =>
      have hE := ihE cond st
      rw [heq] at hE
      rw [← hE.1]
      split
      · exact frame_trans (frame_mono hE) (ihSs thenB st₁)
      · exact frame_trans (frame_mono hE) (ihElifs elifs elseB st₁)
    case _ => exact frame_mono (ihE cond st)
  | whileStmt cond body => exact ihW cond body .vnone st
  | forStmt vn iterable body =>
    exact frame_mono (frame_forStmt_step fuel ihE ihFL ihFI vn iterable body st).1
  | breakStmt => exact frame_refl _ _
  | continueStmt => exact frame_refl _ _
  | returnStmt valOpt =>
    cases valOpt with
    | none => exact frame_refl _ _
    | some e =>
      simp only [execStmt]
      split
      case _ v st₁ heq =>
        have hE := ihE e st
        rw [heq] at hE
        exact frame_mono hE
      case _ => exact frame_mono (ihE e st)
  | fnDecl name params retTy body isAsync =>
    exact frame_trans (frame_of_eq rfl rfl) (frame_defineIn _ _ _ _ _)
  | eventDecl name fields =>
    have h2 := allocFields_frame fields { st with events := aset st.events name [] }
    have hstep : FrameX
        (some (allocFields { st with events := aset st.events name [] } fields).2.cur)
        st (allocFields { st with events := aset st.events name [] } fields).2 :=
      frame_trans (frame_of_eq rfl rfl) (frame_of_eq h2.1 h2.2)
    rw [← h2.2]
    exact frame_trans hstep
      (frame_trans (frame_of_eq rfl rfl)
        (frame_trans (frame_of_eq rfl rfl) (frame_defineIn _ _ _ _ _)))
  | emitStmt name args =>
    simp only [execStmt]
    split
    case _ avs st₁ heq =>
      have hA := ihA args st
      rw [heq] at hA
      exact frame_trans (frame_mono hA) (frame_of_eq rfl rfl)
    all_goals
      rename_i heq
      have hA := ihA args st
      rw [heq] at hA
      exact frame_mono hA

/-- Master frame lemma, by induction on fuel over the whole
interpreter: expression evaluation (and function calls, whose bodies
run in a fresh environment) preserves the shape of every pre-existing
scope; statement execution can reshape only the scope that is
`current_env` when it starts (`let`, `fn`, `event` declarations define
into `current_env`; assignment only updates values); parameter binding
reshapes only the fresh function environment.  `current_env` itself is
always restored. -/
theorem frame_main : ∀ fuel : Nat,
    (∀ e st, FrameX none st (evalE fuel e st).2) ∧
    (∀ es st, FrameX none st (evalArgs fuel es st).2) ∧
    (∀ ps st, FrameX none st (evalPairs fuel ps st).2) ∧
    (∀ d cid args st, FrameX none st (callFunction fuel d cid args st).2) ∧
    (∀ ps args fe st, FrameX (some fe) st (bindParams fuel ps args fe st).2) ∧
    (∀ s st, FrameX (some st.cur) st (execStmt fuel s st).2) ∧
    (∀ ss st, FrameX (some st.cur) st (execStmts fuel ss st).2) ∧
    (∀ els elseB st, FrameX (some st.cur) st (execElifs fuel els elseB st).2) ∧
    (∀ c b acc st, FrameX (some st.cur) st (execWhile fuel c b acc st).2) ∧
    (∀ vn r idx b acc st,
      FrameX (some st.cur) st (execForList fuel vn r idx b acc st).2) ∧
    (∀ vn items b acc st,
      FrameX (some st.cur) st (execForItems fuel vn items b acc st).2) := by
  intro fuel
  induction fuel with
  | zero =>
    refine ⟨?_, ?_, ?_, ?_, ?_, ?_, ?_, ?_, ?_, ?_, ?_⟩ <;> intros <;>
      exact frame_refl _ _
  | succ fuel ih =>
    obtain ⟨ihE, ihA, ihP, ihC, ihB, ihS, ihSs, ihElifs, ihW, ihFL, ihFI⟩ := ih
    exact ⟨frame_step_evalE fuel ihE ihA ihP ihC,
      frame_step_evalArgs fuel ihE ihA,
      frame_step_evalPairs fuel ihE ihP,
      frame_step_callFunction fuel ihB ihSs,
      frame_step_bindParams fuel ihE ihB,
      frame_step_execStmt fuel ihE ihA ihSs ihElifs ihW ihFL ihFI,
      frame_step_execStmts fuel ihS ihSs,
      frame_step_execElifs fuel ihE ihSs ihElifs,
      frame_step_execWhile fuel ihE ihSs ihW,
      frame_step_execForList fuel ihSs ihFL,
      frame_step_execForItems fuel ihSs ihFI⟩

/-- C7.  For every `for`-in statement executed by the tree-walking
evaluator: `current_env` is restored afterwards; environments are only
appended; every scope that existed before the loop — including the
enclosing scope — keeps its exact shape (bound names, consts, parent),
so the loop variable and any name first defined inside the body do not
leak into the enclosing scope (a name unbound in the enclosing scope
before the loop is still unbound there after it); and when the
iterable evaluates, a fresh child scope whose parent is the enclosing
scope has been appended for the loop body
(`Interpreter.execute_ForStatement`). -/
theorem c7_for_loop_scope :
    ∀ (fuel : Nat) (vn : String) (iterable : Expr) (body : List Stmt)
      (st : St) (r : Res) (st' : St),
      execStmt fuel (.forStmt vn iterable body) st = (r, st') →
      st'.cur = st.cur ∧
      st.envs.length ≤ st'.envs.length ∧
      (∀ i, i < st.envs.length → sigAt st'.envs i = sigAt st.envs i) ∧
      (∀ itv st₁, evalE (fuel - 1) iterable st = (.ok itv, st₁) →
        ∃ sc, st'.envs[st₁.envs.length]? = some sc ∧ sc.parent = some st.cur) ∧
      (∀ name s s', st.envs[st.cur]? = some s → st'.envs[st.cur]? = some s' →
        aget s.vars name = none → aget s'.vars name = none) := by
  intro fuel vn iterable body st r st' hexec
  cases fuel with
  | zero =>
    have hst : st = st' := congrArg Prod.snd hexec
    subst hst
    refine ⟨rfl, Nat.le_refl _, fun i _ => rfl, ?_, ?_⟩
    · intro itv st₁ h
      have h' : ((.err "out of fuel" : Res), st) = ((.ok itv : Res), st₁) := h
      injection h' with h1 h2
      exact RRes.noConfusion h1
    · intro name s s' h1 h2 h3
      have : s = s' := Option.some.inj (h1.symm.trans h2)
      subst this
      exact h3
  | succ fuel =>
    have hM := frame_main fuel
    have hstep := frame_forStmt_step fuel hM.1
      (hM.2.2.2.2.2.2.2.2.2.1) (hM.2.2.2.2.2.2.2.2.2.2) vn iterable body st
    rw [hexec] at hstep
    refine ⟨hstep.1.1, hstep.1.2.1, ?_, ?_, ?_⟩
    · intro i hi
      exact hstep.1.2.2.2 i hi (fun hc => Option.noConfusion hc)
    · intro itv st₁ hev
      exact hstep.2 itv st₁ hev
    · intro name s s' h1 h2 h3
      have hcur : st.cur < st.envs.length := by
        by_contra hge
        rw [List.getElem?_eq_none (Nat.le_of_not_lt hge)] at h1
        exact Option.noConfusion h1
      have hsig := hstep.1.2.2.2 st.cur hcur (fun hc => Option.noConfusion hc)
      have hsig' : (st'.envs[st.cur]?).map scopeSig =
          (st.envs[st.cur]?).map scopeSig := hsig
      rw [h1, h2] at hsig'
      have hss : scopeSig s' = scopeSig s := Option.some.inj hsig'
      have hk : akeys s'.vars = akeys s.vars := congrArg (fun t => t.1) hss
      rw [aget_none_iff_not_mem_akeys] at h3 ⊢
      rw [hk]
      exact h3

/-- Witness for C7: running `for i in [1, 2] { let y = i }` from a
single-scope state binding only `x` terminates with `current_env`
restored, the enclosing scope's shape untouched, `i` and `y` still
unbound there (they live in the appended child scope, whose parent is
the enclosing scope). -/
theorem c7_for_loop_scope_witness :
    execStmt 20 stmtC7 stC7 = (.ok .vnone, stFinC7) ∧
    stFinC7.cur = stC7.cur ∧
    sigAt stFinC7.envs 0 = sigAt stC7.envs 0 ∧
    aget scope0C7.vars "i" = none ∧
    aget scope0C7.vars "y" = none ∧
    stFinC7.envs[(1 : Nat)]? = some ⟨[("i", .vint 2), ("y", .vint 2)], [], some 0⟩ := by
  have heq : execStmt 20 stmtC7 stC7 = (.ok .vnone, stFinC7) := rfl
  have h := c7_for_loop_scope 20 "i" iterC7 bodyC7 stC7 (.ok .vnone) stFinC7 heq
  refine ⟨heq, h.1, h.2.2.1 0 (by decide), ?_, ?_, rfl⟩
  · exact h.2.2.2.2 "i" scope0C7 scope0C7 rfl rfl rfl
  · exact h.2.2.2.2 "y" scope0C7 scope0C7 rfl rfl rfl


end CactUScript
